import Mathlib

/-!
Verification of the pyRevit UI loader (script discovery, name decoding,
cache validity, and ribbon reconciliation).

The definitions below are a shallow embedding of the Python sources:
  * `__init__.py` — name decoders (`ScriptGroup`, `ScriptPanel`, `ScriptCommand`),
    tree discovery (`find_scriptcommands` / `find_scriptgroups` / `find_scriptpanels`),
    adoption (`adoptcommands` / `adoptgroups` / `adopt_panels`) and the
    reconciliation pass (`create_or_find_pyrevit_panels` / `createui`).
  * `Lib/pyRevit/_cache.py` — `calculate_hash`, `read_cache_for`, `get_cached_tab`,
    `is_cached_tab_valid`, `is_cache_valid`.
  * `Lib/pyRevit/session.py` — `load`.

Host-application objects (Revit ribbon handles, bitmap icons, loaded .NET
assemblies, the JSON/file layer of the cache and the script-metadata
extractor) are external collaborators; they are modelled as explicit values
threaded through the functions, matching the capability interface the
specification describes for them.
-/

set_option maxHeartbeats 1000000
set_option synthInstance.maxSize 512

/-! ## Python string primitives -/

/-!
The Lean core string functions (`String.splitOn`, `String.replace`, …) are
defined by recursion over byte positions, which the kernel cannot evaluate;
the helpers below reimplement the handful of Python string primitives the
loader uses by structural recursion over the character list, so that every
concrete claim instance can be settled by `decide`.
-/

/-- Lexicographic order on character lists (Python string comparison). -/
def charListLe : List Char → List Char → Bool
  | [], _ => true
  | _ :: _, [] => false
  | c :: cs, d :: ds =>
    if c.toNat < d.toNat then true
    else if d.toNat < c.toNat then false
    else charListLe cs ds

/-- Python string `<=` by code points. -/
def strLe (a b : String) : Bool :=
  charListLe a.toList b.toList

/-- Substring containment, the semantics of Python's `in` operator on
strings (and of `re.search` with a literal pattern). -/
def strContains (s pat : String) : Bool :=
  s.toList.tails.any (fun t => pat.toList.isPrefixOf t)

/-- Python `str.isdigit()`: true iff the string is nonempty and all its
characters are digits. -/
def pyIsdigit (s : String) : Bool :=
  match s.toList with
  | [] => false
  | cs => cs.all Char.isDigit

/-- Python slicing `s[:n]`. -/
def strTake (s : String) (n : Nat) : String :=
  String.mk (s.toList.take n)

/-- Python slicing `s[n:]`. -/
def strDrop (s : String) (n : Nat) : String :=
  String.mk (s.toList.drop n)

/-- Python `str.lower()` (ASCII). -/
def pyLower (s : String) : String :=
  String.mk (s.toList.map Char.toLower)

/-- Python `str.startswith(pat)`. -/
def strStartsWith (s pat : String) : Bool :=
  pat.toList.isPrefixOf s.toList

/-- Python `str.endswith(pat)`. -/
def strEndsWith (s pat : String) : Bool :=
  pat.toList.reverse.isPrefixOf s.toList.reverse

/-- `str.split(sep)` on a single-character separator, Python semantics
(`"".split` gives `[""]`); `rsplit` without a maxsplit is the same. -/
def splitChars (sep : Char) : List Char → List (List Char)
  | [] => [[]]
  | c :: cs =>
    match splitChars sep cs with
    | [] => [[]]
    | g :: gs => if c == sep then [] :: g :: gs else (c :: g) :: gs

/-- `fname.rsplit('_')`. -/
def pySplitUnderscore (s : String) : List String :=
  (splitChars '_' s.toList).map String.mk

/-- Python `str.replace(pat, rep)`: leftmost non-overlapping occurrences.
The second argument counts characters of a matched occurrence that still
have to be consumed without being copied to the output. -/
def replaceAux (pat rep : List Char) : List Char → Nat → List Char
  | [], _ => []
  | _c :: cs, k + 1 => replaceAux pat rep cs k
  | c :: cs, 0 =>
    if pat.isPrefixOf (c :: cs) && !pat.isEmpty then
      rep ++ replaceAux pat rep cs (pat.length - 1)
    else
      c :: replaceAux pat rep cs 0

/-- Python `str.replace` on strings.  (The loader only calls it with
nonempty patterns.) -/
def pyReplace (s pat rep : String) : String :=
  String.mk (replaceAux pat.toList rep.toList s.toList 0)

/-- Python `os.path.splitext`: split off the extension at the last dot that
is preceded somewhere by a non-dot character (so `".png"` has no
extension, `"a.b.c"` splits as `("a.b", ".c")`). -/
def pySplitext (p : String) : String × String :=
  let cs := p.toList
  let idxs := (List.range cs.length).filter
    (fun i => cs.getD i ' ' == '.' && (cs.take i).any (fun c => c != '.'))
  match idxs.getLast? with
  | some i => (String.mk (cs.take i), String.mk (cs.drop i))
  | none => (p, "")

/-- Python `int(...)` restricted to the unsigned decimal strings the loader
feeds it: `none` models the `ValueError` raised on an empty or non-digit
string. -/
def pyInt (s : String) : Option Nat :=
  if pyIsdigit s then
    some (s.toList.foldl (fun a c => a * 10 + (c.toNat - 48)) 0)
  else none

/-! ## Session settings (`PyRevitUISettings`) — the constant fields used by
the decoders and the reconciler.  (The config-file loading in its `__init__`
touches only logging flags and is an external concern.)  The two suffix
fields are named `tabPostfix` and `panelBundlePostfix` in the source. -/

structure PyRevitUISettings where
  pyRevitAssemblyName : String := "pyRevit"
  tabSuffix : String := ".tab"
  panelBundleSuffix : String := ".panel"
  iconFileFormat : String := ".png"
  linkButtonTypeName : String := "PushButton"
  pushButtonTypeName : String := "PushButton"
  smartButtonTypeName : String := "SmartButton"
  pulldownButtonTypeName : String := "PulldownButton"
  stackedThreeTypeName : String := "Stack3"
  stackedTwoTypeName : String := "Stack2"
  splitButtonTypeName : String := "SplitButton"
  splitPushButtonTypeName : String := "SplitPushButton"
  pyRevitInitScriptName : String := "__init__"
  reloadScriptsOverrideGroupName : String := "pyRevit"
  reloadScriptsOverrideName : String := "reloadScripts"
  masterTabName : String := "master"

def sessionSettings : PyRevitUISettings := {}

/-- The `specialcharacters` replacement table of `PyRevitUISettings`,
written in source order.  (Its rules are disjoint — no replacement output
contains another rule's key — so the arbitrary Python dict iteration order
does not affect the result.) -/
def specialcharacters : List (String × String) :=
  [(" ", ""), ("~", ""),
   ("!", "EXCLAM"),
   ("@", "AT"),
   ("#", "NUM"),
   ("$", "DOLLAR"),
   ("%", "PERCENT"),
   ("^", ""),
   ("&", "AND"),
   ("*", "STAR"),
   ("\\(", ""), ("\\)", ""),
   ("+", "PLUS"),
   (";", ""), (":", ""), (",", ""), ("\"", ""), ("\x7b", ""), ("\x7d", ""), ("[", ""), ("]", ""),
   ("-", "MINUS"),
   ("=", "EQUALS"),
   ("<", ""), (">", ""),
   ("?", "QMARK"),
   (".", "DOT"),
   ("\\/", ""), ("\\", "")]

/-- The class-name cleanup loop of `ScriptCommand.__init__`:
`for char, repl in sessionSettings.specialcharacters.items(): ... replace`. -/
def cleanClassName (s : String) : String :=
  specialcharacters.foldl (fun acc kv => pyReplace acc kv.1 kv.2) s

/-! ## Errors

`PyErr` covers the exceptions the loader code can raise while decoding one
filesystem entry: the two homemade ones plus the builtin exceptions that the
decoding expressions can produce (`ValueError` from `int`, `KeyError` from a
dict subscript, `IndexError` from `list.pop`). -/

inductive PyErr where
  | unknownFileNameFormat
  | unknownAssembly
  | valueError
  | keyError
  | indexError
  deriving DecidableEq, Repr

instance {ε α : Type} [DecidableEq ε] [DecidableEq α] : DecidableEq (Except ε α)
  | .error e1, .error e2 =>
    if h : e1 = e2 then isTrue (by rw [h]) else isFalse (fun hc => h (Except.error.inj hc))
  | .error _, .ok _ => isFalse (fun hc => Except.noConfusion hc)
  | .ok _, .error _ => isFalse (fun hc => Except.noConfusion hc)
  | .ok a1, .ok a2 =>
    if h : a1 = a2 then isTrue (by rw [h]) else isFalse (fun hc => h (Except.ok.inj hc))

/-! ## Loaded assemblies (`ScriptGroup.findassembly`) -/

structure Assembly where
  FullName : String
  Name : String
  Location : String
  deriving DecidableEq, Repr

/-- `ScriptGroup.findassembly`: first loaded assembly whose `FullName`
contains the requested name, else `UnknownAssembly`. -/
def findassembly (loaded : List Assembly) (assemblyname : String) : Except PyErr Assembly :=
  match loaded.find? (fun a => strContains a.FullName assemblyname) with
  | some a => .ok a
  | none => .error .unknownAssembly

/-! ## Filesystem model

One directory listing is a list of entries; a file entry carries the two
metadata fields (`__doc__`, `__author__`) that the external script-contents
extractor (`ScriptFileContents.extractparameter`) would return for it —
empty string when absent, matching that extractor's behaviour. -/

inductive FSEntry where
  | file (name : String) (docParam : String) (authorParam : String)
  | dir (name : String) (entries : List FSEntry)

def FSEntry.name : FSEntry → String
  | .file n _ _ => n
  | .dir n _ => n

def FSEntry.isDir : FSEntry → Bool
  | .file _ _ _ => false
  | .dir _ _ => true

def FSEntry.entries : FSEntry → List FSEntry
  | .file _ _ _ => []
  | .dir _ es => es

/-- `op.exists(op.join(filedir, name))` against a directory listing. -/
def fileExists (listing : List FSEntry) (fname : String) : Bool :=
  listing.any (fun e => !e.isDir && e.name == fname)

/-- Metadata of a file in the listing: the `(__doc__, __author__)` pair the
script-contents extractor yields (empty strings when the file is absent or
carries none). -/
def lookupFileParams (listing : List FSEntry) (fname : String) : String × String :=
  match listing.find? (fun e => !e.isDir && e.name == fname) with
  | some (.file _ d a) => (d, a)
  | _ => ("", "")

/-! ## `ScriptCommand` -/

structure ScriptCommand where
  filePath : String := ""
  fileName : String := ""
  tooltip : String := ""
  cmdName : String := ""
  scriptGroupName : String := ""
  className : String := ""
  iconFileName : Option String := none
  buttonIcons : Bool := false
  tabName : String := ""
  deriving DecidableEq, Repr

/-- The "custom name adjustments" of `ScriptCommand.__init__`
(`__init__.py` 442–444): a basename containing the init-script name, seen
under the master tab, is renamed to the reload-scripts override. -/
def cmdProcessedName (f tabname : String) : String :=
  let fe := pySplitext f
  if strContains (pyLower fe.1) (pyLower sessionSettings.pyRevitInitScriptName)
      && tabname == sessionSettings.masterTabName then
    sessionSettings.reloadScriptsOverrideGroupName ++ "_" ++ sessionSettings.reloadScriptsOverrideName
  else fe.1

/-- `ScriptCommand.__init__` (`__init__.py` 428–480): rename the init
script to the reload override under the master tab, require a non-private
`.py` name of exactly two `_`-separated tokens, build the class name, find
the side-by-side icon and assemble the tooltip from the extracted
`__doc__` / `__author__` parameters. -/
def ScriptCommand.init (listing : List FSEntry) (filedir f tabname : String) :
    Except PyErr ScriptCommand :=
  let fe := pySplitext f
  let fext := fe.2
  let fname := cmdProcessedName f tabname
  if !(strStartsWith fname "_") && ".py" == pyLower fext then
    let namepieces := pySplitUnderscore fname
    if namepieces.length == 2 then
      let scriptGroupName := namepieces.getD 0 ""
      let cmdName := namepieces.getD 1 ""
      let className := cleanClassName (tabname ++ scriptGroupName ++ cmdName)
      let iconName := fname ++ sessionSettings.iconFileFormat
      let hasIcon := fileExists listing iconName
      let pr := lookupFileParams listing f
      let tooltip1 := pr.1 ++ "\n\nScript Name:\n" ++ (fname ++ " " ++ pyLower fext)
      let tooltip := if pr.2 != "" then tooltip1 ++ "\n\nAuthor:\n" ++ pr.2 else tooltip1
      .ok { filePath := filedir, fileName := f, tooltip := tooltip, cmdName := cmdName,
            scriptGroupName := scriptGroupName, className := className,
            iconFileName := if hasIcon then some iconName else none,
            buttonIcons := hasIcon, tabName := tabname }
    else .error .unknownFileNameFormat
  else .error .unknownFileNameFormat

/-! ## `ScriptGroup` -/

structure ScriptGroup where
  commands : List ScriptCommand := []
  sourceDir : String := ""
  sourceFile : String := ""
  sourceFileName : String := ""
  sourceFileExt : String := ".png"
  groupOrder : Nat := 0
  panelName : String := ""
  groupType : Option String := none
  groupName : String := ""
  buttonIcons : Bool := false
  assemblyName : Option String := none
  assemblyClassName : Option String := none
  assemblyLocation : Option String := none
  tabName : String := ""
  deriving DecidableEq, Repr

/-- `ScriptGroup.isdescriptorfile`: `.png` extension and the first two
characters of the basename are digits. -/
def ScriptGroup.isdescriptorfile (fname fext : String) : Bool :=
  sessionSettings.iconFileFormat == pyLower fext && pyIsdigit (strTake fname 2)

/-- `ScriptGroup.__init__` (`__init__.py` 323–374).  Token counts 4 and 6
read the group order as `int(order_token[2:])` (digits after the first
two); count 3 reads the whole token.  A token count outside {3, 4, 6} with
a numeric first token falls through every branch and the constructor
completes with the default field values — no exception is raised.
`UnknownFileNameFormat` is raised only when `isdescriptorfile` fails. -/
def ScriptGroup.init (loaded : List Assembly)
    (filedir f tabname bundledPanelName : String) : Except PyErr ScriptGroup :=
  let fe := pySplitext f
  let fname := fe.1
  let fext := fe.2
  if ScriptGroup.isdescriptorfile fname fext then
    let base : ScriptGroup :=
      { sourceDir := filedir, sourceFile := f, sourceFileName := fname, sourceFileExt := fext,
        panelName := bundledPanelName, tabName := tabname }
    let namepieces := pySplitUnderscore fname
    let n := namepieces.length
    if pyIsdigit (namepieces.getD 0 "") then
      if n == 4 || n == 6 then
        match pyInt (strDrop (namepieces.getD 0 "") 2) with
        | none => .error .valueError
        | some o =>
          let g : ScriptGroup :=
            { base with groupOrder := o, panelName := namepieces.getD 1 "",
                        groupType := some (namepieces.getD 2 ""),
                        groupName := namepieces.getD 3 "", buttonIcons := true }
          if n == 6 then
            match findassembly loaded (namepieces.getD 4 "") with
            | .error e => .error e
            | .ok a1 =>
              match findassembly loaded a1.Name with
              | .error e => .error e
              | .ok a2 =>
                .ok { g with assemblyName := some a1.Name,
                             assemblyClassName := some (namepieces.getD 5 ""),
                             assemblyLocation := some a2.Location }
          else .ok g
      else if n == 3 then
        match pyInt (namepieces.getD 0 "") with
        | none => .error .valueError
        | some o =>
          .ok { base with groupOrder := o, groupType := some (namepieces.getD 1 ""),
                          groupName := namepieces.getD 2 "", buttonIcons := true }
      else .ok base
    else .ok base
  else .error .unknownFileNameFormat

/-- `ScriptGroup.islinkbutton`: an assembly reference was decoded. -/
def ScriptGroup.islinkbutton (g : ScriptGroup) : Bool :=
  g.assemblyName.isSome

/-- `ScriptGroup.adoptcommands` (`__init__.py` 376–383): append every
candidate command whose group name matches, whose tab is this group's tab
or the master tab, and whose file name is not among the file names this
group held when the call started. -/
def ScriptGroup.adoptcommands (g : ScriptGroup) (cmds : List ScriptCommand)
    (masterTabName : String) : ScriptGroup :=
  let already := g.commands.map (fun x => x.fileName)
  { g with commands := g.commands ++ cmds.filter (fun c =>
      c.scriptGroupName == g.groupName
      && (c.tabName == g.tabName || c.tabName == masterTabName)
      && !(already.contains c.fileName)) }

/-! ## `ScriptPanel` -/

structure ScriptPanel where
  panelOrder : Nat := 0
  panelName : String := ""
  scriptGroups : List ScriptGroup := []
  tabName : String := ""
  tabDir : String := ""
  isBundled : Bool := false
  deriving DecidableEq, Repr

/-- `ScriptPanel.isdescriptorfile`: `.png` extension and the first three
characters of the basename are digits. -/
def ScriptPanel.isdescriptorfile (fname fext : String) : Bool :=
  sessionSettings.iconFileFormat == pyLower fext && pyIsdigit (strTake fname 3)

/-- `ScriptPanel.__init__` (`__init__.py` 282–304): a bundled panel takes
its name from the directory name minus the `.panel` suffix; a loose
descriptor file must have 4 or 6 tokens, panel order being the first two
digits of the first token. -/
def ScriptPanel.init (tabdir fullpanelfilename tabname : String) (bundledpanel : Bool) :
    Except PyErr ScriptPanel :=
  if bundledpanel then
    .ok { panelName := pyReplace fullpanelfilename sessionSettings.panelBundleSuffix "",
          tabName := tabname, tabDir := tabdir, isBundled := true }
  else
    let fe := pySplitext fullpanelfilename
    if ScriptPanel.isdescriptorfile fe.1 fe.2 then
      let namepieces := pySplitUnderscore fe.1
      let n := namepieces.length
      if n == 4 || n == 6 then
        match pyInt (strTake (namepieces.getD 0 "") 2) with
        | none => .error .valueError
        | some o =>
          .ok { panelOrder := o, panelName := namepieces.getD 1 "",
                tabName := tabname, tabDir := tabdir }
      else .error .unknownFileNameFormat
    else .error .unknownFileNameFormat

/-- `ScriptPanel.adoptgroups` (`__init__.py` 310–316): append every
candidate group with matching panel and tab name whose group name is not
among the names this panel held when the call started. -/
def ScriptPanel.adoptgroups (p : ScriptPanel) (groups : List ScriptGroup) : ScriptPanel :=
  let already := p.scriptGroups.map (fun x => x.groupName)
  { p with scriptGroups := p.scriptGroups ++ groups.filter (fun g =>
      g.panelName == p.panelName && g.tabName == p.tabName
      && !(already.contains g.groupName)) }

/-- `ScriptPanel.get_sorted_scriptgroups`: Python's stable `sorted` keyed
on `groupOrder`, modelled by the (stable) insertion sort. -/
def ScriptPanel.get_sorted_scriptgroups (p : ScriptPanel) : List ScriptGroup :=
  List.insertionSort (fun a b => a.groupOrder ≤ b.groupOrder) p.scriptGroups

/-! ## `ScriptTab` -/

structure ScriptTab where
  tabName : String := ""
  tabDirName : String := ""
  tabFolder : String := ""
  scriptPanels : List ScriptPanel := []
  deriving DecidableEq, Repr

/-- `ScriptTab.__init__`. -/
def ScriptTab.init (tname tfolder : String) : ScriptTab :=
  { tabName := pyReplace tname sessionSettings.tabSuffix "",
    tabDirName := tname, tabFolder := tfolder }

/-- `ScriptTab.adopt_panels` (`__init__.py` 263–268). -/
def ScriptTab.adopt_panels (t : ScriptTab) (panels : List ScriptPanel) : ScriptTab :=
  let already := t.scriptPanels.map (fun x => x.panelName)
  { t with scriptPanels := t.scriptPanels ++ panels.filter (fun p =>
      p.tabName == t.tabName && !(already.contains p.panelName)) }

/-- `ScriptTab.get_sorted_scriptpanels`: stable sort keyed on `panelOrder`. -/
def ScriptTab.get_sorted_scriptpanels (t : ScriptTab) : List ScriptPanel :=
  List.insertionSort (fun a b => a.panelOrder ≤ b.panelOrder) t.scriptPanels

/-- `ScriptTab.hascommands` (`__init__.py` 273–278). -/
def ScriptTab.hascommands (t : ScriptTab) : Bool :=
  t.scriptPanels.any (fun p => p.scriptGroups.any (fun g => g.commands.length > 0))

/-! ## Tree discovery (`PyRevitUISession.find_*`)

The session accumulators relevant to one tab directory walk. -/

structure SessionState where
  pyRevitScriptCommands : List ScriptCommand := []
  pyRevitScriptGroups : List ScriptGroup := []
  pyRevitScriptPanels : List ScriptPanel := []
  deriving DecidableEq, Repr

/-- One iteration of the `find_scriptcommands` loop body
(`__init__.py` 629–641): non-directory `.py` entries are decoded; both
`except UnknownFileNameFormat` and the bare `except` skip the entry, so no
exception ever escapes this loop. -/
def find_scriptcommands_step (listing : List FSEntry) (searchdir tabname : String)
    (st : SessionState) (e : FSEntry) : SessionState :=
  let fe := pySplitext e.name
  if !e.isDir && ".py" == pyLower fe.2 then
    match ScriptCommand.init listing searchdir e.name tabname with
    | .ok c => { st with pyRevitScriptCommands := st.pyRevitScriptCommands ++ [c] }
    | .error _ => st
  else st

/-- `PyRevitUISession.find_scriptcommands` (`__init__.py` 626–644):
`files = sorted(os.listdir(searchdir))`, then the loop. -/
def find_scriptcommands (listing : List FSEntry) (searchdir tabname : String)
    (st : SessionState) : SessionState :=
  let files := List.insertionSort (fun a b => strLe a.name b.name = true) listing
  files.foldl (find_scriptcommands_step listing searchdir tabname) st

/-- The decoding step the `find_scriptgroups` loop applies to one listing
entry: `none` when the entry is not a non-directory `.png` file, otherwise
the result of `ScriptGroup.__init__` on it. -/
def groupEntryDecode (loaded : List Assembly) (searchdir tabname bundledPanelName : String)
    (e : FSEntry) : Option (Except PyErr ScriptGroup) :=
  if !e.isDir && sessionSettings.iconFileFormat == pyLower (pySplitext e.name).2 then
    some (ScriptGroup.init loaded searchdir e.name tabname bundledPanelName)
  else none

/-- The `find_scriptgroups` loop (`__init__.py` 649–667) over the raw
(unsorted) listing.  Only `UnknownFileNameFormat` and `UnknownAssembly`
are caught; any other exception raised by `ScriptGroup.__init__` (such as
the `ValueError` from `int('')`) propagates and aborts the walk. -/
def find_scriptgroups_loop (loaded : List Assembly) (searchdir tabname bundledPanelName : String) :
    List FSEntry → SessionState → Except PyErr SessionState
  | [], st => .ok st
  | e :: rest, st =>
    match groupEntryDecode loaded searchdir tabname bundledPanelName e with
    | some (.ok g) =>
      let g := g.adoptcommands st.pyRevitScriptCommands sessionSettings.masterTabName
      find_scriptgroups_loop loaded searchdir tabname bundledPanelName rest
        { st with pyRevitScriptGroups := st.pyRevitScriptGroups ++ [g] }
    | some (.error .unknownFileNameFormat) =>
      find_scriptgroups_loop loaded searchdir tabname bundledPanelName rest st
    | some (.error .unknownAssembly) =>
      find_scriptgroups_loop loaded searchdir tabname bundledPanelName rest st
    | some (.error err) => .error err
    | none => find_scriptgroups_loop loaded searchdir tabname bundledPanelName rest st

/-- `PyRevitUISession.find_scriptgroups` (`__init__.py` 646–667). -/
def find_scriptgroups (loaded : List Assembly) (listing : List FSEntry)
    (searchdir tabname bundledPanelName : String) (st : SessionState) :
    Except PyErr SessionState :=
  let st := find_scriptcommands listing searchdir tabname st
  find_scriptgroups_loop loaded searchdir tabname bundledPanelName listing st

/-- `is_panel_bundled` for one listing entry (`__init__.py` 676–678). -/
def panelEntryBundled (e : FSEntry) : Bool :=
  e.isDir
    && !(strStartsWith e.name "." || strStartsWith e.name "_")
    && strEndsWith e.name sessionSettings.panelBundleSuffix

/-- Whether the `find_scriptpanels` loop considers an entry at all
(`is_panel_bundled or is_panel_defined_by_png`). -/
def panelEntryRelevant (e : FSEntry) : Bool :=
  panelEntryBundled e || sessionSettings.iconFileFormat == pyLower (pySplitext e.name).2

/-- The `find_scriptpanels` loop (`__init__.py` 672–698): bundled panel
directories and `.png` descriptor entries become panels; a bundled panel
first walks its own directory for script groups; a `(panelName, tabName)`
pair already collected is skipped; only `UnknownFileNameFormat` is caught. -/
def find_scriptpanels_loop (loaded : List Assembly) (tabdir tabname : String) :
    List FSEntry → SessionState → Except PyErr SessionState
  | [], st => .ok st
  | e :: rest, st =>
    let is_panel_bundled := panelEntryBundled e
    if panelEntryRelevant e then
      match ScriptPanel.init tabdir e.name tabname is_panel_bundled with
      | .ok sp =>
        let walked :=
          if is_panel_bundled then
            find_scriptgroups loaded e.entries (tabdir ++ "/" ++ e.name) tabname sp.panelName st
          else .ok st
        match walked with
        | .ok st =>
          let collected := st.pyRevitScriptPanels.map (fun x => (x.panelName, x.tabName))
          if !(collected.contains (sp.panelName, sp.tabName)) then
            let sp := sp.adoptgroups st.pyRevitScriptGroups
            find_scriptpanels_loop loaded tabdir tabname rest
              { st with pyRevitScriptPanels := st.pyRevitScriptPanels ++ [sp] }
          else find_scriptpanels_loop loaded tabdir tabname rest st
        | .error .unknownFileNameFormat => find_scriptpanels_loop loaded tabdir tabname rest st
        | .error err => .error err
      | .error .unknownFileNameFormat => find_scriptpanels_loop loaded tabdir tabname rest st
      | .error err => .error err
    else find_scriptpanels_loop loaded tabdir tabname rest st

/-- `PyRevitUISession.find_scriptpanels` (`__init__.py` 669–698): walk the
tab directory for commands and groups, then the panels loop. -/
def find_scriptpanels (loaded : List Assembly) (listing : List FSEntry)
    (tabdir tabname : String) (st : SessionState) : Except PyErr SessionState :=
  match find_scriptgroups loaded listing tabdir tabname "" st with
  | .ok st => find_scriptpanels_loop loaded tabdir tabname listing st
  | .error err => .error err

/-! ## Content hash cache (`Lib/pyRevit/_cache.py`)

`calculate_hash` walks a tab folder with `os.walk`.  A walk is modelled as
the list of visited directories, each with its full path, its modification
time and its plain files (name, modification time).  `hashlib.md5(...)` and
Python float timestamps are external to the algorithm being checked — the
hash is an arbitrary function of the rendered sum and the timestamps are
naturals. -/

structure WalkDir where
  path : String
  mtime : Nat
  files : List (String × Nat)
  deriving DecidableEq, Repr

/-- `re.search(r'(\.panel)|(\.tab)', root, re.IGNORECASE)`. -/
def matchesPanelOrTab (root : String) : Bool :=
  strContains (pyLower root) ".panel" || strContains (pyLower root) ".tab"

/-- `re.search(r'(\.py)', filename, re.IGNORECASE)`. -/
def matchesScriptFile (filename : String) : Bool :=
  strContains (pyLower filename) ".py"

/-- The `mtime_sum` accumulated by `calculate_hash` (`_cache.py` 19–37):
every directory whose path matches the panel-or-tab pattern contributes its
mtime, and every file under such a directory whose name matches the script
pattern contributes its mtime. -/
def calculate_hash_sum (walk : List WalkDir) : Nat :=
  walk.foldl (fun acc d =>
    if matchesPanelOrTab d.path then
      d.files.foldl (fun a f => if matchesScriptFile f.1 then a + f.2 else a) (acc + d.mtime)
    else acc) 0

/-- `calculate_hash`: `hashlib.md5(str(mtime_sum)).hexdigest()`, with the
md5 digest as an abstract function of the rendered sum. -/
def calculate_hash (md5hex : String → String) (walk : List WalkDir) : String :=
  md5hex (toString (calculate_hash_sum walk))

/-! The cache error classes live in `Lib/pyRevit/exceptions.py`, which is
not part of this snapshot.  Modelled from the spec: the error taxonomy
(§7) groups read failure, parse failure, version mismatch and hash
mismatch into one non-fatal `CacheMissError` family; `CacheErr` is that
family, with one constructor per class the cache module raises. -/

inductive CacheErr where
  | readError
  | cacheError
  deriving DecidableEq, Repr

/-- One serialized tab snapshot, as read back from the cache file: the
envelope fields checked by `get_cached_tab` plus the opaque serialized
tree. -/
structure CacheSnapshot where
  cacheVersion : String
  tabHash : String
  payload : String
  deriving DecidableEq, Repr

/-- `read_cache_for` (`_cache.py` 53–59): any I/O or JSON-parse failure
(modelled as the absence of a readable snapshot) becomes
`PyRevitCacheReadError`. -/
def read_cache_for (cacheFile : Option CacheSnapshot) : Except CacheErr CacheSnapshot :=
  match cacheFile with
  | some d => .ok d
  | none => .error .readError

/-- `get_cached_tab` (`_cache.py` 80–96): read the snapshot (read errors
propagate — the read happens before the `try`), then load it only when its
`tabHash` equals the freshly computed hash and its `cacheVersion` equals
the running version string; everything else raised inside the `try` is
converted to `PyRevitCacheError`. -/
def get_cached_tab (runningVersion tabHash : String) (cacheFile : Option CacheSnapshot) :
    Except CacheErr CacheSnapshot :=
  match read_cache_for cacheFile with
  | .error e => .error e
  | .ok d =>
    if d.tabHash == tabHash && d.cacheVersion == runningVersion then .ok d
    else .error .cacheError

/-- `is_cached_tab_valid` (`_cache.py` 104–105): the body is `pass`, so the
function returns Python `None` for every tab. -/
def is_cached_tab_valid {α : Type} (_cached_tab : α) : Option Bool :=
  none

/-- Python truthiness of `not x` for `x : None | bool`. -/
def pyNot (o : Option Bool) : Bool :=
  match o with
  | none => true
  | some b => !b

/-- `is_cache_valid` (`_cache.py` 108–112): return `False` as soon as
`not is_cached_tab_valid(tab)` holds for some tab. -/
def is_cache_valid {α : Type} : List α → Bool
  | [] => true
  | t :: rest => if pyNot (is_cached_tab_valid t) then false else is_cache_valid rest

/-! ## `session.load` (`Lib/pyRevit/session.py` 37–77)

`get_installed_packages` and `get_parsed_package` live in `_parser.py`,
which is not part of this snapshot; they are passed in as the discovery
collaborator.  Modelled from the spec: §4.3's write policy — a freshly
discovered tree is "non-cache-loaded", so the parser's result carries
`loaded_from_cache` (the flag `update_cache` tests). -/

structure PkgInfo where
  name : String := ""
  tabs : List String := []
  deriving DecidableEq, Repr

structure ParsedPackage where
  loaded_from_cache : Bool := false
  deriving DecidableEq, Repr

/-- `update_cache` (`_cache.py` 70–77): write the cache only for a package
that was not itself loaded from cache.  Returns whether a write happened. -/
def update_cache_writes (p : ParsedPackage) : Bool :=
  !p.loaded_from_cache

/-- The branch taken by `session.load` for one package. -/
inductive LoadOutcome where
  | fromCache
  | parsed (wroteCache : Bool)
  deriving DecidableEq, Repr

/-- The per-package body of `session.load`'s loop (`session.py` 53–70):
take the cached branch iff `is_cache_valid`, otherwise parse the package
and call `update_cache` on the parse result. -/
def load_package (get_parsed_package : PkgInfo → ParsedPackage) (pkg : PkgInfo) : LoadOutcome :=
  if is_cache_valid pkg.tabs then .fromCache
  else .parsed (update_cache_writes (get_parsed_package pkg))

/-- `session.load`: the loop over `get_installed_packages(root_dir)`. -/
def session_load (get_parsed_package : PkgInfo → ParsedPackage) (packages : List PkgInfo) :
    List LoadOutcome :=
  packages.map (load_package get_parsed_package)

/-! ## Live Revit UI model

The host ribbon, seen through the capability interface the reconciler uses:
tabs contain panels, panels contain ribbon items, composite items
(pulldown/split buttons) contain push buttons.  Handles into the live UI
are addressed as (tab name, panel name, item index, sub-item index); item
indices are stable because items are only appended, never removed.  Bitmap
image assignments are external side effects with no observable state here
and are omitted. -/

structure RButton where
  Name : String := ""
  Text : String := ""
  ClassName : String := ""
  AssemblyName : String := ""
  ToolTip : String := ""
  LongDescription : String := ""
  Enabled : Bool := true
  deriving DecidableEq, Repr

structure RItem where
  Name : String := ""
  Text : String := ""
  ClassName : String := ""
  AssemblyName : String := ""
  ToolTip : String := ""
  LongDescription : String := ""
  Enabled : Bool := true
  IsSynchronizedWithCurrentItem : Bool := true
  subItems : List RButton := []
  deriving DecidableEq, Repr

structure RPanel where
  Name : String := ""
  items : List RItem := []
  deriving DecidableEq, Repr

structure RTab where
  name : String := ""
  panels : List RPanel := []
  deriving DecidableEq, Repr

structure RevitUI where
  tabs : List RTab := []
  deriving DecidableEq, Repr

def RevitUI.findTab (ui : RevitUI) (tname : String) : Option RTab :=
  ui.tabs.find? (fun t => t.name == tname)

/-- `__revit__.CreateRibbonTab` when the tab does not exist yet. -/
def RevitUI.addTab (ui : RevitUI) (tname : String) : RevitUI :=
  { tabs := ui.tabs ++ [{ name := tname }] }

/-- Apply `f` to the first element satisfying `p` (mutation through a
handle). -/
def modifyFirst {α : Type} (p : α → Bool) (f : α → α) : List α → List α
  | [] => []
  | x :: xs => if p x then f x :: xs else x :: modifyFirst p f xs

def RevitUI.modifyTab (ui : RevitUI) (tname : String) (f : RTab → RTab) : RevitUI :=
  { tabs := modifyFirst (fun t => t.name == tname) f ui.tabs }

def RTab.findPanel (t : RTab) (pname : String) : Option RPanel :=
  t.panels.find? (fun p => p.Name == pname)

/-- `__revit__.CreateRibbonPanel`. -/
def RTab.addPanel (t : RTab) (pname : String) : RTab :=
  { t with panels := t.panels ++ [{ Name := pname }] }

def RTab.modifyPanel (t : RTab) (pname : String) (f : RPanel → RPanel) : RTab :=
  { t with panels := modifyFirst (fun p => p.Name == pname) f t.panels }

/-- The items of one live panel, addressed by tab and panel name. -/
def RevitUI.panelItems (ui : RevitUI) (tname pname : String) : Option (List RItem) :=
  match ui.findTab tname with
  | none => none
  | some t =>
    match t.findPanel pname with
    | none => none
    | some p => some p.items

/-- Write one live panel's item list back through its handle. -/
def RevitUI.setPanelItems (ui : RevitUI) (tname pname : String) (items : List RItem) : RevitUI :=
  ui.modifyTab tname (fun t => t.modifyPanel pname (fun p => { p with items := items }))

/-! ### Python dicts of handles

`{b.Name: b for b in ...}` comprehensions, as insertion-ordered key/index
association lists with later-wins update; `dict.pop` removes the entry. -/

def dictInsert (d : List (String × Nat)) (k : String) (v : Nat) : List (String × Nat) :=
  if d.any (fun kv => kv.1 == k) then
    d.map (fun kv => if kv.1 == k then (k, v) else kv)
  else d ++ [(k, v)]

def dictFind (d : List (String × Nat)) (k : String) : Option Nat :=
  match d.find? (fun kv => kv.1 == k) with
  | some kv => some kv.2
  | none => none

def dictErase (d : List (String × Nat)) (k : String) : List (String × Nat) :=
  d.filter (fun kv => kv.1 != k)

/-- Build a name→index dict from the names at the given indices of a list
(a Python dict comprehension over handles). -/
def buildDict (pairs : List (String × Nat)) : List (String × Nat) :=
  pairs.foldl (fun d kv => dictInsert d kv.1 kv.2) []

/-! ## Phase 1: `create_or_find_pyrevit_panels` (`__init__.py` 813–842) -/

/-- Operation counters.  `newbuttoncount` / `updatedbuttoncount` are the
variables of `createui`; the other counters record the remaining create /
disable operations the reconciler can emit. -/
structure OpCounts where
  tabCreates : Nat := 0
  panelCreates : Nat := 0
  containerCreates : Nat := 0
  newbuttoncount : Nat := 0
  updatedbuttoncount : Nat := 0
  orphanDisables : Nat := 0
  deriving DecidableEq, Repr

/-- Total create operations (ribbon tabs, panels, composite containers and
buttons). -/
def OpCounts.creates (c : OpCounts) : Nat :=
  c.tabCreates + c.panelCreates + c.containerCreates + c.newbuttoncount

/-- The per-tab session dictionaries `pyRevitUIPanels` / `pyRevitUIButtons`
filled by `create_or_find_pyrevit_panels`: registered panel names, and per
panel the snapshot of existing item handles (as indices into the live
panel's item list). -/
structure TabUIState where
  uiPanels : List String := []
  uiButtons : List (String × List Nat) := []
  deriving DecidableEq, Repr

/-- The panel loop of `create_or_find_pyrevit_panels` (`__init__.py`
829–839): for each desired panel (in sorted order), reuse a live panel
found in the `pyrevitribbonpanels` dict gathered at tab entry — snapshotting
its current items — or create a fresh empty one. -/
def create_or_find_panels (tabName : String) (existing : List String) :
    List ScriptPanel → RevitUI → OpCounts → TabUIState → RevitUI × OpCounts × TabUIState
  | [], ui, c, st => (ui, c, st)
  | panel :: rest, ui, c, st =>
    if existing.contains panel.panelName then
      let snap :=
        match ui.panelItems tabName panel.panelName with
        | some items => List.range items.length
        | none => []
      create_or_find_panels tabName existing rest ui c
        { uiPanels := st.uiPanels ++ [panel.panelName],
          uiButtons := st.uiButtons ++ [(panel.panelName, snap)] }
    else
      let ui := ui.modifyTab tabName (fun t => t.addPanel panel.panelName)
      create_or_find_panels tabName existing rest ui
        { c with panelCreates := c.panelCreates + 1 }
        { uiPanels := st.uiPanels ++ [panel.panelName],
          uiButtons := st.uiButtons ++ [(panel.panelName, [])] }

/-- The per-tab body of `create_or_find_pyrevit_panels`: tabs without
commands are skipped (their session dicts stay empty); otherwise
`CreateRibbonTab` either succeeds (fresh tab, empty `pyrevitribbonpanels`)
or raises because the tab exists (gather its panels), then the panel loop
runs. -/
def create_or_find_tab (ui : RevitUI) (c : OpCounts) (tab : ScriptTab) :
    RevitUI × OpCounts × TabUIState :=
  if tab.hascommands then
    match ui.findTab tab.tabName with
    | none =>
      let ui := ui.addTab tab.tabName
      create_or_find_panels tab.tabName [] tab.get_sorted_scriptpanels ui
        { c with tabCreates := c.tabCreates + 1 } {}
    | some t =>
      let existing := t.panels.map (fun p => p.Name)
      create_or_find_panels tab.tabName existing tab.get_sorted_scriptpanels ui c {}
  else (ui, c, {})

/-- `create_or_find_pyrevit_panels` over the session's tabs, returning the
per-tab session state in tab order. -/
def create_or_find_pyrevit_panels :
    List ScriptTab → RevitUI → OpCounts → RevitUI × OpCounts × List TabUIState
  | [], ui, c => (ui, c, [])
  | tab :: rest, ui, c =>
    let r := create_or_find_tab ui c tab
    let rr := create_or_find_pyrevit_panels rest r.1 r.2.1
    (rr.1, rr.2.1, r.2.2 :: rr.2.2)

/-! ## Phase 2: `createui` (`__init__.py` 844–1056) -/

/-- The `LongDescription` string built for every created or updated
button. -/
def mkLdesc (className sessionname : String) : String :=
  "Class Name:\n" ++ className ++ "\n\nAssembly Name:\n" ++ sessionname

/-- The push button object built by
`PushButtonData(cmd.className, cmd.cmdName, newAssemblyLocation,
cmd.className)` followed by the `ToolTip` / `LongDescription` assignments
(`__init__.py` 895–900). -/
def pushButtonDataFor (sessionname asmLoc : String) (cmd : ScriptCommand) : RButton :=
  { Name := cmd.className, Text := cmd.cmdName, ClassName := cmd.className,
    AssemblyName := asmLoc, ToolTip := cmd.tooltip,
    LongDescription := mkLdesc cmd.className sessionname }

/-- The panel-level ribbon item built the same way (stacked buttons, and —
with the group name as its display text — the settled form of a push/smart
button item). -/
def buttonDataFor (sessionname asmLoc textName : String) (cmd : ScriptCommand) : RItem :=
  { Name := cmd.className, Text := textName, ClassName := cmd.className,
    AssemblyName := asmLoc, ToolTip := cmd.tooltip,
    LongDescription := mkLdesc cmd.className sessionname }

/-- The link-button item built by `PushButtonData(groupName, groupName,
assemblyLocation, assemblyName + '.' + assemblyClassName)`
(`__init__.py` 1034–1037). -/
def linkButtonDataFor (g : ScriptGroup) : RItem :=
  { Name := g.groupName, Text := g.groupName,
    ClassName := g.assemblyName.getD "" ++ "." ++ g.assemblyClassName.getD "",
    AssemblyName := g.assemblyLocation.getD "" }

/-- Mutate the item at one index of a live panel's item list (a handle
dereference). -/
def setItemAt (items : List RItem) (idx : Nat) (f : RItem → RItem) : List RItem :=
  match items.get? idx with
  | some it => items.set idx (f it)
  | none => items

/-- Mutate one sub-button of the item at `idx`. -/
def setSubAt (items : List RItem) (idx subIdx : Nat) (f : RButton → RButton) : List RItem :=
  setItemAt items idx (fun it =>
    { it with subItems :=
        match it.subItems.get? subIdx with
        | some b => it.subItems.set subIdx (f b)
        | none => it.subItems })

/-- The push-button loop inside a pulldown/split group (`__init__.py`
892–933): create missing buttons (appended to the container), update found
ones (tooltip, description, re-enable; assembly refreshed unless the name
contains the reload override). -/
def createui_subcmds (sessionname asmLoc : String) (idx : Nat) :
    List ScriptCommand → List RItem → List (String × Nat) → OpCounts →
      List RItem × List (String × Nat) × OpCounts
  | [], items, subdict, c => (items, subdict, c)
  | cmd :: rest, items, subdict, c =>
    match dictFind subdict cmd.className with
    | none =>
      let btn : RButton := pushButtonDataFor sessionname asmLoc cmd
      let items := setItemAt items idx (fun it => { it with subItems := it.subItems ++ [btn] })
      createui_subcmds sessionname asmLoc idx rest items subdict
        { c with newbuttoncount := c.newbuttoncount + 1 }
    | some j =>
      let subdict := dictErase subdict cmd.className
      let items := setSubAt items idx j (fun b =>
        { b with ToolTip := cmd.tooltip, LongDescription := mkLdesc cmd.className sessionname,
                 Enabled := true,
                 AssemblyName := if strContains b.Name sessionSettings.reloadScriptsOverrideName
                                 then b.AssemblyName else asmLoc })
      createui_subcmds sessionname asmLoc idx rest items subdict
        { c with updatedbuttoncount := c.updatedbuttoncount + 1 }

/-- The orphaned-sub-button pass of a pulldown/split group (`__init__.py`
934–936). -/
def createui_subOrphans (idx : Nat) (subdict : List (String × Nat))
    (items : List RItem) (c : OpCounts) : List RItem × OpCounts :=
  subdict.foldl (fun r kv =>
    (setSubAt r.1 idx kv.2 (fun b => { b with Enabled := false }),
     { r.2 with orphanDisables := r.2.orphanDisables + 1 }))
    (items, c)

/-- The pulldown / split / split-push branch (`__init__.py` 856–936). -/
def createui_pulldown (sessionname asmLoc : String) (g : ScriptGroup)
    (items : List RItem) (dict : List (String × Nat)) (c : OpCounts) :
    List RItem × List (String × Nat) × OpCounts :=
  let found := dictFind dict g.groupName
  let idx := match found with | some i => i | none => items.length
  let items :=
    match found with
    | some _ => items
    | none => items ++ [{ Name := g.groupName, Text := g.groupName }]
  let dict := match found with | some _ => dictErase dict g.groupName | none => dict
  let c := match found with
    | some _ => c
    | none => { c with containerCreates := c.containerCreates + 1 }
  let items :=
    if g.groupType == some sessionSettings.splitPushButtonTypeName then
      setItemAt items idx (fun it => { it with IsSynchronizedWithCurrentItem := false })
    else items
  let subItems := match items.get? idx with | some it => it.subItems | none => []
  let subdict := buildDict ((List.range subItems.length).map (fun j =>
    ((subItems.getD j {}).ClassName, j)))
  let r := createui_subcmds sessionname asmLoc idx g.commands items subdict c
  let ro := createui_subOrphans idx r.2.1 r.1 r.2.2
  (ro.1, dict, ro.2)

/-- The stacked-three branch loop (`__init__.py` 941–967). -/
def createui_stackcmds (sessionname asmLoc : String) :
    List ScriptCommand → List RItem → List (String × Nat) → OpCounts → List RItem →
      List RItem × List (String × Nat) × OpCounts × List RItem
  | [], items, dict, c, stack => (items, dict, c, stack)
  | cmd :: rest, items, dict, c, stack =>
    match dictFind dict cmd.className with
    | none =>
      let buttondata : RItem := buttonDataFor sessionname asmLoc cmd.cmdName cmd
      createui_stackcmds sessionname asmLoc rest items dict
        { c with newbuttoncount := c.newbuttoncount + 1 } (stack ++ [buttondata])
    | some idx =>
      let dict := dictErase dict cmd.className
      let items := setItemAt items idx (fun it =>
        { it with AssemblyName := asmLoc, ClassName := cmd.className, Enabled := true })
      createui_stackcmds sessionname asmLoc rest items dict
        { c with updatedbuttoncount := c.updatedbuttoncount + 1 } stack

/-- The stacked-three branch (`__init__.py` 939–969): the three collected
button data are added to the panel only when exactly three were created. -/
def createui_stack (sessionname asmLoc : String) (g : ScriptGroup)
    (items : List RItem) (dict : List (String × Nat)) (c : OpCounts) :
    List RItem × List (String × Nat) × OpCounts :=
  let r := createui_stackcmds sessionname asmLoc g.commands items dict c []
  let stack := r.2.2.2
  if stack.length == 3 then (r.1 ++ stack, r.2.1, r.2.2.1)
  else (r.1, r.2.1, r.2.2.1)

/-- The push-button and smart-button branches (`__init__.py` 972–1028),
which perform the same live-UI operations: `commands.pop()` takes the last
command (an empty list raises, caught by the surrounding `try`, skipping
the group); the button is keyed by the command's class name.  The smart
branch's `selfInit` call into the imported script is an external effect. -/
def createui_pushlike (sessionname asmLoc : String) (g : ScriptGroup)
    (items : List RItem) (dict : List (String × Nat)) (c : OpCounts) :
    List RItem × List (String × Nat) × OpCounts :=
  match g.commands.getLast? with
  | none => (items, dict, c)
  | some cmd =>
    let found := dictFind dict cmd.className
    let idx := match found with | some i => i | none => items.length
    let items :=
      match found with
      | some i =>
        setItemAt items i (fun it =>
          { it with AssemblyName := asmLoc, ClassName := cmd.className, Enabled := true })
      | none =>
        items ++ [{ Name := cmd.className, Text := g.groupName, ClassName := cmd.className,
                    AssemblyName := asmLoc }]
    let dict := match found with | some _ => dictErase dict cmd.className | none => dict
    let c := match found with
      | some _ => { c with updatedbuttoncount := c.updatedbuttoncount + 1 }
      | none => { c with newbuttoncount := c.newbuttoncount + 1 }
    let items := setItemAt items idx (fun it =>
      { it with ToolTip := cmd.tooltip, LongDescription := mkLdesc cmd.className sessionname })
    (items, dict, c)

/-- The link-button branch (`__init__.py` 1031–1047). -/
def createui_link (sessionname asmLoc : String) (g : ScriptGroup)
    (items : List RItem) (dict : List (String × Nat)) (c : OpCounts) :
    List RItem × List (String × Nat) × OpCounts :=
  let _ := sessionname
  let _ := asmLoc
  let cls := g.assemblyName.getD "" ++ "." ++ g.assemblyClassName.getD ""
  let loc := g.assemblyLocation.getD ""
  match dictFind dict g.groupName with
  | none =>
    (items ++ [linkButtonDataFor g],
     dict, { c with newbuttoncount := c.newbuttoncount + 1 })
  | some idx =>
    (setItemAt items idx (fun it =>
       { it with AssemblyName := loc, ClassName := cls, Enabled := true }),
     dictErase dict g.groupName,
     { c with updatedbuttoncount := c.updatedbuttoncount + 1 })

/-- The branch dispatch of the `createui` group loop (`__init__.py`
851–1047): the chain of `if`/`elif` tests on `groupType`; a group type
with no branch (including `Stack2` and the fall-through `None`) does
nothing. -/
def createui_group (sessionname asmLoc : String) (g : ScriptGroup)
    (items : List RItem) (dict : List (String × Nat)) (c : OpCounts) :
    List RItem × List (String × Nat) × OpCounts :=
  let groupispulldownbutton := g.groupType == some sessionSettings.pulldownButtonTypeName
  let groupissplitbutton := g.groupType == some sessionSettings.splitButtonTypeName
    || g.groupType == some sessionSettings.splitPushButtonTypeName
  if groupispulldownbutton || groupissplitbutton then
    createui_pulldown sessionname asmLoc g items dict c
  else if g.groupType == some sessionSettings.stackedThreeTypeName then
    createui_stack sessionname asmLoc g items dict c
  else if g.groupType == some sessionSettings.pushButtonTypeName && !g.islinkbutton then
    createui_pushlike sessionname asmLoc g items dict c
  else if g.groupType == some sessionSettings.smartButtonTypeName && !g.islinkbutton then
    createui_pushlike sessionname asmLoc g items dict c
  else if g.groupType == some sessionSettings.linkButtonTypeName && g.islinkbutton then
    createui_link sessionname asmLoc g items dict c
  else (items, dict, c)

/-- The group loop of one panel, in sorted group order. -/
def createui_groups (sessionname asmLoc : String) :
    List ScriptGroup → List RItem → List (String × Nat) → OpCounts →
      List RItem × List (String × Nat) × OpCounts
  | [], items, dict, c => (items, dict, c)
  | g :: rest, items, dict, c =>
    let r := createui_group sessionname asmLoc g items dict c
    createui_groups sessionname asmLoc rest r.1 r.2.1 r.2.2

/-- The orphaned-ribbon-item pass of one panel (`__init__.py` 1050–1052). -/
def createui_panelOrphans (dict : List (String × Nat)) (items : List RItem) (c : OpCounts) :
    List RItem × OpCounts :=
  dict.foldl (fun r kv =>
    (setItemAt r.1 kv.2 (fun it => { it with Enabled := false }),
     { r.2 with orphanDisables := r.2.orphanDisables + 1 }))
    (items, c)

/-- One panel of the `createui` loop (`__init__.py` 847–1052):
`scriptTab.pyRevitUIPanels[panel.panelName]` and
`scriptTab.pyRevitUIButtons[panel.panelName]` raise `KeyError` when the
panel was never registered (a tab that `create_or_find_pyrevit_panels`
skipped); otherwise the item-handle dict is built from the snapshot and
the group loop plus the orphan pass run against the live panel. -/
def createui_panel (sessionname asmLoc : String) (tabName : String) (tabState : TabUIState)
    (panel : ScriptPanel) (ui : RevitUI) (c : OpCounts) : Except PyErr (RevitUI × OpCounts) :=
  if !(tabState.uiPanels.contains panel.panelName) then .error .keyError
  else
    match tabState.uiButtons.find? (fun kv => kv.1 == panel.panelName) with
    | none => .error .keyError
    | some snap =>
      match ui.panelItems tabName panel.panelName with
      | none => .error .keyError
      | some items =>
        let dict := buildDict (snap.2.filterMap (fun i =>
          (items.get? i).map (fun it => (it.Name, i))))
        let r := createui_groups sessionname asmLoc panel.get_sorted_scriptgroups items dict c
        let ro := createui_panelOrphans r.2.1 r.1 r.2.2
        .ok (ui.setPanelItems tabName panel.panelName ro.1, ro.2)

/-- The panel loop of one tab, in sorted panel order. -/
def createui_panels (sessionname asmLoc : String) (tabName : String) (tabState : TabUIState) :
    List ScriptPanel → RevitUI → OpCounts → Except PyErr (RevitUI × OpCounts)
  | [], ui, c => .ok (ui, c)
  | panel :: rest, ui, c =>
    match createui_panel sessionname asmLoc tabName tabState panel ui c with
    | .ok r => createui_panels sessionname asmLoc tabName tabState rest r.1 r.2
    | .error e => .error e

/-- `createui` (`__init__.py` 844–1056): the loop over all session tabs —
with no `hascommands` re-check — paired with the session state phase 1
produced for them. -/
def createui (sessionname asmLoc : String) :
    List (ScriptTab × TabUIState) → RevitUI → OpCounts → Except PyErr (RevitUI × OpCounts)
  | [], ui, c => .ok (ui, c)
  | (tab, tabState) :: rest, ui, c =>
    match createui_panels sessionname asmLoc tab.tabName tabState
        tab.get_sorted_scriptpanels ui c with
    | .ok r => createui sessionname asmLoc rest r.1 r.2
    | .error e => .error e

/-- `createpyrevitui` (`__init__.py` 1058–1064): phase 1
(`create_or_find_pyrevit_panels`) over all tabs, then phase 2 (`createui`)
over all tabs. -/
def createpyrevitui (sessionname asmLoc : String) (tabs : List ScriptTab) (ui : RevitUI) :
    Except PyErr (RevitUI × OpCounts) :=
  let r := create_or_find_pyrevit_panels tabs ui {}
  createui sessionname asmLoc (tabs.zip r.2.2) r.1 r.2.1

/-! ## Specification-side definitions used to state the claims -/

/-- The fingerprint as the specification words it (§4.3): the sum of the
modification times of every directory whose path matches the
panel-or-tab suffix pattern, plus the modification times of every file
under such a directory matching the script extension pattern. -/
def fingerprint_spec (walk : List WalkDir) : Nat :=
  ((walk.filter (fun d => matchesPanelOrTab d.path)).map (fun d =>
    d.mtime + ((d.files.filter (fun f => matchesScriptFile f.1)).map (fun f => f.2)).sum)).sum

/-- Two file records that agree everywhere except possibly on the
modification time of a non-script (icon/image) file. -/
def FileIconEquiv (f g : String × Nat) : Prop :=
  f.1 = g.1 ∧ (matchesScriptFile f.1 = true → f.2 = g.2)

/-- Two walked directories related by an icon-only edit. -/
def DirIconEquiv (d e : WalkDir) : Prop :=
  d.path = e.path ∧ d.mtime = e.mtime ∧ List.Forall₂ FileIconEquiv d.files e.files

/-- Two directory walks related by icon-only edits: same shape, same
directory mtimes, same script-file mtimes; non-script file mtimes free. -/
def IconEquiv (w1 w2 : List WalkDir) : Prop :=
  List.Forall₂ DirIconEquiv w1 w2

/-- The decoding step the `find_scriptpanels` loop applies to one listing
entry (`none` when the entry is not panel-relevant). -/
def panelEntryDecode (tabdir tabname : String) (e : FSEntry) :
    Option (Except PyErr ScriptPanel) :=
  if panelEntryRelevant e then
    some (ScriptPanel.init tabdir e.name tabname (panelEntryBundled e))
  else none

/-- The `(kind, identity, sortOrder, children-identity-sequence)` summary
of one decoded group node. -/
def groupSummary (g : ScriptGroup) : String × Nat × List String :=
  (g.groupName, g.groupOrder, g.commands.map (fun c => c.fileName))

/-- The summary of one decoded panel node: identity, sort order, and the
sorted child-group summaries. -/
def panelSummary (p : ScriptPanel) : String × Nat × List (String × Nat × List String) :=
  (p.panelName, p.panelOrder, p.get_sorted_scriptgroups.map groupSummary)

/-- The `(kind, identity, sortOrder, children-identity-sequence)` tree of
one tab walk: its panels in sort order, each with its sorted groups. -/
def stateTreeSummary (st : SessionState) :
    List (String × Nat × List (String × Nat × List String)) :=
  List.insertionSort (fun x y => x.2.1 ≤ y.2.1) (st.pyRevitScriptPanels.map panelSummary)

/-! ## Canonical reconciliation results

The live-UI contents `createui` produces for one desired group when run
against an empty ribbon, used to state and prove the reconciliation
claims. -/

/-- The combined pulldown / split / split-push test of the `createui`
dispatch. -/
def isPulldownFamily (g : ScriptGroup) : Bool :=
  g.groupType == some sessionSettings.pulldownButtonTypeName
  || g.groupType == some sessionSettings.splitButtonTypeName
  || g.groupType == some sessionSettings.splitPushButtonTypeName

/-- The ribbon items one desired group contributes to its panel when
created against an empty ribbon. -/
def canonicalGroupItems (sessionname asmLoc : String) (g : ScriptGroup) : List RItem :=
  if isPulldownFamily g then
    [{ Name := g.groupName, Text := g.groupName,
       IsSynchronizedWithCurrentItem :=
         !(g.groupType == some sessionSettings.splitPushButtonTypeName),
       subItems := g.commands.map (pushButtonDataFor sessionname asmLoc) }]
  else if g.groupType == some sessionSettings.stackedThreeTypeName then
    if g.commands.length == 3 then
      g.commands.map (fun cmd => buttonDataFor sessionname asmLoc cmd.cmdName cmd)
    else []
  else if (g.groupType == some sessionSettings.pushButtonTypeName
      || g.groupType == some sessionSettings.smartButtonTypeName) && !g.islinkbutton then
    match g.commands.getLast? with
    | some cmd => [buttonDataFor sessionname asmLoc g.groupName cmd]
    | none => []
  else if g.groupType == some sessionSettings.linkButtonTypeName && g.islinkbutton then
    [linkButtonDataFor g]
  else []

/-- The item names (diff keys) a group's canonical items occupy in its
panel. -/
def groupItemNames (g : ScriptGroup) : List String :=
  (canonicalGroupItems "" "" g).map (fun it => it.Name)

/-- How many `newbuttoncount` increments the group produces on a first run
against an empty ribbon. -/
def groupNewButtons (g : ScriptGroup) : Nat :=
  if isPulldownFamily g then g.commands.length
  else if g.groupType == some sessionSettings.stackedThreeTypeName then g.commands.length
  else if (g.groupType == some sessionSettings.pushButtonTypeName
      || g.groupType == some sessionSettings.smartButtonTypeName) && !g.islinkbutton then
    if g.commands.isEmpty then 0 else 1
  else if g.groupType == some sessionSettings.linkButtonTypeName && g.islinkbutton then 1
  else 0

/-- How many composite containers the group creates on a first run. -/
def groupContainerCreates (g : ScriptGroup) : Nat :=
  if isPulldownFamily g then 1 else 0

/-- All canonical items of one panel, group blocks in sorted-group order. -/
def canonicalPanelItems (sessionname asmLoc : String) (gs : List ScriptGroup) : List RItem :=
  (gs.map (canonicalGroupItems sessionname asmLoc)).flatten

/-- The name→index dict entries of a block of groups whose canonical items
start at offset `off`. -/
def namesWithIdx (off : Nat) : List String → List (String × Nat)
  | [] => []
  | n :: rest => (n, off) :: namesWithIdx (off + 1) rest

/-- The handle dict `createui` starts from on a second run, as blocks per
group. -/
def blockPairs (off : Nat) : List ScriptGroup → List (String × Nat)
  | [] => []
  | g :: rest =>
    namesWithIdx off (groupItemNames g)
      ++ blockPairs (off + (groupItemNames g).length) rest

/-- The live panel a first reconciliation run leaves behind. -/
def canonicalRPanel (sessionname asmLoc : String) (p : ScriptPanel) : RPanel :=
  { Name := p.panelName,
    items := canonicalPanelItems sessionname asmLoc p.get_sorted_scriptgroups }

/-- The live tab a first reconciliation run leaves behind. -/
def canonicalRTab (sessionname asmLoc : String) (t : ScriptTab) : RTab :=
  { name := t.tabName,
    panels := t.get_sorted_scriptpanels.map (canonicalRPanel sessionname asmLoc) }

/-- The live UI a first reconciliation run over an empty ribbon leaves
behind: one tab per desired tab with commands. -/
def canonicalUI (sessionname asmLoc : String) (tabs : List ScriptTab) : RevitUI :=
  { tabs := (tabs.filter (fun t => t.hascommands)).map (canonicalRTab sessionname asmLoc) }

/-- The empty live panel shell phase 1 creates for one desired panel. -/
def phase1Panel (p : ScriptPanel) : RPanel := { Name := p.panelName }

/-- The live tab phase 1 creates for one desired tab with commands. -/
def phase1RTab (t : ScriptTab) : RTab :=
  { name := t.tabName, panels := t.get_sorted_scriptpanels.map phase1Panel }

/-- The session dicts phase 1 leaves behind for a list of fresh panels. -/
def phase1StateOf (ps : List ScriptPanel) : TabUIState :=
  { uiPanels := ps.map (fun p => p.panelName),
    uiButtons := ps.map (fun p => (p.panelName, ([] : List Nat))) }

/-- The session dicts phase 1 leaves behind for a freshly created tab. -/
def phase1State (t : ScriptTab) : TabUIState :=
  phase1StateOf t.get_sorted_scriptpanels

/-- The per-tab session states of a first run over an empty ribbon. -/
def phase1States (tabs : List ScriptTab) : List TabUIState :=
  tabs.map (fun t => if t.hascommands then phase1State t else {})

/-- The session dicts phase 1 gathers on a second run, when every panel is
found on the canonical ribbon: each snapshot is the full handle range of
the panel's canonical items. -/
def phase2StateOf (sessionname asmLoc : String) (ps : List ScriptPanel) : TabUIState :=
  { uiPanels := ps.map (fun p => p.panelName),
    uiButtons := ps.map (fun p =>
      (p.panelName,
       List.range (canonicalPanelItems sessionname asmLoc p.get_sorted_scriptgroups).length)) }

/-- The per-tab session states of a second run against the canonical UI. -/
def phase2States (sessionname asmLoc : String) (tabs : List ScriptTab) : List TabUIState :=
  tabs.map (fun t =>
    if t.hascommands then phase2StateOf sessionname asmLoc t.get_sorted_scriptpanels else {})

/-- Buttons one panel creates on a first run. -/
def panelNewButtons (p : ScriptPanel) : Nat :=
  (p.get_sorted_scriptgroups.map groupNewButtons).sum

/-- Composite containers one panel creates on a first run. -/
def panelContainerCreates (p : ScriptPanel) : Nat :=
  (p.get_sorted_scriptgroups.map groupContainerCreates).sum

/-- Buttons one tab creates on a first run. -/
def tabNewButtons (t : ScriptTab) : Nat :=
  (t.get_sorted_scriptpanels.map panelNewButtons).sum

/-- Composite containers one tab creates on a first run. -/
def tabContainerCreates (t : ScriptTab) : Nat :=
  (t.get_sorted_scriptpanels.map panelContainerCreates).sum

/-- Buttons the whole desired tree creates on a first run. -/
def treeNewButtons (tabs : List ScriptTab) : Nat :=
  (tabs.map tabNewButtons).sum

/-- Composite containers the whole tree creates on a first run. -/
def treeContainerCreates (tabs : List ScriptTab) : Nat :=
  (tabs.map tabContainerCreates).sum

/-- Ribbon panels phase 1 creates on a first run. -/
def treePanelCreates (tabs : List ScriptTab) : Nat :=
  ((tabs.filter (fun t => t.hascommands)).map
    (fun t => t.get_sorted_scriptpanels.length)).sum


/-- The adopted group one listing entry contributes to the
`find_scriptgroups` walk (`none` when the entry is skipped or fails to
decode). -/
def groupEntryAdopted (loaded : List Assembly) (searchdir tabname bundledPanelName mt : String)
    (cmds : List ScriptCommand) (e : FSEntry) : Option ScriptGroup :=
  match groupEntryDecode loaded searchdir tabname bundledPanelName e with
  | some (.ok g) => some (g.adoptcommands cmds mt)
  | _ => none

/-- Whether decoding one entry raises an exception the `find_scriptgroups`
loop does not catch. -/
def groupEntryHardError (loaded : List Assembly) (searchdir tabname bundledPanelName : String)
    (e : FSEntry) : Bool :=
  match groupEntryDecode loaded searchdir tabname bundledPanelName e with
  | some (.error .unknownFileNameFormat) => false
  | some (.error .unknownAssembly) => false
  | some (.error _) => true
  | _ => false

/-! ## Concrete claim scenarios -/

/-- A command matching group `"G"` of tab `"T"`. -/
def sharedCmd : ScriptCommand :=
  { fileName := "G_C.py", scriptGroupName := "G", tabName := "T" }

/-- A group `"G"` living in panel `"P1"` of tab `"T"`. -/
def groupInPanelOne : ScriptGroup := { groupName := "G", tabName := "T", panelName := "P1" }

/-- A group with the same name and tab living in panel `"P2"`. -/
def groupInPanelTwo : ScriptGroup := { groupName := "G", tabName := "T", panelName := "P2" }

/-- A pulldown group of tab `"T"` / panel `"P"` with no commands. -/
def emptyPulldownGroup : ScriptGroup :=
  { groupName := "G", groupType := some "PulldownButton", tabName := "T", panelName := "P" }

/-- A desired tab whose only panel holds a single command-less group, so
`hascommands` is false while `get_sorted_scriptpanels` is nonempty. -/
def commandlessTab : ScriptTab :=
  { tabName := "T",
    scriptPanels := [{ panelName := "P", tabName := "T",
                       scriptGroups := [emptyPulldownGroup] }] }

/-- A command of class name `"TGA"` for the reconciliation scenarios. -/
def stackScenCmd : ScriptCommand :=
  { fileName := "G_A.py", cmdName := "A", scriptGroupName := "G", className := "TGA",
    tabName := "T" }

/-- A stacked-three group holding a single command. -/
def stackScenGroup : ScriptGroup :=
  { groupName := "G", groupType := some "Stack3", tabName := "T", panelName := "P",
    commands := [stackScenCmd] }

/-- A desired tree with one tab, one panel and the single-command stack
group. -/
def stackScenTab : ScriptTab :=
  { tabName := "T",
    scriptPanels := [{ panelName := "P", tabName := "T",
                       scriptGroups := [stackScenGroup] }] }


/-- Two consecutive reconciliation passes over the same desired tree: the
operation counters of the first run (from an empty ribbon) and of the
second run (against the ribbon the first run left behind). -/
def reconcileTwice (sessionname asmLoc : String) (tabs : List ScriptTab) :
    Option (OpCounts × OpCounts) :=
  match createpyrevitui sessionname asmLoc tabs { tabs := [] } with
  | .ok r1 =>
    match createpyrevitui sessionname asmLoc tabs r1.1 with
    | .ok r2 => some (r1.2, r2.2)
    | .error _ => none
  | .error _ => none


/-- The well-formedness of one desired group under which reconciliation is
idempotent: pulldown-family groups have distinct command class names, and
stacked-three groups have exactly three commands or none (a stack with any
other size counts created buttons that are never added to the panel). -/
def GroupWellFormed (g : ScriptGroup) : Prop :=
  (isPulldownFamily g = true → (g.commands.map (fun c => c.className)).Nodup)
  ∧ (g.groupType = some sessionSettings.stackedThreeTypeName →
      g.commands.length = 3 ∨ g.commands = [])

/-- Panel well-formedness: the item names its groups occupy are pairwise
distinct, and each group is well-formed. -/
def PanelWellFormed (p : ScriptPanel) : Prop :=
  ((p.get_sorted_scriptgroups.map groupItemNames).flatten).Nodup
  ∧ ∀ g ∈ p.get_sorted_scriptgroups, GroupWellFormed g

/-- Tab well-formedness: distinct panel names, no panels when the tab has
no commands (otherwise `createui` raises `KeyError`, claim C9), and
well-formed panels. -/
def TabWellFormed (t : ScriptTab) : Prop :=
  (t.get_sorted_scriptpanels.map (fun p => p.panelName)).Nodup
  ∧ (t.hascommands = false → t.scriptPanels = [])
  ∧ ∀ p ∈ t.get_sorted_scriptpanels, PanelWellFormed p

/-- Desired-tree well-formedness for the idempotence statement. -/
def TreeWellFormed (tabs : List ScriptTab) : Prop :=
  (tabs.map (fun t => t.tabName)).Nodup ∧ ∀ t ∈ tabs, TabWellFormed t

instance (g : ScriptGroup) : Decidable (GroupWellFormed g) := by
  unfold GroupWellFormed
  infer_instance

instance (p : ScriptPanel) : Decidable (PanelWellFormed p) := by
  unfold PanelWellFormed
  infer_instance

instance (t : ScriptTab) : Decidable (TabWellFormed t) := by
  unfold TabWellFormed
  infer_instance

instance (tabs : List ScriptTab) : Decidable (TreeWellFormed tabs) := by
  unfold TreeWellFormed
  infer_instance

/-- Total `newbuttoncount` of a first run over one panel's sorted groups. -/
def groupsNewButtons (gs : List ScriptGroup) : Nat :=
  (gs.map groupNewButtons).sum

/-- Two group descriptor files declaring the same panel `"P"` and the same
group order; used for the discovery-determinism counterexample. -/
def panelScenListing1 : List FSEntry :=
  [FSEntry.file "0101_P_PullDown_A.png" "" "", FSEntry.file "0201_P_PullDown_B.png" "" ""]

/-- The same directory snapshot enumerated in the opposite order. -/
def panelScenListing2 : List FSEntry :=
  [FSEntry.file "0201_P_PullDown_B.png" "" "", FSEntry.file "0101_P_PullDown_A.png" "" ""]

/-- The live tab mid-way through the phase-2 panel loop of a first run:
already-processed panels canonical, pending panels still empty shells. -/
def tabInProgress (sessionname asmLoc tn : String) (done ps : List ScriptPanel) : RTab :=
  { name := tn,
    panels := done.map (canonicalRPanel sessionname asmLoc) ++ ps.map phase1Panel }

/-- The live tab once every panel of the loop is canonical. -/
def tabDone (sessionname asmLoc tn : String) (all : List ScriptPanel) : RTab :=
  { name := tn, panels := all.map (canonicalRPanel sessionname asmLoc) }

/-- A ribbon with one distinguished tab between two fixed stretches. -/
def uiWithTab (pre : List RTab) (t : RTab) (post : List RTab) : RevitUI :=
  { tabs := pre ++ t :: post }

/-- The operation counters of a first reconciliation run over an empty
ribbon. -/
def run1Counts (tabs : List ScriptTab) : OpCounts :=
  { tabCreates := (tabs.filter (fun t => t.hascommands)).length,
    panelCreates := treePanelCreates tabs,
    containerCreates := treeContainerCreates tabs,
    newbuttoncount := treeNewButtons tabs }

/-- The operation counters of a second reconciliation run over the
canonical ribbon. -/
def run2Counts (tabs : List ScriptTab) : OpCounts :=
  { updatedbuttoncount := treeNewButtons tabs }

/-- A second command of class name `"TGB"` for the well-formed
reconciliation scenario. -/
def wfScenCmdB : ScriptCommand :=
  { fileName := "G_B.py", cmdName := "B", scriptGroupName := "G", className := "TGB",
    tabName := "T" }

/-- A pulldown group with two commands of distinct class names. -/
def wfScenGroup : ScriptGroup :=
  { groupName := "G", groupType := some "PulldownButton", tabName := "T", panelName := "P",
    commands := [stackScenCmd, wfScenCmdB] }

/-- A well-formed desired tree: one tab, one panel, one two-command
pulldown group. -/
def wfScenTab : ScriptTab :=
  { tabName := "T",
    scriptPanels := [{ panelName := "P", tabName := "T", scriptGroups := [wfScenGroup] }] }

/-- The decoding step the `find_scriptcommands` loop applies to one
(sorted) listing entry. -/
def cmdEntryDecode (listing : List FSEntry) (searchdir tabname : String)
    (e : FSEntry) : Option ScriptCommand :=
  let fe := pySplitext e.name
  if !e.isDir && ".py" == pyLower fe.2 then
    (ScriptCommand.init listing searchdir e.name tabname).toOption
  else none

/-- The command list `find_scriptcommands` builds from a listing. -/
def commandsOf (listing : List FSEntry) (searchdir tabname : String) : List ScriptCommand :=
  (List.insertionSort (fun a b => strLe a.name b.name = true) listing).filterMap
    (cmdEntryDecode listing searchdir tabname)

/-- The group list `find_scriptgroups` builds from a flat tab listing. -/
def groupsOf (loaded : List Assembly) (listing : List FSEntry)
    (searchdir tabname : String) : List ScriptGroup :=
  listing.filterMap (groupEntryAdopted loaded searchdir tabname ""
    sessionSettings.masterTabName (commandsOf listing searchdir tabname))

/-- Whether one listing entry raises an exception the `find_scriptpanels`
loop does not catch (a flat `.png` descriptor whose order token is not an
integer). -/
def panelEntryHardError (tabdir tabname : String) (e : FSEntry) : Bool :=
  if panelEntryRelevant e && !panelEntryBundled e then
    match ScriptPanel.init tabdir e.name tabname false with
    | .ok _ => false
    | .error .unknownFileNameFormat => false
    | .error _ => true
  else false

/-- The panels a flat listing decodes to, before group adoption. -/
def panelsOf (tabdir tabname : String) (l : List FSEntry) : List ScriptPanel :=
  l.filterMap (fun e =>
    if panelEntryRelevant e then (ScriptPanel.init tabdir e.name tabname false).toOption
    else none)

/-- The panels a flat tab walk discovers, each with its adopted groups. -/
def discoveredPanels (loaded : List Assembly) (listing : List FSEntry)
    (tabdir tabname : String) : List ScriptPanel :=
  (panelsOf tabdir tabname listing).map
    (fun sp => sp.adoptgroups (groupsOf loaded listing tabdir tabname))

instance : IsTotal ScriptPanel (fun a b => a.panelOrder ≤ b.panelOrder) :=
  ⟨fun a b => Nat.le_total a.panelOrder b.panelOrder⟩

instance : IsTrans ScriptPanel (fun a b => a.panelOrder ≤ b.panelOrder) :=
  ⟨fun _ _ _ h1 h2 => Nat.le_trans h1 h2⟩

instance : IsTotal ScriptGroup (fun a b => a.groupOrder ≤ b.groupOrder) :=
  ⟨fun a b => Nat.le_total a.groupOrder b.groupOrder⟩

instance : IsTrans ScriptGroup (fun a b => a.groupOrder ≤ b.groupOrder) :=
  ⟨fun _ _ _ h1 h2 => Nat.le_trans h1 h2⟩

/-- Two distinct flat panel descriptors with distinct orders. -/
def detScenListing1 : List FSEntry :=
  [FSEntry.file "0101_P1_PullDown_A.png" "" "", FSEntry.file "0202_P2_PullDown_B.png" "" ""]

/-- The same flat snapshot enumerated in the opposite order. -/
def detScenListing2 : List FSEntry :=
  [FSEntry.file "0202_P2_PullDown_B.png" "" "", FSEntry.file "0101_P1_PullDown_A.png" "" ""]

/-! # Theorems -/

/-- `findassembly` fails only with `UnknownAssembly`. -/
theorem findassembly_error0 (l : List Assembly) (n : String) (e : PyErr) :
    findassembly l n = .error e → e = .unknownAssembly := by
  unfold findassembly
  cases l.find? (fun a => strContains a.FullName n) <;> intro h <;> simp_all

/-- C3 counterexample: decoding the 4-token group basename
`"10_MyPanel_PullDown_MyGroup"` does not succeed with `sortOrder = 10`; the
group decoder computes `int("10"[2:]) = int("")`, which raises
`ValueError`. -/
theorem fourTokenGroupDecodeRaises :
    ScriptGroup.init [] "tabdir" "10_MyPanel_PullDown_MyGroup.png" "Tools" "" =
      .error .valueError := by decide

/-- C3 amended: the 4-token group form reads its sort order from the
digits after the first two, so `"0010_MyPanel_PullDown_MyGroup"` yields
`sortOrder = 10, panelName = "MyPanel", type = PullDown, name = "MyGroup"`;
the 3-token form `"10_PullDown_MyGroup"` reads the whole first token and
yields the same `sortOrder`/`type`/`name` with the panel left implicit
(the bundled panel name passed by the caller). -/
theorem groupDecode_grammar (loaded : List Assembly) (filedir tabname bp : String) :
    (ScriptGroup.init loaded filedir "0010_MyPanel_PullDown_MyGroup.png" tabname bp =
      .ok { sourceDir := filedir, sourceFile := "0010_MyPanel_PullDown_MyGroup.png",
            sourceFileName := "0010_MyPanel_PullDown_MyGroup", sourceFileExt := ".png",
            groupOrder := 10, panelName := "MyPanel", groupType := some "PullDown",
            groupName := "MyGroup", buttonIcons := true, tabName := tabname })
    ∧ (ScriptGroup.init loaded filedir "10_PullDown_MyGroup.png" tabname bp =
      .ok { sourceDir := filedir, sourceFile := "10_PullDown_MyGroup.png",
            sourceFileName := "10_PullDown_MyGroup", sourceFileExt := ".png",
            groupOrder := 10, panelName := bp, groupType := some "PullDown",
            groupName := "MyGroup", buttonIcons := true, tabName := tabname }) := by
  constructor <;> rfl

/-- C4 counterexample: a 5-token group basename with a numeric first token
does not raise `NameFormatError` — `ScriptGroup.__init__` falls through
every token-count branch and yields a descriptor with default fields. -/
theorem fiveTokenGroupDecodeAccepted :
    ScriptGroup.init [] "somedir" "10_a_b_c_d.png" "SomeTab" "" =
      .ok { sourceDir := "somedir", sourceFile := "10_a_b_c_d.png",
            sourceFileName := "10_a_b_c_d", sourceFileExt := ".png",
            panelName := "", tabName := "SomeTab" } := by decide


/-- C4 amended: the command decoder accepts exactly 2 tokens (after the
init-script rename) and the loose-panel decoder exactly token counts
{4, 6}, raising `NameFormatError` otherwise; the group decoder raises
`NameFormatError` exactly when the basename is not a descriptor file
(wrong extension or non-digit two-character prefix) — for every other
token count (such as 5 or 1) with a numeric first token it silently
yields a descriptor with default fields instead of raising. -/
theorem decoder_token_counts (listing : List FSEntry) (loaded : List Assembly)
    (filedir f tabname bp : String) :
    ((∃ c, ScriptCommand.init listing filedir f tabname = .ok c) ↔
      (strStartsWith (cmdProcessedName f tabname) "_" = false
        ∧ pyLower (pySplitext f).2 = ".py"
        ∧ (pySplitUnderscore (cmdProcessedName f tabname)).length = 2))
    ∧ (ScriptPanel.init filedir f tabname false = .error .unknownFileNameFormat ↔
      ¬(ScriptPanel.isdescriptorfile (pySplitext f).1 (pySplitext f).2 = true
        ∧ ((pySplitUnderscore (pySplitext f).1).length = 4
           ∨ (pySplitUnderscore (pySplitext f).1).length = 6)))
    ∧ (ScriptGroup.init loaded filedir f tabname bp = .error .unknownFileNameFormat ↔
      ScriptGroup.isdescriptorfile (pySplitext f).1 (pySplitext f).2 = false)
    ∧ (ScriptGroup.isdescriptorfile (pySplitext f).1 (pySplitext f).2 = true →
        pyIsdigit ((pySplitUnderscore (pySplitext f).1).getD 0 "") = true →
        ¬((pySplitUnderscore (pySplitext f).1).length = 3
          ∨ (pySplitUnderscore (pySplitext f).1).length = 4
          ∨ (pySplitUnderscore (pySplitext f).1).length = 6) →
        ScriptGroup.init loaded filedir f tabname bp =
          .ok { sourceDir := filedir, sourceFile := f,
                sourceFileName := (pySplitext f).1, sourceFileExt := (pySplitext f).2,
                panelName := bp, tabName := tabname }) := by
  refine ⟨?_, ?_, ?_, ?_⟩
  · simp only [ScriptCommand.init]
    constructor
    · rintro ⟨c, hc⟩
      by_cases h1 : (!(strStartsWith (cmdProcessedName f tabname) "_") && ".py" == pyLower (pySplitext f).2) = true
      · simp only [h1, if_true] at hc
        by_cases h2 : ((pySplitUnderscore (cmdProcessedName f tabname)).length == 2) = true
        · simp only [Bool.and_eq_true, Bool.not_eq_true', beq_iff_eq] at h1
          refine ⟨h1.1, h1.2.symm, by simpa using h2⟩
        · simp [h2] at hc
      · simp [h1] at hc
    · rintro ⟨h1, h2, h3⟩
      simp only [h1, h2, h3]
      simp
  · simp only [ScriptPanel.init, Bool.false_eq_true, if_false]
    constructor
    · intro h
      rintro ⟨hd, hn⟩
      rw [hd] at h
      simp only [if_true] at h
      have hn2 : (((pySplitUnderscore (pySplitext f).1).length == 4)
          || ((pySplitUnderscore (pySplitext f).1).length == 6)) = true := by
        rcases hn with hn | hn <;> simp [hn]
      rw [hn2] at h
      simp only [if_true] at h
      rcases hpi : pyInt (strTake ((pySplitUnderscore (pySplitext f).1).getD 0 "") 2) with _ | o <;>
        rw [hpi] at h <;> simp at h
    · intro h
      by_cases hd : ScriptPanel.isdescriptorfile (pySplitext f).1 (pySplitext f).2 = true
      · have hn : ¬((pySplitUnderscore (pySplitext f).1).length = 4
            ∨ (pySplitUnderscore (pySplitext f).1).length = 6) := fun hn => h ⟨hd, hn⟩
        have hn2 : (((pySplitUnderscore (pySplitext f).1).length == 4)
            || ((pySplitUnderscore (pySplitext f).1).length == 6)) = false := by
          simp only [Bool.or_eq_false_iff, beq_eq_false_iff_ne]
          exact ⟨fun hc => hn (Or.inl hc), fun hc => hn (Or.inr hc)⟩
        rw [hd]
        simp [hn2]
      · simp only [Bool.not_eq_true] at hd
        rw [hd]
        simp
  · constructor
    · intro h
      by_cases hd : ScriptGroup.isdescriptorfile (pySplitext f).1 (pySplitext f).2 = true
      · exfalso
        simp only [ScriptGroup.init, hd, if_true] at h
        by_cases hdig : pyIsdigit ((pySplitUnderscore (pySplitext f).1).getD 0 "") = true
        · rw [hdig] at h
          simp only [if_true] at h
          by_cases h46 : (((pySplitUnderscore (pySplitext f).1).length == 4)
              || ((pySplitUnderscore (pySplitext f).1).length == 6)) = true
          · rw [h46] at h
            simp only [if_true] at h
            rcases hpi : pyInt (strDrop ((pySplitUnderscore (pySplitext f).1).getD 0 "") 2)
                with _ | o <;> rw [hpi] at h
            · simp at h
            · simp only [] at h
              by_cases h6 : ((pySplitUnderscore (pySplitext f).1).length == 6) = true
              · rw [h6] at h
                simp only [if_true] at h
                rcases hr1 : findassembly loaded ((pySplitUnderscore (pySplitext f).1).getD 4 "")
                    with e1 | a1 <;> simp only [hr1] at h
                · rw [Except.error.inj h] at hr1
                  have he := findassembly_error0 _ _ _ hr1
                  simp at he
                · rcases hr2 : findassembly loaded a1.Name with e2 | a2 <;> simp only [hr2] at h
                  · rw [Except.error.inj h] at hr2
                    have he := findassembly_error0 _ _ _ hr2
                    simp at he
                  · simp at h
              · simp only [Bool.not_eq_true] at h6
                rw [h6] at h
                simp at h
          · simp only [Bool.not_eq_true] at h46
            rw [h46] at h
            simp only [Bool.false_eq_true, if_false] at h
            by_cases h3 : ((pySplitUnderscore (pySplitext f).1).length == 3) = true
            · rw [h3] at h
              simp only [if_true] at h
              have hpi : pyInt ((pySplitUnderscore (pySplitext f).1).getD 0 "") =
                  some (((pySplitUnderscore (pySplitext f).1).getD 0 "").toList.foldl
                    (fun a c => a * 10 + (c.toNat - 48)) 0) := by
                simp only [pyInt, hdig, if_true]
              rw [hpi] at h
              simp at h
            · simp only [Bool.not_eq_true] at h3
              rw [h3] at h
              simp at h
        · simp only [Bool.not_eq_true] at hdig
          rw [hdig] at h
          simp at h
      · simp only [Bool.not_eq_true] at hd
        exact hd
    · intro hd
      simp [ScriptGroup.init, hd]
  · intro hd hdig hn
    have h46 : (((pySplitUnderscore (pySplitext f).1).length == 4)
        || ((pySplitUnderscore (pySplitext f).1).length == 6)) = false := by
      simp only [Bool.or_eq_false_iff, beq_eq_false_iff_ne]
      exact ⟨fun hc => hn (Or.inr (Or.inl hc)), fun hc => hn (Or.inr (Or.inr hc))⟩
    have h3 : (((pySplitUnderscore (pySplitext f).1).length == 3)) = false := by
      simp only [beq_eq_false_iff_ne]
      exact fun hc => hn (Or.inl hc)
    simp [ScriptGroup.init, hd, hdig, h46, h3]

/-- Witness for `decoder_token_counts`: the 2-token descriptor basename
`"12_x.png"` (token count not in {3, 4, 6}) decodes to the degenerate
default descriptor. -/
theorem decoder_token_counts_witness :
    ScriptGroup.init [] "somedir2" "12_x.png" "T2" "" =
      .ok { sourceDir := "somedir2", sourceFile := "12_x.png", sourceFileName := "12_x",
            sourceFileExt := ".png", panelName := "", tabName := "T2" } :=
  (decoder_token_counts [] [] "somedir2" "12_x.png" "T2" "").2.2.2 (by decide) (by decide)
    (by decide)

/-- C10: `is_cached_tab_valid` returns Python `None` for every tab, the
validity loop therefore treats every tab as invalid, so `is_cache_valid`
is true exactly for a package with zero tabs; for a non-empty package
`session.load` always takes the parse branch and writes the cache
exactly when the parsed package is not flagged as cache-loaded. -/
theorem cache_never_valid_for_nonempty (parser : PkgInfo → ParsedPackage) (pkg : PkgInfo) :
    (is_cache_valid pkg.tabs = true ↔ pkg.tabs = [])
    ∧ (∀ t : String, is_cached_tab_valid t = (none : Option Bool))
    ∧ (pkg.tabs ≠ [] →
        load_package parser pkg = .parsed (!(parser pkg).loaded_from_cache)) := by
  have hvalid : ∀ l : List String, is_cache_valid l = true ↔ l = [] := by
    intro l
    cases l with
    | nil => simp [is_cache_valid]
    | cons t rest => simp [is_cache_valid, pyNot, is_cached_tab_valid]
  refine ⟨hvalid pkg.tabs, fun t => rfl, ?_⟩
  intro h
  have hfalse : is_cache_valid pkg.tabs = false := by
    rcases hv : is_cache_valid pkg.tabs with _ | _
    · rfl
    · exact absurd ((hvalid pkg.tabs).mp hv) h
  simp [load_package, hfalse, update_cache_writes]

theorem cache_never_valid_for_nonempty_witness :
    load_package (fun _ => {}) { name := "pkg", tabs := ["TabOne"] } = .parsed true :=
  (cache_never_valid_for_nonempty (fun _ => {}) { name := "pkg", tabs := ["TabOne"] }).2.2
    (by decide)

/-- C5: a cache snapshot loads successfully iff the file is readable, its
`tabHash` equals the freshly computed fingerprint and its `cacheVersion`
equals the running version; every other outcome is a value of the
cache-miss error family, and an invalid cache makes `session.load` fall
back to a full parse followed by the `update_cache` store. -/
theorem cache_snapshot_validity (rv th : String) (file : Option CacheSnapshot)
    (parser : PkgInfo → ParsedPackage) (pkg : PkgInfo) :
    ((∃ d, get_cached_tab rv th file = .ok d) ↔
      (∃ d, file = some d ∧ d.tabHash = th ∧ d.cacheVersion = rv))
    ∧ ((∃ e, get_cached_tab rv th file = .error e) ↔
      ¬(∃ d, file = some d ∧ d.tabHash = th ∧ d.cacheVersion = rv))
    ∧ (is_cache_valid pkg.tabs = false →
        load_package parser pkg = .parsed (update_cache_writes (parser pkg))) := by
  refine ⟨?_, ?_, ?_⟩
  · cases file with
    | none => simp [get_cached_tab, read_cache_for]
    | some d =>
      by_cases hc : (d.tabHash == th && d.cacheVersion == rv) = true
      · simp only [get_cached_tab, read_cache_for, hc, if_true]
        simp only [Bool.and_eq_true, beq_iff_eq] at hc
        constructor
        · intro _
          exact ⟨d, rfl, hc.1, hc.2⟩
        · intro _
          exact ⟨d, rfl⟩
      · simp only [get_cached_tab, read_cache_for, hc, if_false]
        simp only [Bool.and_eq_true, beq_iff_eq] at hc
        constructor
        · rintro ⟨x, hx⟩
          exact absurd hx (by simp)
        · rintro ⟨x, hx, hh, hv⟩
          rw [Option.some.inj hx] at hc
          exact absurd ⟨hh, hv⟩ hc
  · cases file with
    | none =>
      simp only [get_cached_tab, read_cache_for]
      constructor
      · rintro - ⟨x, hx, -⟩
        exact Option.noConfusion hx
      · intro _
        exact ⟨.readError, rfl⟩
    | some d =>
      by_cases hc : (d.tabHash == th && d.cacheVersion == rv) = true
      · simp only [get_cached_tab, read_cache_for, hc, if_true]
        simp only [Bool.and_eq_true, beq_iff_eq] at hc
        constructor
        · rintro ⟨e, he⟩
          exact absurd he (by simp)
        · intro hno
          exact absurd ⟨d, rfl, hc.1, hc.2⟩ hno
      · simp only [get_cached_tab, read_cache_for, hc, if_false]
        simp only [Bool.and_eq_true, beq_iff_eq] at hc
        constructor
        · rintro - ⟨x, hx, hh, hv⟩
          rw [Option.some.inj hx] at hc
          exact hc ⟨hh, hv⟩
        · intro _
          exact ⟨.cacheError, rfl⟩
  · intro h
    simp [load_package, h]

theorem cache_snapshot_validity_witness :
    ¬(∃ d, (some { cacheVersion := "v2", tabHash := "h", payload := "" } : Option CacheSnapshot)
        = some d ∧ d.tabHash = "h" ∧ d.cacheVersion = "v1")
    ∧ (∃ e, get_cached_tab "v1" "h" (some { cacheVersion := "v2", tabHash := "h", payload := "" })
        = .error e) := by
  have h := (cache_snapshot_validity "v1" "h"
    (some { cacheVersion := "v2", tabHash := "h", payload := "" }) (fun _ => {}) {}).2.1
  refine ⟨?_, h.mpr ?_⟩
  · rintro ⟨d, hd, hh, hv⟩
    rw [← Option.some.inj hd] at hv
    exact absurd hv (by decide)
  · rintro ⟨d, hd, hh, hv⟩
    rw [← Option.some.inj hd] at hv
    exact absurd hv (by decide)

/-- The per-directory file fold of `calculate_hash` accumulates the sum of
script-file mtimes. -/
theorem calc_hash_files_fold (files : List (String × Nat)) (a : Nat) :
    files.foldl (fun a f => if matchesScriptFile f.1 then a + f.2 else a) a
      = a + ((files.filter (fun f => matchesScriptFile f.1)).map (fun f => f.2)).sum := by
  induction files generalizing a with
  | nil => simp
  | cons f rest ih =>
    rcases hf : matchesScriptFile f.1 with _ | _ <;>
      simp only [List.foldl_cons, hf, List.filter_cons, Bool.false_eq_true, if_false, if_true,
        List.map_cons, List.sum_cons, ih] <;> omega

/-- Unfolding `fingerprint_spec` over the head directory. -/
theorem fingerprint_spec_cons (d : WalkDir) (rest : List WalkDir) :
    fingerprint_spec (d :: rest)
      = (if matchesPanelOrTab d.path then
          d.mtime + ((d.files.filter (fun f => matchesScriptFile f.1)).map (fun f => f.2)).sum
        else 0) + fingerprint_spec rest := by
  rcases hd : matchesPanelOrTab d.path with _ | _ <;>
    simp only [fingerprint_spec, List.filter_cons, hd, Bool.false_eq_true, if_false, if_true,
      List.map_cons, List.sum_cons] <;> omega

/-- The accumulated `mtime_sum` of `calculate_hash` equals the
specification's fingerprint sum. -/
theorem calc_hash_sum_eq (walk : List WalkDir) :
    calculate_hash_sum walk = fingerprint_spec walk := by
  have main : ∀ (w : List WalkDir) (acc : Nat),
      w.foldl (fun acc d =>
        if matchesPanelOrTab d.path then
          d.files.foldl (fun a f => if matchesScriptFile f.1 then a + f.2 else a) (acc + d.mtime)
        else acc) acc = acc + fingerprint_spec w := by
    intro w
    induction w with
    | nil => intro acc; simp [fingerprint_spec]
    | cons d rest ih =>
      intro acc
      rw [fingerprint_spec_cons, List.foldl_cons]
      by_cases hd : matchesPanelOrTab d.path = true
      · rw [if_pos hd, if_pos hd, calc_hash_files_fold, ih]
        omega
      · rw [if_neg hd, if_neg hd, ih]
        omega
  unfold calculate_hash_sum
  rw [main walk 0]
  omega

/-- Icon-equivalent file lists have equal script-file mtime sums. -/
theorem fingerprint_files_equiv :
    ∀ {fs gs : List (String × Nat)}, List.Forall₂ FileIconEquiv fs gs →
      ((fs.filter (fun f => matchesScriptFile f.1)).map (fun f => f.2)).sum
        = ((gs.filter (fun f => matchesScriptFile f.1)).map (fun f => f.2)).sum := by
  intro fs gs h
  induction h with
  | nil => rfl
  | cons hf hfrest ihf =>
    rcases hf with ⟨hname, hmt⟩
    simp only [List.filter_cons, hname]
    rcases hm : matchesScriptFile _ with _ | _
    · simp only [Bool.false_eq_true, if_false, ihf]
    · rw [hname] at hmt
      simp only [if_true, List.map_cons, List.sum_cons, ihf, hmt hm]

/-- Icon-equivalent walks have equal fingerprint sums. -/
theorem fingerprint_spec_equiv :
    ∀ {w1 w2 : List WalkDir}, IconEquiv w1 w2 →
      fingerprint_spec w1 = fingerprint_spec w2 := by
  intro w1 w2 h
  induction h with
  | nil => rfl
  | cons hd hrest ih =>
    rcases hd with ⟨hpath, hmtime, hfiles⟩
    rw [fingerprint_spec_cons, fingerprint_spec_cons, ih, hpath, hmtime,
      fingerprint_files_equiv hfiles]

/-- C6: the fingerprint is the hash of the spec-described mtime sum, and
icon-only edits (mtime changes of non-script files) leave it unchanged. -/
theorem fingerprint_contract (md5hex : String → String) (walk w1 w2 : List WalkDir) :
    (calculate_hash md5hex walk = md5hex (toString (fingerprint_spec walk)))
    ∧ (IconEquiv w1 w2 → calculate_hash md5hex w1 = calculate_hash md5hex w2) := by
  constructor
  · unfold calculate_hash
    rw [calc_hash_sum_eq]
  · intro hequiv
    unfold calculate_hash
    rw [calc_hash_sum_eq, calc_hash_sum_eq, fingerprint_spec_equiv hequiv]

theorem fingerprint_contract_witness :
    IconEquiv [⟨"Ext.tab", 5, [("x.py", 7), ("icon.png", 1)]⟩]
              [⟨"Ext.tab", 5, [("x.py", 7), ("icon.png", 99)]⟩]
    ∧ calculate_hash (fun s => s) [⟨"Ext.tab", 5, [("x.py", 7), ("icon.png", 1)]⟩]
        = calculate_hash (fun s => s) [⟨"Ext.tab", 5, [("x.py", 7), ("icon.png", 99)]⟩] := by
  have hequiv : IconEquiv [⟨"Ext.tab", 5, [("x.py", 7), ("icon.png", 1)]⟩]
      [⟨"Ext.tab", 5, [("x.py", 7), ("icon.png", 99)]⟩] :=
    List.Forall₂.cons ⟨rfl, rfl,
      List.Forall₂.cons ⟨rfl, fun _ => rfl⟩
        (List.Forall₂.cons ⟨rfl, fun h => absurd h (by decide)⟩ List.Forall₂.nil)⟩
      List.Forall₂.nil
  exact ⟨hequiv, (fingerprint_contract (fun s => s) [] _ _).2 hequiv⟩

/-- C7 counterexample: adoption is not exclusive — the same command is
adopted by two distinct groups (same group name and tab, different
panels), so a child can end up under more than one parent. -/
theorem adoption_not_exclusive :
    (groupInPanelOne.adoptcommands [sharedCmd] sessionSettings.masterTabName).commands
        = [sharedCmd]
    ∧ (groupInPanelTwo.adoptcommands [sharedCmd] sessionSettings.masterTabName).commands
        = [sharedCmd]
    ∧ groupInPanelOne ≠ groupInPanelTwo := by decide

/-- A filter that excludes candidates whose key is already present stays
empty when re-run after its own results are appended. -/
theorem filter_already_idem {α κ : Type} [DecidableEq κ] (key : α → κ) (A : α → Bool)
    (olds cands : List α) :
    cands.filter (fun c =>
        A c && !((((olds ++ cands.filter (fun c =>
          A c && !((olds.map key).contains (key c)))).map key).contains (key c)))) = [] := by
  rw [List.filter_eq_nil_iff]
  intro c hc hpred
  simp only [Bool.and_eq_true, Bool.not_eq_true'] at hpred
  rcases hpred with ⟨hA, hcontains⟩
  have hnotmem : (key c) ∉
      (olds ++ cands.filter (fun c => A c && !((olds.map key).contains (key c)))).map key := by
    simpa using hcontains
  rw [List.map_append, List.mem_append] at hnotmem
  have holds : (olds.map key).contains (key c) = false := by
    rcases hko : (olds.map key).contains (key c) with _ | _
    · rfl
    · exact absurd (by simpa using hko) (fun hm => hnotmem (Or.inl hm))
  have hmem : c ∈ cands.filter (fun c => A c && !((olds.map key).contains (key c))) := by
    rw [List.mem_filter]
    refine ⟨hc, ?_⟩
    rw [hA, holds]
    rfl
  exact hnotmem (Or.inr (List.mem_map_of_mem key hmem))

/-- C7 amended: adoption is idempotent per parent — re-running any of the
three adopt passes with the same candidate list is a no-op, because the
keys adopted by the first pass are in the parent's already-adopted list —
but it is not exclusive across parents (see the counterexample): the match
is `(parentIdentity, tabIdentity-or-master)` plus not-already-adopted
*in that parent*, with no cross-parent bookkeeping. -/
theorem adoption_idempotent (g : ScriptGroup) (cs : List ScriptCommand) (mt : String)
    (p : ScriptPanel) (gs : List ScriptGroup) (t : ScriptTab) (ps : List ScriptPanel) :
    ((g.adoptcommands cs mt).adoptcommands cs mt = g.adoptcommands cs mt)
    ∧ ((p.adoptgroups gs).adoptgroups gs = p.adoptgroups gs)
    ∧ ((t.adopt_panels ps).adopt_panels ps = t.adopt_panels ps) := by
  refine ⟨?_, ?_, ?_⟩
  · simp only [ScriptGroup.adoptcommands]
    have h2 := filter_already_idem (fun x : ScriptCommand => x.fileName)
      (fun c => c.scriptGroupName == g.groupName && (c.tabName == g.tabName || c.tabName == mt))
      g.commands cs
    simp only [ScriptGroup.mk.injEq, and_true, true_and]
    rw [h2, List.append_nil]
  · simp only [ScriptPanel.adoptgroups]
    have h2 := filter_already_idem (fun x : ScriptGroup => x.groupName)
      (fun x => x.panelName == p.panelName && x.tabName == p.tabName)
      p.scriptGroups gs
    simp only [ScriptPanel.mk.injEq, and_true, true_and]
    rw [h2, List.append_nil]
  · simp only [ScriptTab.adopt_panels]
    have h2 := filter_already_idem (fun x : ScriptPanel => x.panelName)
      (fun x => x.tabName == t.tabName)
      t.scriptPanels ps
    simp only [ScriptTab.mk.injEq, and_true, true_and]
    rw [h2, List.append_nil]

/-- C9: the failing input for the tab-skip rule.  A desired tab whose
subtree has zero commands but at least one panel is skipped by
`create_or_find_pyrevit_panels` (its session panel dict stays empty), yet
`createui` iterates its panels without re-checking `hascommands` and the
dict lookup raises `KeyError`, aborting the whole reconciliation pass
instead of leaving the tab untouched. -/
theorem createui_keyerror_on_commandless_tab :
    commandlessTab.hascommands = false
    ∧ commandlessTab.get_sorted_scriptpanels ≠ []
    ∧ createpyrevitui "session" "asmloc" [commandlessTab] { tabs := [] } = .error .keyError := by
  decide

/-- C2 counterexample: a 4-token group descriptor with a 2-digit numeric
prefix makes `ScriptGroup.__init__` raise `ValueError`, which
`find_scriptgroups` does not catch — the exception escapes and aborts the
enclosing package walk. -/
theorem find_scriptgroups_valueerror_escapes :
    find_scriptgroups [] [FSEntry.file "10_A_PullDown_B.png" "" ""] "tabdir" "T" "" {}
      = .error .valueError := by decide

/-- When no listing entry raises an uncaught exception, the
`find_scriptgroups` loop completes and appends exactly the decodable
entries (malformed ones are excluded and the walk continues). -/
theorem find_scriptgroups_loop_ok (loaded : List Assembly)
    (searchdir tabname bundledPanelName : String) :
    ∀ (l : List FSEntry) (st : SessionState),
      (∀ e ∈ l, groupEntryHardError loaded searchdir tabname bundledPanelName e = false) →
      find_scriptgroups_loop loaded searchdir tabname bundledPanelName l st =
        .ok { st with pyRevitScriptGroups := (st.pyRevitScriptGroups ++
          l.filterMap (groupEntryAdopted loaded searchdir tabname bundledPanelName
            sessionSettings.masterTabName st.pyRevitScriptCommands)) } := by
  intro l
  induction l with
  | nil => intro st h; simp [find_scriptgroups_loop]
  | cons e rest ih =>
    intro st h
    have he : groupEntryHardError loaded searchdir tabname bundledPanelName e = false :=
      h e (List.mem_cons_self e rest)
    have hrest : ∀ x ∈ rest, groupEntryHardError loaded searchdir tabname bundledPanelName x = false :=
      fun x hx => h x (List.mem_cons_of_mem e hx)
    rw [find_scriptgroups_loop]
    rcases hd : groupEntryDecode loaded searchdir tabname bundledPanelName e with _ | res
    · simp only [hd]
      rw [ih st hrest]
      simp only [List.filterMap_cons, groupEntryAdopted, hd]
    · rcases res with err | g
      · rcases err with _ | _ | _ | _ | _
        · simp only [hd]
          rw [ih st hrest]
          simp only [List.filterMap_cons, groupEntryAdopted, hd]
        · simp only [hd]
          rw [ih st hrest]
          simp only [List.filterMap_cons, groupEntryAdopted, hd]
        · exfalso
          rw [groupEntryHardError, hd] at he
          exact Bool.noConfusion he
        · exfalso
          rw [groupEntryHardError, hd] at he
          exact Bool.noConfusion he
        · exfalso
          rw [groupEntryHardError, hd] at he
          exact Bool.noConfusion he
      · simp only [hd]
        rw [ih _ hrest]
        simp [List.filterMap_cons, groupEntryAdopted, hd, List.append_assoc]

/-- The `find_scriptgroups` loop completes exactly when no entry decodes
to an uncaught exception. -/
theorem find_scriptgroups_loop_ok_iff (loaded : List Assembly)
    (searchdir tabname bundledPanelName : String) :
    ∀ (l : List FSEntry) (st : SessionState),
      (∃ st2, find_scriptgroups_loop loaded searchdir tabname bundledPanelName l st = .ok st2)
        ↔ ∀ e ∈ l, groupEntryHardError loaded searchdir tabname bundledPanelName e = false := by
  intro l
  induction l with
  | nil =>
    intro st
    constructor
    · intro _ e he
      exact absurd he (List.not_mem_nil e)
    · intro _
      exact ⟨st, rfl⟩
  | cons e rest ih =>
    intro st
    rw [find_scriptgroups_loop]
    rcases hd : groupEntryDecode loaded searchdir tabname bundledPanelName e with _ | res
    · simp only [hd]
      constructor
      · rintro ⟨st2, h2⟩ x hx
        rcases List.mem_cons.mp hx with hx | hx
        · subst hx
          rw [groupEntryHardError, hd]
        · exact ((ih st).mp ⟨st2, h2⟩) x hx
      · intro h
        exact (ih st).mpr (fun x hx => h x (List.mem_cons_of_mem e hx))
    · rcases res with err | g
      · rcases err with _ | _ | _ | _ | _
        · simp only [hd]
          constructor
          · rintro ⟨st2, h2⟩ x hx
            rcases List.mem_cons.mp hx with hx | hx
            · subst hx
              rw [groupEntryHardError, hd]
            · exact ((ih st).mp ⟨st2, h2⟩) x hx
          · intro h
            exact (ih st).mpr (fun x hx => h x (List.mem_cons_of_mem e hx))
        · simp only [hd]
          constructor
          · rintro ⟨st2, h2⟩ x hx
            rcases List.mem_cons.mp hx with hx | hx
            · subst hx
              rw [groupEntryHardError, hd]
            · exact ((ih st).mp ⟨st2, h2⟩) x hx
          · intro h
            exact (ih st).mpr (fun x hx => h x (List.mem_cons_of_mem e hx))
        · simp only [hd]
          constructor
          · rintro ⟨st2, h2⟩
            exact absurd h2 (by simp)
          · intro h
            have := h e (List.mem_cons_self e rest)
            rw [groupEntryHardError, hd] at this
            exact absurd this (by simp)
        · simp only [hd]
          constructor
          · rintro ⟨st2, h2⟩
            exact absurd h2 (by simp)
          · intro h
            have := h e (List.mem_cons_self e rest)
            rw [groupEntryHardError, hd] at this
            exact absurd this (by simp)
        · simp only [hd]
          constructor
          · rintro ⟨st2, h2⟩
            exact absurd h2 (by simp)
          · intro h
            have := h e (List.mem_cons_self e rest)
            rw [groupEntryHardError, hd] at this
            exact absurd this (by simp)
      · simp only [hd]
        constructor
        · rintro ⟨st2, h2⟩ x hx
          rcases List.mem_cons.mp hx with hx | hx
          · subst hx
            rw [groupEntryHardError, hd]
          · exact ((ih _).mp ⟨st2, h2⟩) x hx
        · intro h
          exact (ih _).mpr (fun x hx => h x (List.mem_cons_of_mem e hx))

/-- C2 amended: decode failures signalled as `NameFormatError` or
`UnknownAssemblyError` are contained — the entry is excluded and the walk
continues, degrading to fewer nodes — and the walk completes iff no entry
raises anything else; a `ValueError` from a short numeric prefix in the
4/6-token group form escapes and aborts the walk (see the
counterexample). -/
theorem find_scriptgroups_degrades (loaded : List Assembly) (listing : List FSEntry)
    (searchdir tabname bundledPanelName : String) (st : SessionState) :
    ((∀ e ∈ listing,
        groupEntryHardError loaded searchdir tabname bundledPanelName e = false) →
      find_scriptgroups loaded listing searchdir tabname bundledPanelName st =
        .ok { find_scriptcommands listing searchdir tabname st with
              pyRevitScriptGroups :=
                ((find_scriptcommands listing searchdir tabname st).pyRevitScriptGroups ++
                  listing.filterMap (groupEntryAdopted loaded searchdir tabname bundledPanelName
                    sessionSettings.masterTabName
                    (find_scriptcommands listing searchdir tabname st).pyRevitScriptCommands)) })
    ∧ ((∃ st2, find_scriptgroups loaded listing searchdir tabname bundledPanelName st = .ok st2)
        ↔ ∀ e ∈ listing,
            groupEntryHardError loaded searchdir tabname bundledPanelName e = false) := by
  constructor
  · intro h
    unfold find_scriptgroups
    exact find_scriptgroups_loop_ok loaded searchdir tabname bundledPanelName listing
      (find_scriptcommands listing searchdir tabname st) h
  · unfold find_scriptgroups
    exact find_scriptgroups_loop_ok_iff loaded searchdir tabname bundledPanelName listing
      (find_scriptcommands listing searchdir tabname st)

/-- Witness for `find_scriptgroups_degrades`: a malformed (non-descriptor)
icon basename is excluded and the walk completes with no groups. -/
theorem find_scriptgroups_degrades_witness :
    find_scriptgroups [] [FSEntry.file "bad.png" "" ""] "tabdir" "T" "" {} =
      .ok { pyRevitScriptCommands := [], pyRevitScriptGroups := [], pyRevitScriptPanels := [] } :=
  (find_scriptgroups_degrades [] [FSEntry.file "bad.png" "" ""] "tabdir" "T" "" {}).1 (by decide)

/-- C1 counterexample: with a stacked-three group holding one command, the
first run counts one created button (never added to the panel, since only
exactly three stacked buttons are added), so the second run against the
resulting ribbon creates it again — one create and zero updates instead of
zero creates and one update. -/
theorem reconcile_not_idempotent_stack :
    (reconcileTwice "s" "loc" [stackScenTab]).map
        (fun p => (p.2.creates, p.2.newbuttoncount, p.2.updatedbuttoncount, p.2.orphanDisables))
      = some (1, 1, 0, 0) := by decide

/-- C8 counterexample: discovery is not deterministic with respect to
listing order.  Two group descriptor files declare the same panel `"P"`
with equal group sort orders; enumerating them in the two possible orders
produces trees that differ both in the panel's `sortOrder` (taken from
whichever file created the panel first) and in the panel's
children-identity sequence (the stable group sort ties break by listing
order). -/
theorem discovery_depends_on_listing_order :
    panelScenListing2.Perm panelScenListing1
    ∧ (find_scriptpanels [] panelScenListing1 "d" "T" {}).toOption.map stateTreeSummary
        = some [("P", 1, [("A", 1, []), ("B", 1, [])])]
    ∧ (find_scriptpanels [] panelScenListing2 "d" "T" {}).toOption.map stateTreeSummary
        = some [("P", 2, [("B", 1, []), ("A", 1, [])])] := by
  refine ⟨List.Perm.swap _ _ _, by decide, by decide⟩

/-! ### List utilities for the reconciliation proofs -/

theorem setItemAt_append_len (items : List RItem) (it : RItem) (f : RItem → RItem) :
    setItemAt (items ++ [it]) items.length f = items ++ [f it] := by
  unfold setItemAt
  rw [List.get?_eq_getElem?, List.getElem?_append_right (Nat.le_refl _)]
  simp [List.set_append]

theorem setItemAt_of_get {items : List RItem} {idx : Nat} {it : RItem}
    (h : items.get? idx = some it) (f : RItem → RItem) :
    setItemAt items idx f = items.set idx (f it) := by
  unfold setItemAt
  rw [h]

theorem modifyFirst_self {α : Type} (p : α → Bool) (f : α → α) :
    ∀ l : List α, (∀ x, l.find? p = some x → f x = x) → modifyFirst p f l = l := by
  intro l
  induction l with
  | nil => intro _; rfl
  | cons x xs ih =>
    intro h
    unfold modifyFirst
    rcases hp : p x with _ | _
    · simp only [Bool.false_eq_true, if_false]
      rw [ih]
      intro y hy
      apply h
      rw [List.find?_cons, hp]
      exact hy
    · simp only [if_true]
      rw [h x (by rw [List.find?_cons, hp])]

theorem set_get_self {α : Type} : ∀ (l : List α) (n : Nat) (x : α),
    l.get? n = some x → l.set n x = l := by
  intro l
  induction l with
  | nil => intro n x h; cases h
  | cons y ys ih =>
    intro n x h
    cases n with
    | zero =>
      simp only [List.get?_cons_zero, Option.some.injEq] at h
      rw [List.set_cons_zero, h]
    | succ m =>
      simp only [List.get?_cons_succ] at h
      rw [List.set_cons_succ, ih m x h]

theorem get_lt_of_get?_some {α : Type} {l : List α} {n : Nat} {x : α}
    (h : l.get? n = some x) : n < l.length := by
  rw [List.get?_eq_getElem?] at h
  exact (List.getElem?_eq_some_iff.mp h).1

theorem get?_set_self {α : Type} {l : List α} {n : Nat} (x : α) (h : n < l.length) :
    (l.set n x).get? n = some x := by
  rw [List.get?_eq_getElem?, List.getElem?_set_self]
  exact h

/-- First-run sub-button loop: with an empty handle dict every command
appends its canonical push button to the container at `idx`. -/
theorem createui_subcmds_empty (s a : String) (idx : Nat) :
    ∀ (cmds : List ScriptCommand) (items : List RItem) (c : OpCounts) (it : RItem),
      items.get? idx = some it →
      createui_subcmds s a idx cmds items [] c =
        (items.set idx { it with subItems := it.subItems ++ cmds.map (pushButtonDataFor s a) },
         [],
         { c with newbuttoncount := c.newbuttoncount + cmds.length }) := by
  intro cmds
  induction cmds with
  | nil =>
    intro items c it hget
    simp only [createui_subcmds, List.map_nil, List.append_nil, List.length_nil, Nat.add_zero]
    rw [set_get_self items idx it hget]
  | cons cmd rest ih =>
    intro items c it hget
    have hlt : idx < items.length := get_lt_of_get?_some hget
    have hfind : dictFind [] cmd.className = none := rfl
    simp only [createui_subcmds, hfind, setItemAt_of_get hget]
    have hget2 : (items.set idx
        { it with subItems := it.subItems ++ [pushButtonDataFor s a cmd] }).get? idx
        = some { it with subItems := it.subItems ++ [pushButtonDataFor s a cmd] } :=
      get?_set_self _ hlt
    rw [ih _ _ _ hget2, List.set_set]
    have hsub : (it.subItems ++ [pushButtonDataFor s a cmd])
        ++ rest.map (pushButtonDataFor s a)
        = it.subItems ++ (pushButtonDataFor s a cmd :: rest.map (pushButtonDataFor s a)) := by
      rw [List.append_assoc, List.singleton_append]
    rw [hsub]
    simp only [List.map_cons, List.length_cons]
    have hc : c.newbuttoncount + 1 + rest.length = c.newbuttoncount + (rest.length + 1) := by omega
    rw [hc]

theorem set_append_len {α : Type} (l : List α) (x y : α) :
    (l ++ [x]).set l.length y = l ++ [y] := by
  simp [List.set_append]

theorem get?_append_len {α : Type} (l : List α) (x : α) :
    (l ++ [x]).get? l.length = some x := by
  rw [List.get?_eq_getElem?, List.getElem?_append_right (Nat.le_refl _)]
  simp

/-- First-run stacked-button loop with an empty handle dict. -/
theorem createui_stackcmds_empty (s a : String) :
    ∀ (cmds : List ScriptCommand) (items : List RItem) (c : OpCounts) (stack : List RItem),
      createui_stackcmds s a cmds items [] c stack =
        (items, [],
         { c with newbuttoncount := c.newbuttoncount + cmds.length },
         stack ++ cmds.map (fun cmd => buttonDataFor s a cmd.cmdName cmd)) := by
  intro cmds
  induction cmds with
  | nil =>
    intro items c stack
    simp [createui_stackcmds]
  | cons cmd rest ih =>
    intro items c stack
    have hfind : dictFind [] cmd.className = none := rfl
    simp only [createui_stackcmds, hfind]
    rw [ih]
    rw [List.append_assoc, List.singleton_append]
    simp only [List.map_cons, List.length_cons]
    have hc : c.newbuttoncount + 1 + rest.length = c.newbuttoncount + (rest.length + 1) := by omega
    rw [hc]

/-- First-run pulldown/split branch with an empty handle dict. -/
theorem createui_pulldown_empty (s a : String) (g : ScriptGroup)
    (items : List RItem) (c : OpCounts) (hpf : isPulldownFamily g = true) :
    createui_pulldown s a g items [] c =
      (items ++ canonicalGroupItems s a g, [],
       { c with containerCreates := c.containerCreates + 1,
                newbuttoncount := c.newbuttoncount + g.commands.length }) := by
  have hfind : dictFind [] g.groupName = none := rfl
  simp only [createui_pulldown, hfind]
  by_cases hspp : (g.groupType == some sessionSettings.splitPushButtonTypeName) = true
  · simp only [hspp, if_true]
    rw [setItemAt_append_len]
    dsimp only
    have hget := get?_append_len items ({ Name := g.groupName, Text := g.groupName, IsSynchronizedWithCurrentItem := false } : RItem)
    rw [hget]
    dsimp only
    simp only [List.length_nil, List.range_zero, List.map_nil, buildDict, List.foldl_nil]
    rw [createui_subcmds_empty s a items.length g.commands _ _ _ hget]
    simp only [createui_subOrphans, List.foldl_nil, set_append_len]
    simp only [canonicalGroupItems, hpf, if_true, hspp, Bool.not_true]
    rfl
  · simp only [hspp, Bool.false_eq_true, if_false]
    have hget := get?_append_len items ({ Name := g.groupName, Text := g.groupName } : RItem)
    rw [hget]
    dsimp only
    simp only [List.length_nil, List.range_zero, List.map_nil, buildDict, List.foldl_nil]
    rw [createui_subcmds_empty s a items.length g.commands _ _ _ hget]
    simp only [createui_subOrphans, List.foldl_nil, set_append_len]
    simp only [canonicalGroupItems, hpf, if_true]
    simp only [Bool.not_eq_true] at hspp
    simp only [hspp, Bool.not_false]
    rfl

/-- First-run stacked-three branch with an empty handle dict. -/
theorem createui_stack_empty (s a : String) (g : ScriptGroup)
    (items : List RItem) (c : OpCounts)
    (hlen : g.commands.length = 3 ∨ g.commands = []) :
    createui_stack s a g items [] c =
      (items ++ (if g.commands.length == 3
          then g.commands.map (fun cmd => buttonDataFor s a cmd.cmdName cmd) else []),
       [],
       { c with newbuttoncount := c.newbuttoncount + g.commands.length }) := by
  unfold createui_stack
  rw [createui_stackcmds_empty]
  dsimp only
  rcases hlen with hlen | hlen
  · rw [List.nil_append]
    have hmap3 : ((g.commands.map (fun cmd => buttonDataFor s a cmd.cmdName cmd)).length == 3)
        = true := by simp [hlen]
    have hlen3 : (g.commands.length == 3) = true := by simp [hlen]
    simp only [hmap3, hlen3, if_true]
  · rw [hlen]
    simp

/-- First-run push/smart branch with an empty handle dict. -/
theorem createui_pushlike_empty (s a : String) (g : ScriptGroup)
    (items : List RItem) (c : OpCounts) :
    createui_pushlike s a g items [] c =
      (items ++ (match g.commands.getLast? with
        | some cmd => [buttonDataFor s a g.groupName cmd]
        | none => []),
       [],
       { c with newbuttoncount := c.newbuttoncount
          + (if g.commands.isEmpty then 0 else 1) }) := by
  unfold createui_pushlike
  rcases hlast : g.commands.getLast? with _ | cmd
  · have hemp : g.commands.isEmpty = true := by
      cases hcmd : g.commands with
      | nil => rfl
      | cons x xs =>
        rw [hcmd] at hlast
        simp at hlast
    simp [hemp]
  · have hemp : g.commands.isEmpty = false := by
      cases hcmd : g.commands with
      | nil => rw [hcmd] at hlast; cases hlast
      | cons x xs => rfl
    have hfind : dictFind [] cmd.className = none := rfl
    simp only [hfind]
    rw [setItemAt_append_len]
    simp only [hemp, Bool.false_eq_true, if_false]
    rfl

/-- First-run link branch with an empty handle dict. -/
theorem createui_link_empty (s a : String) (g : ScriptGroup)
    (items : List RItem) (c : OpCounts) :
    createui_link s a g items [] c =
      (items ++ [linkButtonDataFor g],
       [],
       { c with newbuttoncount := c.newbuttoncount + 1 }) := by
  unfold createui_link
  have hfind : dictFind [] g.groupName = none := rfl
  rw [hfind]

/-- First run of one group against an empty handle dict: its canonical
items are appended and the counters advance by its create counts. -/
theorem createui_group_empty (s a : String) (g : ScriptGroup)
    (items : List RItem) (c : OpCounts) (hwf : GroupWellFormed g) :
    createui_group s a g items [] c =
      (items ++ canonicalGroupItems s a g, [],
       { c with containerCreates := c.containerCreates + groupContainerCreates g,
                newbuttoncount := c.newbuttoncount + groupNewButtons g }) := by
  unfold createui_group
  by_cases hpd : (g.groupType == some sessionSettings.pulldownButtonTypeName) = true
  · have hpf : isPulldownFamily g = true := by simp [isPulldownFamily, hpd]
    simp only [hpd, Bool.true_or, if_true]
    rw [createui_pulldown_empty s a g items c hpf]
    simp only [groupContainerCreates, groupNewButtons, hpf, if_true]
  · by_cases hsp : (g.groupType == some sessionSettings.splitButtonTypeName) = true
    · have hpf : isPulldownFamily g = true := by simp [isPulldownFamily, hsp]
      simp only [hsp, Bool.true_or, Bool.or_true, if_true]
      rw [createui_pulldown_empty s a g items c hpf]
      simp only [groupContainerCreates, groupNewButtons, hpf, if_true]
    · by_cases hspp : (g.groupType == some sessionSettings.splitPushButtonTypeName) = true
      · have hpf : isPulldownFamily g = true := by simp [isPulldownFamily, hspp]
        simp only [hspp, Bool.true_or, Bool.or_true, if_true]
        rw [createui_pulldown_empty s a g items c hpf]
        simp only [groupContainerCreates, groupNewButtons, hpf, if_true]
      · simp only [Bool.not_eq_true] at hpd hsp hspp
        have hpf : isPulldownFamily g = false := by
          simp [isPulldownFamily, hpd, hsp, hspp]
        simp only [hpd, hsp, hspp, Bool.or_self, Bool.or_false, Bool.false_or,
          Bool.false_eq_true, if_false]
        by_cases hst : (g.groupType == some sessionSettings.stackedThreeTypeName) = true
        · have hlen := hwf.2 (by simpa using hst)
          simp only [hst, if_true]
          rw [createui_stack_empty s a g items c hlen]
          simp only [canonicalGroupItems, groupContainerCreates, groupNewButtons, hpf,
            Bool.false_eq_true, if_false, hst, if_true, Nat.add_zero]
        · simp only [Bool.not_eq_true] at hst
          simp only [hst, Bool.false_eq_true, if_false]
          by_cases hpb : (g.groupType == some sessionSettings.pushButtonTypeName) = true
          · have hln : (g.groupType == some sessionSettings.linkButtonTypeName) = true := hpb
            rcases hlk : g.islinkbutton with _ | _
            · simp only [hpb, hlk, Bool.not_false, Bool.true_and, if_true]
              rw [createui_pushlike_empty s a g items c]
              simp only [canonicalGroupItems, groupContainerCreates, groupNewButtons, hpf,
                Bool.false_eq_true, if_false, hst, hpb, hlk, Bool.true_or, Bool.not_false,
                Bool.true_and, if_true, Nat.add_zero]
            · have hsm : (g.groupType == some sessionSettings.smartButtonTypeName) = false := by
                rw [show g.groupType = some sessionSettings.pushButtonTypeName from by
                  simpa using hpb]
                decide
              simp only [hpb, hlk, Bool.not_true, Bool.and_false, Bool.false_eq_true, if_false,
                hsm, Bool.false_and, hln, Bool.and_true, Bool.true_and, if_true]
              rw [createui_link_empty s a g items c]
              simp only [canonicalGroupItems, groupContainerCreates, groupNewButtons, hpf,
                Bool.false_eq_true, if_false, hst, hpb, hsm, hlk, hln, Bool.true_or,
                Bool.or_false, Bool.not_true, Bool.and_false, Bool.and_true, Bool.true_and,
                if_true, Nat.add_zero]
          · simp only [Bool.not_eq_true] at hpb
            have hln : (g.groupType == some sessionSettings.linkButtonTypeName) = false := hpb
            by_cases hsm : (g.groupType == some sessionSettings.smartButtonTypeName) = true
            · rcases hlk : g.islinkbutton with _ | _
              · simp only [hpb, hsm, hlk, Bool.not_false, Bool.true_and, Bool.false_and,
                  Bool.false_eq_true, if_false, if_true]
                rw [createui_pushlike_empty s a g items c]
                simp only [canonicalGroupItems, groupContainerCreates, groupNewButtons, hpf,
                  Bool.false_eq_true, if_false, hst, hpb, hsm, hlk, Bool.false_or, Bool.or_true,
                  Bool.not_false, Bool.true_and, if_true, Nat.add_zero]
              · simp only [hpb, hsm, hlk, hln, Bool.not_true, Bool.and_false, Bool.false_and,
                  Bool.and_true, Bool.false_eq_true, if_false]
                simp only [canonicalGroupItems, groupContainerCreates, groupNewButtons, hpf,
                  Bool.false_eq_true, if_false, hst, hpb, hsm, hlk, hln, Bool.false_or,
                  Bool.or_true, Bool.not_true, Bool.and_false, Bool.false_and, Bool.and_true,
                  List.append_nil, Nat.add_zero]
            · simp only [Bool.not_eq_true] at hsm
              simp only [hpb, hsm, hln, Bool.false_and, Bool.false_eq_true, if_false]
              simp only [canonicalGroupItems, groupContainerCreates, groupNewButtons, hpf,
                Bool.false_eq_true, if_false, hst, hpb, hsm, hln, Bool.false_or, Bool.or_self,
                Bool.false_and, List.append_nil, Nat.add_zero]

theorem namesWithIdx_map_fst : ∀ (ns : List String) (k : Nat),
    (namesWithIdx k ns).map Prod.fst = ns := by
  intro ns
  induction ns with
  | nil => intro k; rfl
  | cons n rest ih =>
    intro k
    simp only [namesWithIdx, List.map_cons, ih]

theorem namesWithIdx_append : ∀ (ns ms : List String) (k : Nat),
    namesWithIdx k (ns ++ ms) = namesWithIdx k ns ++ namesWithIdx (k + ns.length) ms := by
  intro ns
  induction ns with
  | nil => intro ms k; simp [namesWithIdx]
  | cons n rest ih =>
    intro ms k
    simp only [List.cons_append, namesWithIdx, List.append_eq, ih, List.length_cons]
    rw [show k + (rest.length + 1) = k + 1 + rest.length by omega]

theorem blockPairs_eq : ∀ (gs : List ScriptGroup) (off : Nat),
    blockPairs off gs = namesWithIdx off ((gs.map groupItemNames).flatten) := by
  intro gs
  induction gs with
  | nil => intro off; rfl
  | cons g rest ih =>
    intro off
    simp only [blockPairs, List.map_cons, List.flatten_cons, namesWithIdx_append, ih]

theorem dictFind_cons_self (k : String) (v : Nat) (d : List (String × Nat)) :
    dictFind ((k, v) :: d) k = some v := by
  simp [dictFind, List.find?_cons]

theorem dictErase_cons_self (k : String) (v : Nat) (d : List (String × Nat)) :
    dictErase ((k, v) :: d) k = dictErase d k := by
  simp [dictErase, List.filter_cons]

theorem dictErase_not_mem (k : String) (d : List (String × Nat))
    (h : ∀ kv ∈ d, kv.1 ≠ k) : dictErase d k = d := by
  unfold dictErase
  rw [List.filter_eq_self]
  intro kv hkv
  simp [h kv hkv]

theorem buildDict_acc : ∀ (pairs acc : List (String × Nat)),
    (pairs.map Prod.fst).Nodup →
    (∀ kv ∈ acc, ∀ kv2 ∈ pairs, kv.1 ≠ kv2.1) →
    pairs.foldl (fun d kv => dictInsert d kv.1 kv.2) acc = acc ++ pairs := by
  intro pairs
  induction pairs with
  | nil => intro acc _ _; simp
  | cons kv rest ih =>
    intro acc hnd hdisj
    simp only [List.map_cons, List.nodup_cons] at hnd
    have hany : acc.any (fun kv2 => kv2.1 == kv.1) = false := by
      rw [List.any_eq_false]
      intro kv2 hkv2
      simpa using hdisj kv2 hkv2 kv (List.mem_cons_self kv rest)
    simp only [List.foldl_cons]
    rw [show dictInsert acc kv.1 kv.2 = acc ++ [(kv.1, kv.2)] by
      unfold dictInsert; rw [hany]; simp]
    rw [ih (acc ++ [(kv.1, kv.2)]) hnd.2]
    · simp
    · intro kv2 hkv2 kv3 hkv3
      rcases List.mem_append.mp hkv2 with h2 | h2
      · exact hdisj kv2 h2 kv3 (List.mem_cons_of_mem kv hkv3)
      · simp only [List.mem_singleton] at h2
        subst h2
        intro hfst
        exact hnd.1 (hfst ▸ List.mem_map_of_mem Prod.fst hkv3)

theorem buildDict_nodup (pairs : List (String × Nat))
    (h : (pairs.map Prod.fst).Nodup) : buildDict pairs = pairs := by
  unfold buildDict
  rw [buildDict_acc pairs [] h (by intro kv hkv; cases hkv)]
  simp

theorem get?_append_cons {α : Type} (pre : List α) (x : α) (post : List α) :
    (pre ++ x :: post).get? pre.length = some x := by
  rw [List.get?_eq_getElem?, List.getElem?_append_right (Nat.le_refl _)]
  simp

theorem set_append_cons {α : Type} (pre : List α) (x y : α) (post : List α) :
    (pre ++ x :: post).set pre.length y = pre ++ y :: post := by
  rw [List.set_append_right _ _ (Nat.le_refl _)]
  simp

theorem find?_append_first {α : Type} (p : α → Bool) :
    ∀ (pre : List α) (t : α) (post : List α),
      (∀ x ∈ pre, p x = false) → p t = true →
      (pre ++ t :: post).find? p = some t := by
  intro pre
  induction pre with
  | nil =>
    intro t post _ ht
    simp [List.find?_cons, ht]
  | cons y ys ih =>
    intro t post hpre ht
    rw [List.cons_append, List.find?_cons, hpre y (List.mem_cons_self y ys)]
    exact ih t post (fun x hx => hpre x (List.mem_cons_of_mem y hx)) ht

theorem modifyFirst_append {α : Type} (p : α → Bool) (f : α → α) :
    ∀ (pre : List α) (t : α) (post : List α),
      (∀ x ∈ pre, p x = false) → p t = true →
      modifyFirst p f (pre ++ t :: post) = pre ++ f t :: post := by
  intro pre
  induction pre with
  | nil =>
    intro t post _ ht
    simp [modifyFirst, ht]
  | cons y ys ih =>
    intro t post hpre ht
    rw [List.cons_append]
    unfold modifyFirst
    rw [hpre y (List.mem_cons_self y ys)]
    simp only [Bool.false_eq_true, if_false, List.cons_append]
    rw [ih t post (fun x hx => hpre x (List.mem_cons_of_mem y hx)) ht]

theorem find?_key_of_mem {β : Type} (key : β → String) :
    ∀ (l : List β) (x : β), (l.map key).Nodup → x ∈ l →
      l.find? (fun y => key y == key x) = some x := by
  intro l
  induction l with
  | nil => intro x _ hx; cases hx
  | cons h t ih =>
    intro x hnd hx
    simp only [List.map_cons, List.nodup_cons] at hnd
    rw [List.find?_cons]
    rcases hkey : (key h == key x) with _ | _
    · rcases List.mem_cons.mp hx with rfl | hx'
      · simp at hkey
      · exact ih x hnd.2 hx'
    · rcases List.mem_cons.mp hx with rfl | hx'
      · rfl
      · exfalso
        have : key h = key x := by simpa using hkey
        exact hnd.1 (this ▸ List.mem_map_of_mem key hx')

theorem rangeGetD_names (l : List RButton) :
    ∀ (t : List RButton) (k : Nat),
      (∀ j, j < t.length → l.getD (k + j) {} = t.getD j {}) →
      (List.range' k t.length).map (fun j => ((l.getD j {}).ClassName, j))
        = namesWithIdx k (t.map (fun b => b.ClassName)) := by
  intro t
  induction t with
  | nil => intro k _; rfl
  | cons b rest ih =>
    intro k h
    rw [List.length_cons, List.range'_succ, List.map_cons]
    have h0 := h 0 (Nat.succ_pos _)
    rw [Nat.add_zero] at h0
    simp only [h0, List.getD_cons_zero, List.map_cons, namesWithIdx]
    rw [ih (k + 1) (fun j hj => by
      have := h (j + 1) (Nat.succ_lt_succ hj)
      rw [show k + (j + 1) = k + 1 + j by omega] at this
      simpa using this)]

theorem rangeSubdict (l : List RButton) :
    (List.range l.length).map (fun j => ((l.getD j {}).ClassName, j))
      = namesWithIdx 0 (l.map (fun b => b.ClassName)) := by
  rw [List.range_eq_range']
  exact rangeGetD_names l l 0 (fun j _ => by rw [Nat.zero_add])

theorem rangeGet_names (l : List RItem) :
    ∀ (t : List RItem) (k : Nat),
      (∀ j, j < t.length → l.get? (k + j) = t.get? j) →
      (List.range' k t.length).filterMap (fun i => (l.get? i).map (fun it => (it.Name, i)))
        = namesWithIdx k (t.map (fun it => it.Name)) := by
  intro t
  induction t with
  | nil => intro k _; rfl
  | cons x rest ih =>
    intro k h
    rw [List.length_cons, List.range'_succ, List.filterMap_cons]
    have h0 := h 0 (Nat.succ_pos _)
    rw [Nat.add_zero] at h0
    simp only [h0, List.get?_cons_zero, List.map_cons, namesWithIdx]
    rw [ih (k + 1) (fun j hj => by
      have := h (j + 1) (Nat.succ_lt_succ hj)
      rw [show k + (j + 1) = k + 1 + j by omega] at this
      simpa using this)]
    rfl

theorem rangeSnapDict (l : List RItem) :
    (List.range l.length).filterMap (fun i => (l.get? i).map (fun it => (it.Name, i)))
      = namesWithIdx 0 (l.map (fun it => it.Name)) := by
  rw [List.range_eq_range']
  exact rangeGet_names l l 0 (fun j _ => by rw [Nat.zero_add])

/-- The item names of one group's canonical items do not depend on the
session or assembly strings and match `groupItemNames`. -/
theorem canonicalGroupItems_names (s a : String) (g : ScriptGroup) :
    (canonicalGroupItems s a g).map (fun it => it.Name) = groupItemNames g := by
  unfold groupItemNames canonicalGroupItems
  split
  · simp
  · split
    · split
      · simp [buttonDataFor]
      · simp
    · split
      · split
        · simp [buttonDataFor]
        · simp
      · split
        · simp [linkButtonDataFor]
        · simp

theorem canonicalGroupItems_length (s a : String) (g : ScriptGroup) :
    (canonicalGroupItems s a g).length = (groupItemNames g).length := by
  rw [← canonicalGroupItems_names s a g, List.length_map]

theorem canonicalPanelItems_names (s a : String) (gs : List ScriptGroup) :
    (canonicalPanelItems s a gs).map (fun it => it.Name) = (gs.map groupItemNames).flatten := by
  unfold canonicalPanelItems
  rw [List.map_flatten, List.map_map]
  congr 1
  exact List.map_congr_left (fun g _ => canonicalGroupItems_names s a g)

/-- The second-run update of a canonical push button writes back the values
already there. -/
theorem pushButton_update_id (s a : String) (cmd : ScriptCommand) :
    ({ pushButtonDataFor s a cmd with ToolTip := cmd.tooltip, LongDescription := mkLdesc cmd.className s, Enabled := true, AssemblyName := if strContains (pushButtonDataFor s a cmd).Name sessionSettings.reloadScriptsOverrideName then (pushButtonDataFor s a cmd).AssemblyName else a } : RButton) = pushButtonDataFor s a cmd := by
  simp [pushButtonDataFor]

/-- Second-run sub-button loop: every command finds its own canonical push
button and the update writes back the values already there. -/
theorem createui_subcmds_found (s a : String) (idx : Nat) :
    ∀ (cmds : List ScriptCommand) (k : Nat) (items : List RItem) (it : RItem) (c : OpCounts),
      items.get? idx = some it →
      (cmds.map (fun cm => cm.className)).Nodup →
      (∀ j, j < cmds.length →
        it.subItems.get? (k + j) = (cmds.get? j).map (pushButtonDataFor s a)) →
      createui_subcmds s a idx cmds items
          (namesWithIdx k (cmds.map (fun cm => cm.className))) c =
        (items, [],
         { c with updatedbuttoncount := c.updatedbuttoncount + cmds.length }) := by
  intro cmds
  induction cmds with
  | nil =>
    intro k items it c _ _ _
    simp [createui_subcmds, namesWithIdx]
  | cons cmd rest ih =>
    intro k items it c hget hnd hsub
    simp only [List.map_cons, List.nodup_cons] at hnd
    have hsub0 : it.subItems.get? k = some (pushButtonDataFor s a cmd) := by
      have := hsub 0 (Nat.succ_pos _)
      simpa using this
    simp only [List.map_cons, namesWithIdx, createui_subcmds,
      dictFind_cons_self, dictErase_cons_self]
    rw [dictErase_not_mem _ _ (by
      intro kv hkv hfst
      have h1 := List.mem_map_of_mem Prod.fst hkv
      rw [namesWithIdx_map_fst] at h1
      exact hnd.1 (hfst ▸ h1))]
    have hsetsub : setSubAt items idx k (fun b =>
        { b with ToolTip := cmd.tooltip, LongDescription := mkLdesc cmd.className s,
                 Enabled := true,
                 AssemblyName := if strContains b.Name sessionSettings.reloadScriptsOverrideName
                                 then b.AssemblyName else a }) = items := by
      unfold setSubAt
      rw [setItemAt_of_get hget]
      rw [hsub0]
      dsimp only
      rw [pushButton_update_id]
      rw [set_get_self _ _ _ hsub0]
      exact set_get_self _ _ _ hget
    rw [hsetsub]
    rw [ih (k + 1) items it { c with updatedbuttoncount := c.updatedbuttoncount + 1 }
      hget hnd.2 (fun j hj => by
        have := hsub (j + 1) (Nat.succ_lt_succ hj)
        rw [show k + (j + 1) = k + 1 + j by omega] at this
        simpa using this)]
    simp only [List.length_cons]
    rw [show c.updatedbuttoncount + 1 + rest.length
        = c.updatedbuttoncount + (rest.length + 1) by omega]

/-- Pulldown-family groups occupy exactly their group name in the panel. -/
theorem groupItemNames_pulldown (g : ScriptGroup) (hpf : isPulldownFamily g = true) :
    groupItemNames g = [g.groupName] := by
  simp [groupItemNames, canonicalGroupItems, hpf]

/-- Second-run pulldown/split branch: the container and every sub-button
are found and all writes restore the canonical values. -/
theorem createui_pulldown_found (s a : String) (g : ScriptGroup)
    (pre post : List RItem) (rest : List (String × Nat)) (c : OpCounts)
    (hpf : isPulldownFamily g = true)
    (hnd : (g.commands.map (fun cm => cm.className)).Nodup)
    (hrest : ∀ kv ∈ rest, kv.1 ≠ g.groupName) :
    createui_pulldown s a g (pre ++ canonicalGroupItems s a g ++ post)
        (namesWithIdx pre.length (groupItemNames g) ++ rest) c =
      (pre ++ canonicalGroupItems s a g ++ post, rest,
       { c with updatedbuttoncount := c.updatedbuttoncount + g.commands.length }) := by
  rw [groupItemNames_pulldown g hpf]
  have hclass : (g.commands.map (pushButtonDataFor s a)).map (fun b => b.ClassName)
      = g.commands.map (fun cm => cm.className) := by
    simp [pushButtonDataFor]
  have herase : dictErase ((g.groupName, pre.length) :: rest) g.groupName = rest := by
    rw [dictErase_cons_self, dictErase_not_mem _ _ hrest]
  by_cases hspp : (g.groupType == some sessionSettings.splitPushButtonTypeName) = true
  · simp only [canonicalGroupItems, hpf, if_true, hspp, Bool.not_true, List.append_assoc, List.singleton_append]
    have hget := get?_append_cons pre ({ Name := g.groupName, Text := g.groupName, IsSynchronizedWithCurrentItem := false, subItems := g.commands.map (pushButtonDataFor s a) } : RItem) post
    simp only [createui_pulldown, namesWithIdx, List.cons_append, List.nil_append,
      List.append_assoc, List.singleton_append, dictFind_cons_self, herase, hspp, if_true]
    rw [setItemAt_of_get hget]
    dsimp only
    rw [set_get_self _ _ _ hget, hget]
    dsimp only
    rw [rangeSubdict, hclass, buildDict_nodup _ (by rw [namesWithIdx_map_fst]; exact hnd)]
    rw [createui_subcmds_found s a pre.length g.commands 0 _ _ c hget hnd
      (fun j hj => by rw [Nat.zero_add]; dsimp only; rw [List.get?_map])]
    simp only [createui_subOrphans, List.foldl_nil]
  · simp only [Bool.not_eq_true] at hspp
    simp only [canonicalGroupItems, hpf, if_true, hspp, Bool.not_false, List.append_assoc, List.singleton_append]
    have hget := get?_append_cons pre ({ Name := g.groupName, Text := g.groupName, subItems := g.commands.map (pushButtonDataFor s a) } : RItem) post
    simp only [createui_pulldown, namesWithIdx, List.cons_append, List.nil_append,
      List.append_assoc, List.singleton_append, dictFind_cons_self, herase, hspp, Bool.false_eq_true, if_false]
    rw [hget]
    dsimp only
    rw [rangeSubdict, hclass, buildDict_nodup _ (by rw [namesWithIdx_map_fst]; exact hnd)]
    rw [createui_subcmds_found s a pre.length g.commands 0 _ _ c hget hnd
      (fun j hj => by rw [Nat.zero_add]; dsimp only; rw [List.get?_map])]
    simp only [createui_subOrphans, List.foldl_nil]

theorem get?_append_middle {α : Type} (pre mid post : List α) (j : Nat) (hj : j < mid.length) :
    (pre ++ mid ++ post).get? (pre.length + j) = mid.get? j := by
  rw [List.get?_eq_getElem?, List.get?_eq_getElem?]
  rw [List.getElem?_append, if_pos (by rw [List.length_append]; omega)]
  rw [List.getElem?_append_right (Nat.le_add_right _ _)]
  simp

/-- The second-run update of a canonical stacked/push button item writes
back the values already there. -/
theorem button_update_id (s a tn : String) (cmd : ScriptCommand) :
    ({ buttonDataFor s a tn cmd with AssemblyName := a, ClassName := cmd.className, Enabled := true } : RItem) = buttonDataFor s a tn cmd := by
  simp [buttonDataFor]

/-- The tooltip/description write of the push branch restores the
canonical values. -/
theorem button_update2_id (s a tn : String) (cmd : ScriptCommand) :
    ({ buttonDataFor s a tn cmd with ToolTip := cmd.tooltip, LongDescription := mkLdesc cmd.className s } : RItem) = buttonDataFor s a tn cmd := by
  simp [buttonDataFor]

/-- The second-run update of a canonical link button writes back the
values already there. -/
theorem link_update_id (g : ScriptGroup) :
    ({ linkButtonDataFor g with AssemblyName := g.assemblyLocation.getD "", ClassName := g.assemblyName.getD "" ++ "." ++ g.assemblyClassName.getD "", Enabled := true } : RItem) = linkButtonDataFor g := by
  simp [linkButtonDataFor]

/-- Second-run stacked-button loop: every command finds its canonical
button, items and counters aside from updates are untouched, and no fresh
button data is collected. -/
theorem createui_stackcmds_found (s a : String) :
    ∀ (cmds : List ScriptCommand) (k : Nat) (items : List RItem)
      (rest : List (String × Nat)) (c : OpCounts),
      (cmds.map (fun cm => cm.className)).Nodup →
      (∀ kv ∈ rest, kv.1 ∉ cmds.map (fun cm => cm.className)) →
      (∀ j, j < cmds.length →
        items.get? (k + j) = (cmds.get? j).map (fun cm => buttonDataFor s a cm.cmdName cm)) →
      createui_stackcmds s a cmds items
          (namesWithIdx k (cmds.map (fun cm => cm.className)) ++ rest) c [] =
        (items, rest,
         { c with updatedbuttoncount := c.updatedbuttoncount + cmds.length }, []) := by
  intro cmds
  induction cmds with
  | nil =>
    intro k items rest c _ _ _
    simp [createui_stackcmds, namesWithIdx]
  | cons cmd tail ih =>
    intro k items rest c hnd hrest hitems
    simp only [List.map_cons, List.nodup_cons] at hnd
    have h0 : items.get? k = some (buttonDataFor s a cmd.cmdName cmd) := by
      have := hitems 0 (Nat.succ_pos _)
      simpa using this
    simp only [List.map_cons, namesWithIdx, List.cons_append, createui_stackcmds,
      dictFind_cons_self, dictErase_cons_self]
    rw [dictErase_not_mem _ _ (by
      intro kv hkv hfst
      rcases List.mem_append.mp hkv with h1 | h1
      · have h2 := List.mem_map_of_mem Prod.fst h1
        rw [namesWithIdx_map_fst] at h2
        exact hnd.1 (hfst ▸ h2)
      · exact hrest kv h1 (by rw [hfst]; exact List.mem_cons_self _ _))]
    rw [setItemAt_of_get h0]
    rw [button_update_id, set_get_self _ _ _ h0]
    rw [ih (k + 1) items rest { c with updatedbuttoncount := c.updatedbuttoncount + 1 }
      hnd.2 (fun kv hkv => fun hmem => hrest kv hkv (List.mem_cons_of_mem _ hmem))
      (fun j hj => by
        have := hitems (j + 1) (Nat.succ_lt_succ hj)
        rw [show k + (j + 1) = k + 1 + j by omega] at this
        simpa using this)]
    simp only [List.length_cons]
    rw [show c.updatedbuttoncount + 1 + tail.length
        = c.updatedbuttoncount + (tail.length + 1) by omega]

/-- The item names a stacked-three group occupies. -/
theorem groupItemNames_stack (g : ScriptGroup) (hpf : isPulldownFamily g = false)
    (hst : (g.groupType == some sessionSettings.stackedThreeTypeName) = true) :
    groupItemNames g
      = (if g.commands.length == 3 then g.commands.map (fun cm => cm.className) else []) := by
  simp only [groupItemNames, canonicalGroupItems, hpf, Bool.false_eq_true, if_false, hst,
    if_true]
  split
  · simp [buttonDataFor]
  · simp

/-- Second-run stacked-three branch: all three buttons (or none) are found
and updated in place; the stack list stays empty so nothing is re-added. -/
theorem createui_stack_found (s a : String) (g : ScriptGroup)
    (pre post : List RItem) (rest : List (String × Nat)) (c : OpCounts)
    (hpf : isPulldownFamily g = false)
    (hst : (g.groupType == some sessionSettings.stackedThreeTypeName) = true)
    (hlen : g.commands.length = 3 ∨ g.commands = [])
    (hnd : (g.commands.map (fun cm => cm.className)).Nodup)
    (hrest : ∀ kv ∈ rest, kv.1 ∉ g.commands.map (fun cm => cm.className)) :
    createui_stack s a g (pre ++ canonicalGroupItems s a g ++ post)
        (namesWithIdx pre.length (groupItemNames g) ++ rest) c =
      (pre ++ canonicalGroupItems s a g ++ post, rest,
       { c with updatedbuttoncount := c.updatedbuttoncount + g.commands.length }) := by
  rw [groupItemNames_stack g hpf hst]
  rcases hlen with hlen | hlen
  · have h3 : (g.commands.length == 3) = true := by simp [hlen]
    simp only [h3, if_true]
    unfold createui_stack
    rw [createui_stackcmds_found s a g.commands pre.length _ rest c hnd hrest
      (fun j hj => by
        rw [show canonicalGroupItems s a g
            = g.commands.map (fun cm => buttonDataFor s a cm.cmdName cm) by
          simp only [canonicalGroupItems, hpf, Bool.false_eq_true, if_false, hst, if_true, h3]]
        rw [get?_append_middle pre _ post j (by rw [List.length_map]; omega)]
        rw [List.get?_map])]
    simp
  · rw [hlen]
    simp only [List.map_nil, namesWithIdx, List.nil_append, List.length_nil]
    unfold createui_stack
    rw [hlen]
    simp [createui_stackcmds]

/-- Second-run push/smart branch with no commands: nothing to do. -/
theorem createui_pushlike_found_none (s a : String) (g : ScriptGroup)
    (items : List RItem) (dict : List (String × Nat)) (c : OpCounts)
    (hnil : g.commands = []) :
    createui_pushlike s a g items dict c = (items, dict, c) := by
  unfold createui_pushlike
  rw [hnil]
  rfl

/-- Second-run push/smart branch: the settled button of the last command
is found and every write restores the canonical values. -/
theorem createui_pushlike_found_some (s a : String) (g : ScriptGroup) (cmd : ScriptCommand)
    (pre post : List RItem) (rest : List (String × Nat)) (c : OpCounts)
    (hlast : g.commands.getLast? = some cmd)
    (hrest : ∀ kv ∈ rest, kv.1 ≠ cmd.className) :
    createui_pushlike s a g (pre ++ [buttonDataFor s a g.groupName cmd] ++ post)
        ((cmd.className, pre.length) :: rest) c =
      (pre ++ [buttonDataFor s a g.groupName cmd] ++ post, rest,
       { c with updatedbuttoncount := c.updatedbuttoncount + 1 }) := by
  have hget : (pre ++ [buttonDataFor s a g.groupName cmd] ++ post).get? pre.length
      = some (buttonDataFor s a g.groupName cmd) := by
    have := get?_append_middle pre [buttonDataFor s a g.groupName cmd] post 0 (by simp)
    simpa using this
  have herase : dictErase ((cmd.className, pre.length) :: rest) cmd.className = rest := by
    rw [dictErase_cons_self, dictErase_not_mem _ _ hrest]
  simp only [createui_pushlike, hlast, dictFind_cons_self, herase]
  rw [setItemAt_of_get hget, button_update_id, set_get_self _ _ _ hget]
  rw [setItemAt_of_get hget, button_update2_id, set_get_self _ _ _ hget]

/-- Second-run link branch: the canonical link button is found and the
assembly rewrite restores the canonical values. -/
theorem createui_link_found (s a : String) (g : ScriptGroup)
    (pre post : List RItem) (rest : List (String × Nat)) (c : OpCounts)
    (hrest : ∀ kv ∈ rest, kv.1 ≠ g.groupName) :
    createui_link s a g (pre ++ [linkButtonDataFor g] ++ post)
        ((g.groupName, pre.length) :: rest) c =
      (pre ++ [linkButtonDataFor g] ++ post, rest,
       { c with updatedbuttoncount := c.updatedbuttoncount + 1 }) := by
  have hget : (pre ++ [linkButtonDataFor g] ++ post).get? pre.length
      = some (linkButtonDataFor g) := by
    have := get?_append_middle pre [linkButtonDataFor g] post 0 (by simp)
    simpa using this
  have herase : dictErase ((g.groupName, pre.length) :: rest) g.groupName = rest := by
    rw [dictErase_cons_self, dictErase_not_mem _ _ hrest]
  simp only [createui_link, dictFind_cons_self, herase]
  rw [setItemAt_of_get hget, link_update_id, set_get_self _ _ _ hget]

/-- Push/smart groups with commands occupy exactly the class name of
their last command. -/
theorem groupItemNames_pushlike (g : ScriptGroup) (cmd : ScriptCommand)
    (hpf : isPulldownFamily g = false)
    (hst : (g.groupType == some sessionSettings.stackedThreeTypeName) = false)
    (hpm : ((g.groupType == some sessionSettings.pushButtonTypeName
        || g.groupType == some sessionSettings.smartButtonTypeName) && !g.islinkbutton) = true)
    (hlast : g.commands.getLast? = some cmd) :
    groupItemNames g = [cmd.className] := by
  simp [groupItemNames, canonicalGroupItems, hpf, hst, hpm, hlast, buttonDataFor]

/-- Push/smart groups with no commands occupy no item names. -/
theorem groupItemNames_pushlike_nil (g : ScriptGroup)
    (hpf : isPulldownFamily g = false)
    (hst : (g.groupType == some sessionSettings.stackedThreeTypeName) = false)
    (hnil : g.commands = []) :
    groupItemNames g
      = (if ((g.groupType == some sessionSettings.linkButtonTypeName && g.islinkbutton) = true)
         then [g.groupName] else []) := by
  have hlast : g.commands.getLast? = none := by rw [hnil]; rfl
  simp only [groupItemNames, canonicalGroupItems, hpf, Bool.false_eq_true, if_false, hst]
  split
  · next h =>
    have hil : g.islinkbutton = false := by
      simp only [Bool.and_eq_true] at h
      simpa using h.2
    simp [hlast, hil]
  · split
    · simp [linkButtonDataFor]
    · simp

/-- Link groups occupy exactly their group name. -/
theorem groupItemNames_link (g : ScriptGroup)
    (hpf : isPulldownFamily g = false)
    (hst : (g.groupType == some sessionSettings.stackedThreeTypeName) = false)
    (hpm : ((g.groupType == some sessionSettings.pushButtonTypeName
        || g.groupType == some sessionSettings.smartButtonTypeName) && !g.islinkbutton) = false)
    (hlk : (g.groupType == some sessionSettings.linkButtonTypeName && g.islinkbutton) = true) :
    groupItemNames g = [g.groupName] := by
  simp only [groupItemNames, canonicalGroupItems, hpf, Bool.false_eq_true, if_false, hst,
    hpm, hlk, if_true]
  simp [linkButtonDataFor]

/-- Groups hit by no branch occupy no item names. -/
theorem groupItemNames_none (g : ScriptGroup)
    (hpf : isPulldownFamily g = false)
    (hst : (g.groupType == some sessionSettings.stackedThreeTypeName) = false)
    (hpm : ((g.groupType == some sessionSettings.pushButtonTypeName
        || g.groupType == some sessionSettings.smartButtonTypeName) && !g.islinkbutton) = false)
    (hlk : (g.groupType == some sessionSettings.linkButtonTypeName && g.islinkbutton) = false) :
    groupItemNames g = [] := by
  simp [groupItemNames, canonicalGroupItems, hpf, hst, hpm, hlk]

/-- Second run of one group against the canonical ribbon with its own
handle block at the head of the dict: every operation is a found-update
that rewrites the canonical values in place, the block is consumed, and
only `updatedbuttoncount` advances — by the group's first-run button
count. -/
theorem createui_group_found (s a : String) (g : ScriptGroup)
    (pre post : List RItem) (rest : List (String × Nat)) (c : OpCounts)
    (hwf : GroupWellFormed g)
    (hself : (groupItemNames g).Nodup)
    (hrest : ∀ kv ∈ rest, kv.1 ∉ groupItemNames g) :
    createui_group s a g (pre ++ canonicalGroupItems s a g ++ post)
        (namesWithIdx pre.length (groupItemNames g) ++ rest) c =
      (pre ++ canonicalGroupItems s a g ++ post, rest,
       { c with updatedbuttoncount := c.updatedbuttoncount + groupNewButtons g }) := by
  unfold createui_group
  by_cases hpf : isPulldownFamily g = true
  · have hnd := hwf.1 hpf
    have hcond : (g.groupType == some sessionSettings.pulldownButtonTypeName
        || (g.groupType == some sessionSettings.splitButtonTypeName
            || g.groupType == some sessionSettings.splitPushButtonTypeName)) = true := by
      rw [← Bool.or_assoc]
      exact hpf
    rw [if_pos hcond]
    rw [createui_pulldown_found s a g pre post rest c hpf hnd (fun kv hkv => by
      have := hrest kv hkv
      rw [groupItemNames_pulldown g hpf] at this
      simpa using this)]
    simp only [groupNewButtons, hpf, if_true]
  · have hpff : isPulldownFamily g = false := by simpa using hpf
    have hcond : (g.groupType == some sessionSettings.pulldownButtonTypeName
        || (g.groupType == some sessionSettings.splitButtonTypeName
            || g.groupType == some sessionSettings.splitPushButtonTypeName)) = false := by
      rw [← Bool.or_assoc]
      exact hpff
    rw [if_neg (by rw [hcond]; simp)]
    by_cases hst : (g.groupType == some sessionSettings.stackedThreeTypeName) = true
    · have hlen := hwf.2 (by simpa using hst)
      have hndstack : (g.commands.map (fun cm => cm.className)).Nodup := by
        rcases hlen with hlen | hlen
        · have hnames := groupItemNames_stack g hpff hst
          rw [if_pos (by simp [hlen])] at hnames
          exact hnames ▸ hself
        · rw [hlen]; simp
      rw [if_pos hst]
      rw [createui_stack_found s a g pre post rest c hpff hst hlen hndstack (fun kv hkv => by
        rcases hlen with hlen | hlen
        · have := hrest kv hkv
          rw [groupItemNames_stack g hpff hst, if_pos (by simp [hlen])] at this
          exact this
        · rw [hlen]; simp)]
      simp only [groupNewButtons, hpff, Bool.false_eq_true, if_false, hst, if_true]
    · simp only [Bool.not_eq_true] at hst
      rw [if_neg (by rw [hst]; simp)]
      by_cases hpm : ((g.groupType == some sessionSettings.pushButtonTypeName
          || g.groupType == some sessionSettings.smartButtonTypeName)
            && !g.islinkbutton) = true
      · have hpm2 := hpm
        simp only [Bool.and_eq_true, Bool.or_eq_true] at hpm2
        obtain ⟨hps, hni⟩ := hpm2
        rcases hlastc : g.commands.getLast? with _ | cmd
        · have hnil : g.commands = [] := by
            rcases hc : g.commands with _ | ⟨x, xs⟩
            · rfl
            · rw [hc] at hlastc
              simp [List.getLast?_concat] at hlastc
          have hil : g.islinkbutton = false := by simpa using hni
          have hnames := groupItemNames_pushlike_nil g hpff hst hnil
          rw [if_neg (by rw [hil]; simp)] at hnames
          rw [hnames]
          simp only [namesWithIdx, List.nil_append]
          rcases hps with hps | hps
          · rw [if_pos (by simp [hps, hni])]
            rw [createui_pushlike_found_none s a g _ _ c hnil]
            simp only [groupNewButtons, hpff, Bool.false_eq_true, if_false, hst, hpm, if_true]
            rw [if_pos (by rw [hnil]; rfl)]
            rfl
          · have heq : g.groupType = some sessionSettings.smartButtonTypeName := by
              simpa using hps
            have hpushf : (g.groupType == some sessionSettings.pushButtonTypeName) = false := by
              rw [heq]; decide
            rw [if_neg (by rw [hpushf]; simp), if_pos (by simp [hps, hni])]
            rw [createui_pushlike_found_none s a g _ _ c hnil]
            simp only [groupNewButtons, hpff, Bool.false_eq_true, if_false, hst, hpm, if_true]
            rw [if_pos (by rw [hnil]; rfl)]
            rfl
        · have hne : g.commands ≠ [] := by
            intro hh
            rw [hh] at hlastc
            cases hlastc
          have hempty : g.commands.isEmpty = false := by
            rcases hc : g.commands with _ | ⟨x, xs⟩
            · exact absurd hc hne
            · rfl
          have hnames := groupItemNames_pushlike g cmd hpff hst hpm hlastc
          have hcan : canonicalGroupItems s a g = [buttonDataFor s a g.groupName cmd] := by
            simp [canonicalGroupItems, hpff, hst, hpm, hlastc]
          rw [hcan, hnames]
          simp only [namesWithIdx, List.cons_append, List.nil_append]
          rcases hps with hps | hps
          · rw [if_pos (by simp [hps, hni])]
            rw [createui_pushlike_found_some s a g cmd pre post rest c hlastc
              (fun kv hkv => by
                have := hrest kv hkv
                rw [hnames] at this
                simpa using this)]
            simp only [groupNewButtons, hpff, Bool.false_eq_true, if_false, hst, hpm, if_true]
            rw [if_neg (by rw [hempty]; simp)]
          · have heq : g.groupType = some sessionSettings.smartButtonTypeName := by
              simpa using hps
            have hpushf : (g.groupType == some sessionSettings.pushButtonTypeName) = false := by
              rw [heq]; decide
            rw [if_neg (by rw [hpushf]; simp), if_pos (by simp [hps, hni])]
            rw [createui_pushlike_found_some s a g cmd pre post rest c hlastc
              (fun kv hkv => by
                have := hrest kv hkv
                rw [hnames] at this
                simpa using this)]
            simp only [groupNewButtons, hpff, Bool.false_eq_true, if_false, hst, hpm, if_true]
            rw [if_neg (by rw [hempty]; simp)]
      · have hpmf : ((g.groupType == some sessionSettings.pushButtonTypeName
            || g.groupType == some sessionSettings.smartButtonTypeName)
              && !g.islinkbutton) = false := by simpa using hpm
        have hd1 : (g.groupType == some sessionSettings.pushButtonTypeName
            && !g.islinkbutton) = false := by
          rcases hb : (g.groupType == some sessionSettings.pushButtonTypeName) with _ | _
          · rfl
          · rcases hi : g.islinkbutton with _ | _
            · exfalso
              rw [hb, hi] at hpmf
              simp at hpmf
            · rfl
        have hd2 : (g.groupType == some sessionSettings.smartButtonTypeName
            && !g.islinkbutton) = false := by
          rcases hb : (g.groupType == some sessionSettings.smartButtonTypeName) with _ | _
          · rfl
          · rcases hi : g.islinkbutton with _ | _
            · exfalso
              rw [hb, hi] at hpmf
              simp at hpmf
            · rfl
        rw [if_neg (by rw [hd1]; simp), if_neg (by rw [hd2]; simp)]
        by_cases hlk : (g.groupType == some sessionSettings.linkButtonTypeName
            && g.islinkbutton) = true
        · have hnames := groupItemNames_link g hpff hst hpmf hlk
          have hcan : canonicalGroupItems s a g = [linkButtonDataFor g] := by
            simp [canonicalGroupItems, hpff, hst, hpmf, hlk]
          rw [hcan, hnames]
          simp only [namesWithIdx, List.cons_append, List.nil_append]
          rw [if_pos hlk]
          rw [createui_link_found s a g pre post rest c (fun kv hkv => by
            have := hrest kv hkv
            rw [hnames] at this
            simpa using this)]
          simp only [groupNewButtons, hpff, Bool.false_eq_true, if_false, hst, hpmf, hlk,
            if_true]
        · have hlkf : (g.groupType == some sessionSettings.linkButtonTypeName
              && g.islinkbutton) = false := by simpa using hlk
          have hnames := groupItemNames_none g hpff hst hpmf hlkf
          have hcan : canonicalGroupItems s a g = [] := by
            simp [canonicalGroupItems, hpff, hst, hpmf, hlkf]
          rw [hcan, hnames]
          simp only [namesWithIdx, List.nil_append]
          rw [if_neg (by rw [hlkf]; simp)]
          simp only [groupNewButtons, hpff, Bool.false_eq_true, if_false, hst, hpmf, hlkf,
            Nat.add_zero]

/-- First-run group loop of one panel: with an empty handle dict the
canonical group blocks are appended in sorted order. -/
theorem createui_groups_empty (s a : String) :
    ∀ (gs : List ScriptGroup) (items : List RItem) (c : OpCounts),
      (∀ g ∈ gs, GroupWellFormed g) →
      createui_groups s a gs items [] c =
        (items ++ canonicalPanelItems s a gs, [],
         { c with containerCreates := c.containerCreates + (gs.map groupContainerCreates).sum,
                  newbuttoncount := c.newbuttoncount + (gs.map groupNewButtons).sum }) := by
  intro gs
  induction gs with
  | nil =>
    intro items c _
    simp [createui_groups, canonicalPanelItems]
  | cons g rest ih =>
    intro items c hwf
    simp only [createui_groups]
    rw [createui_group_empty s a g items c (hwf g (List.mem_cons_self g rest))]
    dsimp only
    rw [ih (items ++ canonicalGroupItems s a g) _
      (fun g2 h2 => hwf g2 (List.mem_cons_of_mem g h2))]
    simp only [canonicalPanelItems, List.map_cons, List.flatten_cons, List.map_cons,
      List.sum_cons]
    rw [List.append_assoc]
    rw [show c.containerCreates + groupContainerCreates g + (rest.map groupContainerCreates).sum
        = c.containerCreates + (groupContainerCreates g + (rest.map groupContainerCreates).sum)
        by omega]
    rw [show c.newbuttoncount + groupNewButtons g + (rest.map groupNewButtons).sum
        = c.newbuttoncount + (groupNewButtons g + (rest.map groupNewButtons).sum) by omega]

/-- Second-run group loop of one panel: with the canonical items in place
and the full handle dict, every block is consumed as in-place updates. -/
theorem createui_groups_found (s a : String) :
    ∀ (gs : List ScriptGroup) (pre : List RItem) (c : OpCounts),
      (∀ g ∈ gs, GroupWellFormed g) →
      ((gs.map groupItemNames).flatten).Nodup →
      createui_groups s a gs (pre ++ canonicalPanelItems s a gs)
          (blockPairs pre.length gs) c =
        (pre ++ canonicalPanelItems s a gs, [],
         { c with updatedbuttoncount :=
             c.updatedbuttoncount + (gs.map groupNewButtons).sum }) := by
  intro gs
  induction gs with
  | nil =>
    intro pre c _ _
    simp [createui_groups, canonicalPanelItems, blockPairs]
  | cons g rest ih =>
    intro pre c hwf hnd
    simp only [List.map_cons, List.flatten_cons] at hnd
    rw [List.nodup_append] at hnd
    obtain ⟨hself, hndrest, hdisj⟩ := hnd
    simp only [createui_groups, blockPairs, canonicalPanelItems, List.map_cons,
      List.flatten_cons]
    rw [show pre ++ ((canonicalGroupItems s a g)
          ++ ((rest.map (canonicalGroupItems s a)).flatten))
        = (pre ++ canonicalGroupItems s a g)
          ++ (rest.map (canonicalGroupItems s a)).flatten from
      (List.append_assoc _ _ _).symm]
    rw [createui_group_found s a g pre ((rest.map (canonicalGroupItems s a)).flatten)
      (blockPairs (pre.length + (groupItemNames g).length) rest) c
      (hwf g (List.mem_cons_self g rest)) hself
      (fun kv hkv => by
        have h2 := List.mem_map_of_mem Prod.fst hkv
        rw [blockPairs_eq, namesWithIdx_map_fst] at h2
        intro hmem
        exact hdisj hmem h2)]
    dsimp only
    have hlen : (pre ++ canonicalGroupItems s a g).length
        = pre.length + (groupItemNames g).length := by
      rw [List.length_append, canonicalGroupItems_length]
    rw [← hlen]
    have := ih (pre ++ canonicalGroupItems s a g)
      { c with updatedbuttoncount := c.updatedbuttoncount + groupNewButtons g }
      (fun g2 h2 => hwf g2 (List.mem_cons_of_mem g h2)) hndrest
    simp only [canonicalPanelItems] at this
    rw [this]
    simp only [List.map_cons, List.sum_cons]
    rw [show c.updatedbuttoncount + groupNewButtons g + (rest.map groupNewButtons).sum
        = c.updatedbuttoncount + (groupNewButtons g + (rest.map groupNewButtons).sum)
        by omega]

/-- Phase-1 panel loop over a freshly created tab: every panel is created
empty, registered in the session dicts with an empty snapshot. -/
theorem create_or_find_panels_fresh (tn : String) :
    ∀ (ps : List ScriptPanel) (pre : List RTab) (done : List RPanel) (post : List RTab)
      (c : OpCounts) (st : TabUIState),
      (∀ rt ∈ pre, (rt.name == tn) = false) →
      create_or_find_panels tn [] ps
          { tabs := pre ++ ({ name := tn, panels := done } : RTab) :: post } c st =
        ({ tabs := pre ++ ({ name := tn, panels := done ++ ps.map phase1Panel } : RTab) :: post },
         { c with panelCreates := c.panelCreates + ps.length },
         { uiPanels := st.uiPanels ++ ps.map (fun p => p.panelName),
           uiButtons := st.uiButtons ++ ps.map (fun p => (p.panelName, ([] : List Nat))) }) := by
  intro ps
  induction ps with
  | nil =>
    intro pre done post c st _
    simp [create_or_find_panels]
  | cons p rest ih =>
    intro pre done post c st hpre
    have hc : ((([] : List String)).contains p.panelName) = false := rfl
    simp only [create_or_find_panels, hc, Bool.false_eq_true, if_false]
    simp only [RevitUI.modifyTab]
    rw [modifyFirst_append _ _ pre _ post hpre (by simp)]
    simp only [RTab.addPanel]
    rw [ih pre (done ++ [({ Name := p.panelName } : RPanel)]) post
      { c with panelCreates := c.panelCreates + 1 }
      { uiPanels := st.uiPanels ++ [p.panelName],
        uiButtons := st.uiButtons ++ [(p.panelName, ([] : List Nat))] } hpre]
    simp only [List.append_assoc, List.singleton_append, List.map_cons, List.length_cons]
    rw [show c.panelCreates + 1 + rest.length = c.panelCreates + (rest.length + 1) by omega]
    rfl

/-- Phase-1 body for a fresh tab with commands: the tab is created at the
end of the ribbon with its empty panels, and the session dicts filled. -/
theorem create_or_find_tab_fresh (ui : RevitUI) (c : OpCounts) (tab : ScriptTab)
    (hhc : tab.hascommands = true)
    (hnone : ∀ rt ∈ ui.tabs, (rt.name == tab.tabName) = false) :
    create_or_find_tab ui c tab =
      ({ tabs := ui.tabs ++ [phase1RTab tab] },
       { c with tabCreates := c.tabCreates + 1,
                panelCreates := c.panelCreates + tab.get_sorted_scriptpanels.length },
       phase1State tab) := by
  unfold create_or_find_tab
  rw [if_pos hhc]
  have hfind : ui.findTab tab.tabName = none := by
    unfold RevitUI.findTab
    rw [List.find?_eq_none]
    intro rt hrt
    rw [hnone rt hrt]
    simp
  rw [hfind]
  simp only [RevitUI.addTab]
  rw [show ui.tabs ++ [({ name := tab.tabName } : RTab)]
      = ui.tabs ++ ({ name := tab.tabName, panels := [] } : RTab) :: [] from rfl]
  rw [create_or_find_panels_fresh tab.tabName tab.get_sorted_scriptpanels ui.tabs [] []
    _ {} hnone]
  simp only [List.nil_append]
  rfl

/-- Phase 1 of a first run over an empty ribbon: one fresh tab per desired
tab with commands, appended in order, with the session dicts recorded. -/
theorem phase1_run1 :
    ∀ (ts : List ScriptTab) (pre : List RTab) (c : OpCounts),
      (∀ t ∈ ts, ∀ rt ∈ pre, rt.name ≠ t.tabName) →
      (ts.map (fun t => t.tabName)).Nodup →
      create_or_find_pyrevit_panels ts { tabs := pre } c =
        ({ tabs := pre ++ (ts.filter (fun t => t.hascommands)).map phase1RTab },
         { c with
             tabCreates := c.tabCreates + (ts.filter (fun t => t.hascommands)).length,
             panelCreates := c.panelCreates + treePanelCreates ts },
         phase1States ts) := by
  intro ts
  induction ts with
  | nil =>
    intro pre c _ _
    simp [create_or_find_pyrevit_panels, treePanelCreates, phase1States]
  | cons tab rest ih =>
    intro pre c hpre hnd
    simp only [List.map_cons, List.nodup_cons] at hnd
    rcases hhc : tab.hascommands with _ | _
    · have htab : create_or_find_tab { tabs := pre } c tab = ({ tabs := pre }, c, {}) := by
        unfold create_or_find_tab
        rw [if_neg (by rw [hhc]; simp)]
      simp only [create_or_find_pyrevit_panels, htab]
      rw [ih pre c (fun t ht rt hrt => hpre t (List.mem_cons_of_mem tab ht) rt hrt) hnd.2]
      rw [List.filter_cons_of_neg (by rw [hhc]; simp)]
      simp only [phase1States, treePanelCreates, List.map_cons, hhc, Bool.false_eq_true,
        if_false, List.filter_cons_of_neg (show ¬tab.hascommands = true by rw [hhc]; simp)]
    · have hnone : ∀ rt ∈ pre, (rt.name == tab.tabName) = false := by
        intro rt hrt
        have := hpre tab (List.mem_cons_self tab rest) rt hrt
        simpa using this
      simp only [create_or_find_pyrevit_panels]
      rw [create_or_find_tab_fresh { tabs := pre } c tab hhc hnone]
      dsimp only
      rw [ih (pre ++ [phase1RTab tab]) _ (fun t ht rt hrt => by
        rcases List.mem_append.mp hrt with h1 | h1
        · exact hpre t (List.mem_cons_of_mem tab ht) rt h1
        · simp only [List.mem_singleton] at h1
          subst h1
          show (phase1RTab tab).name ≠ t.tabName
          simp only [phase1RTab]
          intro hne
          exact hnd.1 (hne ▸ List.mem_map_of_mem (fun t => t.tabName) ht)) hnd.2]
      rw [List.filter_cons_of_pos (by rw [hhc])]
      simp only [List.map_cons, List.length_cons, List.append_assoc, List.singleton_append]
      simp only [phase1States, List.map_cons, hhc, if_true]
      rw [show c.tabCreates + 1 + (rest.filter (fun t => t.hascommands)).length
          = c.tabCreates + ((rest.filter (fun t => t.hascommands)).length + 1) by omega]
      rw [show treePanelCreates (tab :: rest)
          = tab.get_sorted_scriptpanels.length + treePanelCreates rest from by
        simp [treePanelCreates, List.filter_cons_of_pos (by rw [hhc] : tab.hascommands = true)]]
      rw [show c.panelCreates + tab.get_sorted_scriptpanels.length + treePanelCreates rest
          = c.panelCreates + (tab.get_sorted_scriptpanels.length + treePanelCreates rest)
          by omega]

/-- Phase-1 panel loop when every desired panel already exists on the live
tab: the ribbon is untouched and each snapshot records the panel's current
handle range. -/
theorem create_or_find_panels_found (tn : String) (existing : List String) :
    ∀ (ps : List ScriptPanel) (ui : RevitUI) (c : OpCounts) (st : TabUIState),
      (∀ p ∈ ps, p.panelName ∈ existing) →
      create_or_find_panels tn existing ps ui c st =
        (ui, c,
         { uiPanels := st.uiPanels ++ ps.map (fun p => p.panelName),
           uiButtons := st.uiButtons ++ ps.map (fun p => (p.panelName,
               match ui.panelItems tn p.panelName with
               | some items => List.range items.length
               | none => ([] : List Nat))) }) := by
  intro ps
  induction ps with
  | nil =>
    intro ui c st _
    simp [create_or_find_panels]
  | cons p rest ih =>
    intro ui c st hmem
    have hc : existing.contains p.panelName = true := by
      have := hmem p (List.mem_cons_self p rest)
      exact List.elem_eq_true_of_mem this
    simp only [create_or_find_panels, hc, if_true]
    rw [ih ui c _ (fun q hq => hmem q (List.mem_cons_of_mem p hq))]
    simp only [List.map_cons, List.append_assoc, List.singleton_append]

/-- A desired tab with commands is found on the canonical ribbon. -/
theorem canonicalUI_findTab (s a : String) (tabs : List ScriptTab) (t : ScriptTab)
    (hnd : (tabs.map (fun t => t.tabName)).Nodup)
    (hmem : t ∈ tabs) (hhc : t.hascommands = true) :
    (canonicalUI s a tabs).findTab t.tabName = some (canonicalRTab s a t) := by
  unfold canonicalUI RevitUI.findTab
  have hmem2 : canonicalRTab s a t
      ∈ (tabs.filter (fun t => t.hascommands)).map (canonicalRTab s a) :=
    List.mem_map_of_mem _ (List.mem_filter.mpr ⟨hmem, by rw [hhc]⟩)
  have hndk : (((tabs.filter (fun t => t.hascommands)).map
      (canonicalRTab s a)).map (fun rt => rt.name)).Nodup := by
    rw [List.map_map]
    have hcomp : ((fun rt : RTab => rt.name) ∘ canonicalRTab s a)
        = (fun t : ScriptTab => t.tabName) := rfl
    rw [hcomp]
    have hsub : ((tabs.filter (fun t => t.hascommands)).map
        (fun t => t.tabName)).Sublist (tabs.map (fun t => t.tabName)) :=
      (List.filter_sublist _).map _
    exact List.Nodup.sublist hsub hnd
  exact find?_key_of_mem (fun rt : RTab => rt.name) _ (canonicalRTab s a t) hndk hmem2

/-- A desired panel is found on its canonical live tab. -/
theorem canonicalRTab_findPanel (s a : String) (t : ScriptTab) (p : ScriptPanel)
    (hnd : (t.get_sorted_scriptpanels.map (fun p => p.panelName)).Nodup)
    (hmem : p ∈ t.get_sorted_scriptpanels) :
    (canonicalRTab s a t).findPanel p.panelName = some (canonicalRPanel s a p) := by
  unfold canonicalRTab RTab.findPanel
  have hmem2 : canonicalRPanel s a p
      ∈ t.get_sorted_scriptpanels.map (canonicalRPanel s a) :=
    List.mem_map_of_mem _ hmem
  have hndk : ((t.get_sorted_scriptpanels.map (canonicalRPanel s a)).map
      (fun rp => rp.Name)).Nodup := by
    rw [List.map_map]
    have hcomp : ((fun rp : RPanel => rp.Name) ∘ canonicalRPanel s a)
        = (fun p : ScriptPanel => p.panelName) := rfl
    rw [hcomp]
    exact hnd
  exact find?_key_of_mem (fun rp : RPanel => rp.Name) _ (canonicalRPanel s a p) hndk hmem2

/-- The canonical ribbon serves each desired panel's canonical items. -/
theorem canonicalUI_panelItems (s a : String) (tabs : List ScriptTab) (t : ScriptTab)
    (p : ScriptPanel)
    (hndt : (tabs.map (fun t => t.tabName)).Nodup)
    (hmemt : t ∈ tabs) (hhc : t.hascommands = true)
    (hndp : (t.get_sorted_scriptpanels.map (fun p => p.panelName)).Nodup)
    (hmemp : p ∈ t.get_sorted_scriptpanels) :
    (canonicalUI s a tabs).panelItems t.tabName p.panelName
      = some (canonicalPanelItems s a p.get_sorted_scriptgroups) := by
  unfold RevitUI.panelItems
  rw [canonicalUI_findTab s a tabs t hndt hmemt hhc]
  dsimp only
  rw [canonicalRTab_findPanel s a t p hndp hmemp]
  rfl

/-- Writing a panel's canonical items back through its handle leaves the
canonical ribbon unchanged. -/
theorem canonicalUI_setPanelItems_self (s a : String) (tabs : List ScriptTab) (t : ScriptTab)
    (p : ScriptPanel)
    (hndt : (tabs.map (fun t => t.tabName)).Nodup)
    (hmemt : t ∈ tabs) (hhc : t.hascommands = true)
    (hndp : (t.get_sorted_scriptpanels.map (fun p => p.panelName)).Nodup)
    (hmemp : p ∈ t.get_sorted_scriptpanels) :
    (canonicalUI s a tabs).setPanelItems t.tabName p.panelName
        (canonicalPanelItems s a p.get_sorted_scriptgroups) = canonicalUI s a tabs := by
  have hfind := canonicalUI_findTab s a tabs t hndt hmemt hhc
  have hfindp := canonicalRTab_findPanel s a t p hndp hmemp
  unfold RevitUI.setPanelItems RevitUI.modifyTab
  have htabs : modifyFirst (fun tb => tb.name == t.tabName)
      (fun tb => tb.modifyPanel p.panelName
        (fun pan => { pan with items := canonicalPanelItems s a p.get_sorted_scriptgroups }))
      (canonicalUI s a tabs).tabs = (canonicalUI s a tabs).tabs := by
    apply modifyFirst_self
    intro x hx
    have hx2 : x = canonicalRTab s a t := by
      have : (canonicalUI s a tabs).findTab t.tabName = some x := by
        unfold RevitUI.findTab
        exact hx
      rw [hfind] at this
      exact (Option.some.injEq _ _ ▸ this).symm
    subst hx2
    unfold RTab.modifyPanel
    have hpanels : modifyFirst (fun pan => pan.Name == p.panelName)
        (fun pan => { pan with items := canonicalPanelItems s a p.get_sorted_scriptgroups })
        (canonicalRTab s a t).panels = (canonicalRTab s a t).panels := by
      apply modifyFirst_self
      intro y hy
      have hy2 : y = canonicalRPanel s a p := by
        have : (canonicalRTab s a t).findPanel p.panelName = some y := by
          unfold RTab.findPanel
          exact hy
        rw [hfindp] at this
        exact (Option.some.injEq _ _ ▸ this).symm
      subst hy2
      rfl
    rw [hpanels]
  rw [htabs]

/-- Phase 1 of a second run against the canonical ribbon: every tab and
panel is found, the ribbon is untouched, no counters move, and the
snapshots record each panel's full canonical handle range. -/
theorem phase1_run2 (s a : String) (tabs0 : List ScriptTab)
    (hnd : (tabs0.map (fun t => t.tabName)).Nodup)
    (hwf0 : ∀ t ∈ tabs0, TabWellFormed t) :
    ∀ (ts : List ScriptTab) (c : OpCounts),
      (∀ t ∈ ts, t ∈ tabs0) →
      create_or_find_pyrevit_panels ts (canonicalUI s a tabs0) c =
        (canonicalUI s a tabs0, c, phase2States s a ts) := by
  intro ts
  induction ts with
  | nil =>
    intro c _
    simp [create_or_find_pyrevit_panels, phase2States]
  | cons tab rest ih =>
    intro c hmem
    rcases hhc : tab.hascommands with _ | _
    · have htab : create_or_find_tab (canonicalUI s a tabs0) c tab
          = (canonicalUI s a tabs0, c, {}) := by
        unfold create_or_find_tab
        rw [if_neg (by rw [hhc]; simp)]
      simp only [create_or_find_pyrevit_panels, htab]
      rw [ih c (fun t ht => hmem t (List.mem_cons_of_mem tab ht))]
      simp only [phase2States, List.map_cons, hhc, Bool.false_eq_true, if_false]
    · have hmemt := hmem tab (List.mem_cons_self tab rest)
      have hwft := hwf0 tab hmemt
      have htab : create_or_find_tab (canonicalUI s a tabs0) c tab
          = (canonicalUI s a tabs0, c, phase2StateOf s a tab.get_sorted_scriptpanels) := by
        unfold create_or_find_tab
        rw [if_pos hhc]
        rw [canonicalUI_findTab s a tabs0 tab hnd hmemt hhc]
        dsimp only
        have hex : (canonicalRTab s a tab).panels.map (fun p => p.Name)
            = tab.get_sorted_scriptpanels.map (fun p => p.panelName) := by
          unfold canonicalRTab
          dsimp only
          rw [List.map_map]
          rfl
        rw [create_or_find_panels_found tab.tabName _ tab.get_sorted_scriptpanels
          (canonicalUI s a tabs0) c {} (fun p hp => by
            rw [hex]
            exact List.mem_map_of_mem _ hp)]
        unfold phase2StateOf
        simp only [List.nil_append]
        congr 1
        congr 1
        congr 1
        apply List.map_congr_left
        intro p hp
        rw [canonicalUI_panelItems s a tabs0 tab p hnd hmemt hhc hwft.1 hp]
      simp only [create_or_find_pyrevit_panels, htab]
      rw [ih c (fun t ht => hmem t (List.mem_cons_of_mem tab ht))]
      simp only [phase2States, List.map_cons, hhc, if_true]

theorem phase1StateOf_find (all : List ScriptPanel) (p : ScriptPanel)
    (hnd : (all.map (fun q => q.panelName)).Nodup) (hmem : p ∈ all) :
    (phase1StateOf all).uiButtons.find? (fun kv => kv.1 == p.panelName)
      = some (p.panelName, ([] : List Nat)) := by
  unfold phase1StateOf
  have hndk : ((all.map (fun q => (q.panelName, ([] : List Nat)))).map Prod.fst).Nodup := by
    rw [List.map_map]
    exact hnd
  exact find?_key_of_mem Prod.fst _ (p.panelName, ([] : List Nat)) hndk
    (List.mem_map_of_mem _ hmem)

theorem phase2StateOf_find (s a : String) (all : List ScriptPanel) (p : ScriptPanel)
    (hnd : (all.map (fun q => q.panelName)).Nodup) (hmem : p ∈ all) :
    (phase2StateOf s a all).uiButtons.find? (fun kv => kv.1 == p.panelName)
      = some (p.panelName,
          List.range (canonicalPanelItems s a p.get_sorted_scriptgroups).length) := by
  unfold phase2StateOf
  have hndk : ((all.map (fun q => (q.panelName,
      List.range (canonicalPanelItems s a q.get_sorted_scriptgroups).length))).map
        Prod.fst).Nodup := by
    rw [List.map_map]
    exact hnd
  exact find?_key_of_mem Prod.fst _ _ hndk (List.mem_map_of_mem _ hmem)

/-- Phase-2 panel loop of a first run: each empty phase-1 panel shell is
filled with the panel's canonical items in turn. -/
theorem createui_panels_run1 (s a tn : String) (all : List ScriptPanel)
    (hnd : (all.map (fun q => q.panelName)).Nodup)
    (hwfall : ∀ q ∈ all, PanelWellFormed q) :
    ∀ (ps done : List ScriptPanel) (pre post : List RTab) (c : OpCounts),
      all = done ++ ps →
      (∀ rt ∈ pre, (rt.name == tn) = false) →
      createui_panels s a tn (phase1StateOf all) ps
          (uiWithTab pre (tabInProgress s a tn done ps) post) c
        = .ok (uiWithTab pre (tabDone s a tn all) post,
            { c with
                containerCreates := c.containerCreates + (ps.map panelContainerCreates).sum,
                newbuttoncount := c.newbuttoncount + (ps.map panelNewButtons).sum }) := by
  intro ps
  induction ps with
  | nil =>
    intro done pre post c hall _
    rw [List.append_nil] at hall
    subst hall
    simp [createui_panels, tabInProgress, tabDone]
  | cons p rest ih =>
    intro done pre post c hall hpre
    have hmem : p ∈ all := by
      rw [hall]
      exact List.mem_append_right done (List.mem_cons_self p rest)
    have hwfp := hwfall p hmem
    have hcont : ((all.map (fun q => q.panelName)).contains p.panelName) = true :=
      List.elem_eq_true_of_mem (List.mem_map_of_mem _ hmem)
    have hdone : ∀ q ∈ done, (q.panelName == p.panelName) = false := by
      intro q hq
      have hnd2 := hall ▸ hnd
      rw [List.map_append, List.nodup_append] at hnd2
      have hne : q.panelName ≠ p.panelName := by
        intro he
        apply hnd2.2.2 (List.mem_map_of_mem _ hq)
        rw [he]
        exact List.mem_map_of_mem (fun q => q.panelName) (List.mem_cons_self p rest)
      simpa using hne
    have hfindtab : (uiWithTab pre (tabInProgress s a tn done (p :: rest)) post).findTab tn
        = some (tabInProgress s a tn done (p :: rest)) := by
      unfold uiWithTab RevitUI.findTab
      exact find?_append_first _ pre _ post hpre (by simp [tabInProgress])
    have hfindpanel : (tabInProgress s a tn done (p :: rest)).findPanel p.panelName
        = some (phase1Panel p) := by
      unfold tabInProgress RTab.findPanel
      dsimp only
      rw [List.map_cons]
      exact find?_append_first _ (done.map (canonicalRPanel s a)) (phase1Panel p)
        (rest.map phase1Panel)
        (fun rp hrp => by
          obtain ⟨q, hq, rfl⟩ := List.mem_map.mp hrp
          exact hdone q hq)
        (by simp [phase1Panel])
    simp only [createui_panels, createui_panel]
    rw [show (phase1StateOf all).uiPanels = all.map (fun q => q.panelName) from rfl]
    simp only [hcont, Bool.not_true, Bool.false_eq_true, if_false]
    rw [phase1StateOf_find all p hnd hmem]
    simp only [RevitUI.panelItems, hfindtab, hfindpanel]
    rw [show (phase1Panel p).items = ([] : List RItem) from rfl]
    simp only [List.filterMap_nil, buildDict, List.foldl_nil]
    rw [createui_groups_empty s a p.get_sorted_scriptgroups [] c hwfp.2]
    simp only [List.nil_append, createui_panelOrphans, List.foldl_nil]
    simp only [RevitUI.setPanelItems, RevitUI.modifyTab, uiWithTab]
    rw [modifyFirst_append _ _ pre _ post hpre (by simp [tabInProgress])]
    simp only [RTab.modifyPanel, tabInProgress, List.map_cons]
    rw [modifyFirst_append _ _ (done.map (canonicalRPanel s a)) (phase1Panel p)
      (rest.map phase1Panel)
      (fun rp hrp => by
        obtain ⟨q, hq, rfl⟩ := List.mem_map.mp hrp
        exact hdone q hq)
      (by simp [phase1Panel])]
    rw [show ({ phase1Panel p with
        items := canonicalPanelItems s a p.get_sorted_scriptgroups } : RPanel)
        = canonicalRPanel s a p from rfl]
    rw [show done.map (canonicalRPanel s a) ++ canonicalRPanel s a p :: rest.map phase1Panel
        = (done ++ [p]).map (canonicalRPanel s a) ++ rest.map phase1Panel from by
      rw [List.map_append]
      simp]
    have hgoal := ih (done ++ [p]) pre post
      { c with containerCreates := c.containerCreates + panelContainerCreates p,
               newbuttoncount := c.newbuttoncount + panelNewButtons p }
      (by rw [hall]; simp) hpre
    simp only [uiWithTab, tabInProgress, panelContainerCreates, panelNewButtons] at hgoal
    rw [hgoal]
    simp only [List.map_cons, List.sum_cons, panelContainerCreates, panelNewButtons,
      Nat.add_assoc]

/-- Phase-2 panel loop of a second run: every panel's canonical items are
re-read through the snapshot handles, every group block updates in place,
and the ribbon is returned unchanged. -/
theorem createui_panels_run2 (s a tn : String) (ui : RevitUI) (all : List ScriptPanel)
    (hnd : (all.map (fun q => q.panelName)).Nodup)
    (hwfall : ∀ q ∈ all, PanelWellFormed q)
    (hitems : ∀ q ∈ all, ui.panelItems tn q.panelName
        = some (canonicalPanelItems s a q.get_sorted_scriptgroups))
    (hset : ∀ q ∈ all, ui.setPanelItems tn q.panelName
        (canonicalPanelItems s a q.get_sorted_scriptgroups) = ui) :
    ∀ (ps : List ScriptPanel) (c : OpCounts),
      (∀ q ∈ ps, q ∈ all) →
      createui_panels s a tn (phase2StateOf s a all) ps ui c
        = .ok (ui, { c with updatedbuttoncount :=
            c.updatedbuttoncount + (ps.map panelNewButtons).sum }) := by
  intro ps
  induction ps with
  | nil =>
    intro c _
    simp [createui_panels]
  | cons p rest ih =>
    intro c hmem
    have hmemp : p ∈ all := hmem p (List.mem_cons_self p rest)
    have hwfp := hwfall p hmemp
    have hcont : ((all.map (fun q => q.panelName)).contains p.panelName) = true :=
      List.elem_eq_true_of_mem (List.mem_map_of_mem _ hmemp)
    simp only [createui_panels, createui_panel]
    rw [show (phase2StateOf s a all).uiPanels = all.map (fun q => q.panelName) from rfl]
    simp only [hcont, Bool.not_true, Bool.false_eq_true, if_false]
    rw [phase2StateOf_find s a all p hnd hmemp]
    rw [hitems p hmemp]
    dsimp only
    rw [rangeSnapDict]
    rw [canonicalPanelItems_names]
    rw [buildDict_nodup _ (by rw [namesWithIdx_map_fst]; exact hwfp.1)]
    rw [← blockPairs_eq]
    have hinst := createui_groups_found s a p.get_sorted_scriptgroups [] c hwfp.2 hwfp.1
    simp only [List.nil_append, List.length_nil] at hinst
    rw [hinst]
    simp only [createui_panelOrphans, List.foldl_nil]
    rw [hset p hmemp]
    rw [ih _ (fun q hq => hmem q (List.mem_cons_of_mem p hq))]
    simp only [List.map_cons, List.sum_cons, panelNewButtons, Nat.add_assoc]

/-- Phase 2 of a first run: the desired tabs are reconciled in order
against their fresh phase-1 shells, leaving the canonical tabs. -/
theorem createui_run1 (s a : String) :
    ∀ (ts : List ScriptTab) (pre : List RTab) (c : OpCounts),
      (∀ t ∈ ts, TabWellFormed t) →
      (ts.map (fun t => t.tabName)).Nodup →
      (∀ t ∈ ts, ∀ rt ∈ pre, rt.name ≠ t.tabName) →
      createui s a (ts.zip (phase1States ts))
          { tabs := pre ++ (ts.filter (fun t => t.hascommands)).map phase1RTab } c
        = .ok ({ tabs := pre ++ (ts.filter (fun t => t.hascommands)).map (canonicalRTab s a) },
            { c with containerCreates := c.containerCreates + treeContainerCreates ts,
                     newbuttoncount := c.newbuttoncount + treeNewButtons ts }) := by
  intro ts
  induction ts with
  | nil =>
    intro pre c _ _ _
    simp [createui, phase1States, treeContainerCreates, treeNewButtons]
  | cons tab rest ih =>
    intro pre c hwf hnd hpre
    simp only [List.map_cons, List.nodup_cons] at hnd
    have hwft := hwf tab (List.mem_cons_self tab rest)
    simp only [phase1States, List.map_cons, List.zip_cons_cons, createui]
    rcases hhc : tab.hascommands with _ | _
    · have hsp : tab.get_sorted_scriptpanels = [] := by
        unfold ScriptTab.get_sorted_scriptpanels
        rw [hwft.2.1 hhc]
        rfl
      rw [hsp]
      simp only [createui_panels]
      have ih2 := ih pre c (fun t ht => hwf t (List.mem_cons_of_mem tab ht)) hnd.2
        (fun t ht rt hrt => hpre t (List.mem_cons_of_mem tab ht) rt hrt)
      simp only [phase1States, List.zip] at ih2
      rw [List.filter_cons_of_neg (by rw [hhc]; simp)]
      rw [ih2]
      have htc : treeContainerCreates (tab :: rest)
          = tabContainerCreates tab + treeContainerCreates rest := by
        simp [treeContainerCreates, List.sum_cons]
      have htn : treeNewButtons (tab :: rest) = tabNewButtons tab + treeNewButtons rest := by
        simp [treeNewButtons, List.sum_cons]
      rw [htc, htn]
      rw [show tabContainerCreates tab = 0 from by simp [tabContainerCreates, hsp]]
      rw [show tabNewButtons tab = 0 from by simp [tabNewButtons, hsp]]
      simp only [Nat.zero_add]
    · rw [List.filter_cons_of_pos (by rw [hhc])]
      simp only [List.map_cons, if_true]
      have hinst := createui_panels_run1 s a tab.tabName tab.get_sorted_scriptpanels
        hwft.1 hwft.2.2 tab.get_sorted_scriptpanels []
        pre ((rest.filter (fun t => t.hascommands)).map phase1RTab) c rfl
        (fun rt hrt => by
          have := hpre tab (List.mem_cons_self tab rest) rt hrt
          simpa using this)
      simp only [uiWithTab, tabInProgress, tabDone, List.nil_append, List.map_nil] at hinst
      simp only [phase1State, phase1RTab]
      rw [hinst]
      have ih2 := ih (pre ++ [canonicalRTab s a tab])
        { c with
            containerCreates := c.containerCreates
              + (tab.get_sorted_scriptpanels.map panelContainerCreates).sum,
            newbuttoncount := c.newbuttoncount
              + (tab.get_sorted_scriptpanels.map panelNewButtons).sum }
        (fun t ht => hwf t (List.mem_cons_of_mem tab ht)) hnd.2
        (fun t ht rt hrt => by
          rcases List.mem_append.mp hrt with h1 | h1
          · exact hpre t (List.mem_cons_of_mem tab ht) rt h1
          · simp only [List.mem_singleton] at h1
            subst h1
            show (canonicalRTab s a tab).name ≠ t.tabName
            simp only [canonicalRTab]
            intro hne
            exact hnd.1 (hne ▸ List.mem_map_of_mem (fun t => t.tabName) ht))
      simp only [phase1States, phase1State, List.zip] at ih2
      rw [show ({ tabs := pre
            ++ ({ name := tab.tabName,
                  panels := tab.get_sorted_scriptpanels.map (canonicalRPanel s a) } : RTab)
            :: (rest.filter (fun t => t.hascommands)).map phase1RTab } : RevitUI)
          = ({ tabs := (pre ++ [canonicalRTab s a tab])
              ++ (rest.filter (fun t => t.hascommands)).map phase1RTab } : RevitUI) from by
        rw [List.append_assoc, List.singleton_append]
        rfl]
      dsimp only
      rw [ih2]
      rw [List.append_assoc, List.singleton_append]
      have htc : treeContainerCreates (tab :: rest)
          = tabContainerCreates tab + treeContainerCreates rest := by
        simp [treeContainerCreates, List.sum_cons]
      have htn : treeNewButtons (tab :: rest) = tabNewButtons tab + treeNewButtons rest := by
        simp [treeNewButtons, List.sum_cons]
      rw [htc, htn]
      simp only [tabContainerCreates, tabNewButtons, Nat.add_assoc]

/-- Phase 2 of a second run: every tab's panels update in place against
the canonical ribbon, which is returned unchanged; only
`updatedbuttoncount` moves, by the first run's total button count. -/
theorem createui_run2 (s a : String) (tabs0 : List ScriptTab)
    (hnd : (tabs0.map (fun t => t.tabName)).Nodup)
    (hwf0 : ∀ t ∈ tabs0, TabWellFormed t) :
    ∀ (ts : List ScriptTab) (c : OpCounts),
      (∀ t ∈ ts, t ∈ tabs0) →
      (∀ t ∈ ts, TabWellFormed t) →
      createui s a (ts.zip (phase2States s a ts)) (canonicalUI s a tabs0) c
        = .ok (canonicalUI s a tabs0,
            { c with updatedbuttoncount := c.updatedbuttoncount + treeNewButtons ts }) := by
  intro ts
  induction ts with
  | nil =>
    intro c _ _
    simp [createui, phase2States, treeNewButtons]
  | cons tab rest ih =>
    intro c hmem hwf
    have hmemt := hmem tab (List.mem_cons_self tab rest)
    have hwft := hwf tab (List.mem_cons_self tab rest)
    simp only [phase2States, List.map_cons, List.zip_cons_cons, createui]
    have ih2 := ih { c with updatedbuttoncount := c.updatedbuttoncount + tabNewButtons tab }
      (fun t ht => hmem t (List.mem_cons_of_mem tab ht))
      (fun t ht => hwf t (List.mem_cons_of_mem tab ht))
    simp only [phase2States, List.zip] at ih2
    rcases hhc : tab.hascommands with _ | _
    · have hsp : tab.get_sorted_scriptpanels = [] := by
        unfold ScriptTab.get_sorted_scriptpanels
        rw [hwft.2.1 hhc]
        rfl
      rw [hsp]
      simp only [createui_panels]
      have htn0 : tabNewButtons tab = 0 := by simp [tabNewButtons, hsp]
      rw [htn0, Nat.add_zero] at ih2
      rw [ih2]
      have htn : treeNewButtons (tab :: rest) = tabNewButtons tab + treeNewButtons rest := by
        simp [treeNewButtons, List.sum_cons]
      rw [htn, htn0, Nat.zero_add]
    · simp only [if_true]
      rw [createui_panels_run2 s a tab.tabName (canonicalUI s a tabs0)
        tab.get_sorted_scriptpanels hwft.1 hwft.2.2
        (fun q hq => canonicalUI_panelItems s a tabs0 tab q hnd hmemt hhc hwft.1 hq)
        (fun q hq => canonicalUI_setPanelItems_self s a tabs0 tab q hnd hmemt hhc hwft.1 hq)
        tab.get_sorted_scriptpanels c (fun q hq => hq)]
      dsimp only
      rw [show (tab.get_sorted_scriptpanels.map panelNewButtons).sum = tabNewButtons tab
        from rfl]
      rw [ih2]
      have htn : treeNewButtons (tab :: rest) = tabNewButtons tab + treeNewButtons rest := by
        simp [treeNewButtons, List.sum_cons]
      rw [htn]
      rw [Nat.add_assoc]

/-- A first reconciliation run over an empty ribbon builds exactly the
canonical UI, with the first-run counters. -/
theorem createpyrevitui_run1 (s a : String) (tabs : List ScriptTab)
    (hwf : TreeWellFormed tabs) :
    createpyrevitui s a tabs { tabs := [] }
      = .ok (canonicalUI s a tabs, run1Counts tabs) := by
  unfold createpyrevitui
  rw [phase1_run1 tabs [] {} (fun t _ rt hrt => absurd hrt (List.not_mem_nil rt)) hwf.1]
  dsimp only
  rw [createui_run1 s a tabs [] _ hwf.2 hwf.1
    (fun t _ rt hrt => absurd hrt (List.not_mem_nil rt))]
  simp [canonicalUI, run1Counts]

/-- A second reconciliation run over the canonical ribbon returns it
unchanged, with only the update counter set. -/
theorem createpyrevitui_run2 (s a : String) (tabs : List ScriptTab)
    (hwf : TreeWellFormed tabs) :
    createpyrevitui s a tabs (canonicalUI s a tabs)
      = .ok (canonicalUI s a tabs, run2Counts tabs) := by
  unfold createpyrevitui
  rw [phase1_run2 s a tabs hwf.1 hwf.2 tabs {} (fun t ht => ht)]
  dsimp only
  rw [createui_run2 s a tabs hwf.1 hwf.2 tabs {} (fun t ht => ht) hwf.2]
  simp [run2Counts]

/-- C1 (amended): for a well-formed desired tree — distinct tab, panel and
item names, composite sub-buttons with distinct class names, stacks of
exactly three (or no) commands, and no panels under command-less tabs —
reconciliation is idempotent: a first run over an empty ribbon builds the
canonical UI, and a second run over that ribbon returns it unchanged with
zero creates and orphan-disables, every first-run button counted once as
an in-place update. -/
theorem reconcile_idempotent_amended (s a : String) (tabs : List ScriptTab)
    (hwf : TreeWellFormed tabs) :
    ∃ c1 c2 : OpCounts,
      createpyrevitui s a tabs { tabs := [] } = .ok (canonicalUI s a tabs, c1)
      ∧ createpyrevitui s a tabs (canonicalUI s a tabs) = .ok (canonicalUI s a tabs, c2)
      ∧ c2.tabCreates = 0 ∧ c2.panelCreates = 0 ∧ c2.containerCreates = 0
      ∧ c2.newbuttoncount = 0 ∧ c2.orphanDisables = 0
      ∧ c2.updatedbuttoncount = c1.newbuttoncount :=
  ⟨run1Counts tabs, run2Counts tabs, createpyrevitui_run1 s a tabs hwf,
    createpyrevitui_run2 s a tabs hwf, rfl, rfl, rfl, rfl, rfl, rfl⟩

/-- Witness for C1 (amended) at a concrete well-formed tree. -/
theorem reconcile_idempotent_amended_witness :
    TreeWellFormed [wfScenTab]
    ∧ (∃ c1 c2 : OpCounts,
        createpyrevitui "S" "A" [wfScenTab] { tabs := [] }
            = .ok (canonicalUI "S" "A" [wfScenTab], c1)
        ∧ createpyrevitui "S" "A" [wfScenTab] (canonicalUI "S" "A" [wfScenTab])
            = .ok (canonicalUI "S" "A" [wfScenTab], c2)
        ∧ c2.tabCreates = 0 ∧ c2.panelCreates = 0 ∧ c2.containerCreates = 0
        ∧ c2.newbuttoncount = 0 ∧ c2.orphanDisables = 0
        ∧ c2.updatedbuttoncount = c1.newbuttoncount) :=
  ⟨by decide, reconcile_idempotent_amended "S" "A" [wfScenTab] (by decide)⟩

theorem nodup_map_inj {α β : Type} (f : α → β) :
    ∀ {l : List α}, (l.map f).Nodup → ∀ a ∈ l, ∀ b ∈ l, f a = f b → a = b := by
  intro l
  induction l with
  | nil => intro _ a ha; cases ha
  | cons x t ih =>
    intro hnd a ha b hb hf
    simp only [List.map_cons, List.nodup_cons] at hnd
    rcases List.mem_cons.mp ha with rfl | ha'
    · rcases List.mem_cons.mp hb with rfl | hb'
      · rfl
      · exact absurd (hf ▸ List.mem_map_of_mem f hb') hnd.1
    · rcases List.mem_cons.mp hb with rfl | hb'
      · exact absurd (hf ▸ List.mem_map_of_mem f ha') hnd.1
      · exact ih hnd.2 a ha' b hb' hf

theorem find?_perm_unique {α : Type} (p : α → Bool) {l1 l2 : List α} (h : l1.Perm l2)
    (huniq : ∀ a ∈ l1, ∀ b ∈ l1, p a = true → p b = true → a = b) :
    l1.find? p = l2.find? p := by
  rcases hf : l1.find? p with _ | a
  · rcases hg : l2.find? p with _ | b
    · rfl
    · exfalso
      have hb := List.find?_some hg
      have hbm := h.mem_iff.mpr (List.mem_of_find?_eq_some hg)
      have := List.find?_eq_none.mp hf b hbm
      rw [hb] at this
      exact this rfl
  · have ha := List.find?_some hf
    have ham : a ∈ l2 := h.mem_iff.mp (List.mem_of_find?_eq_some hf)
    rcases hg : l2.find? p with _ | b
    · exfalso
      have := List.find?_eq_none.mp hg a ham
      rw [ha] at this
      exact this rfl
    · have hb := List.find?_some hg
      have hbm : b ∈ l1 := h.mem_iff.mpr (List.mem_of_find?_eq_some hg)
      rw [huniq a (List.mem_of_find?_eq_some hf) b hbm ha hb]

theorem any_perm_eq {α : Type} (p : α → Bool) {l1 l2 : List α} (h : l1.Perm l2) :
    l1.any p = l2.any p := by
  rcases h1 : l1.any p with _ | _
  · rcases h2 : l2.any p with _ | _
    · rfl
    · exfalso
      obtain ⟨x, hx, hpx⟩ := List.any_eq_true.mp h2
      have := List.any_eq_true.mpr ⟨x, h.mem_iff.mpr hx, hpx⟩
      rw [h1] at this
      exact Bool.noConfusion this
  · obtain ⟨x, hx, hpx⟩ := List.any_eq_true.mp h1
    exact (List.any_eq_true.mpr ⟨x, h.mem_iff.mp hx, hpx⟩).symm

theorem eq_of_perm_of_sorted_anti {α : Type} (r : α → α → Prop) :
    ∀ {l1 l2 : List α}, l1.Perm l2 → l1.Sorted r → l2.Sorted r →
      (∀ a ∈ l1, ∀ b ∈ l1, r a b → r b a → a = b) → l1 = l2 := by
  intro l1
  induction l1 with
  | nil =>
    intro l2 h _ _ _
    exact h.nil_eq
  | cons a t1 ih =>
    intro l2 h s1 s2 hanti
    rcases l2 with _ | ⟨b, t2⟩
    · exact absurd h.symm.nil_eq (by simp)
    · have hab : a = b := by
        have ham : a ∈ b :: t2 := h.mem_iff.mp (List.mem_cons_self a t1)
        rcases List.mem_cons.mp ham with rfl | ha2
        · rfl
        · have hbm : b ∈ a :: t1 := h.mem_iff.mpr (List.mem_cons_self b t2)
          rcases List.mem_cons.mp hbm with rfl | hb1
          · rfl
          · have hrab : r a b := (List.sorted_cons.mp s1).1 b hb1
            have hrba : r b a := (List.sorted_cons.mp s2).1 a ha2
            exact hanti a (List.mem_cons_self a t1) b (List.mem_cons_of_mem a hb1) hrab hrba
      subst hab
      have htails := h.cons_inv
      rw [ih htails (List.sorted_cons.mp s1).2 (List.sorted_cons.mp s2).2
        (fun x hx y hy => hanti x (List.mem_cons_of_mem a hx) y (List.mem_cons_of_mem a hy))]

/-- Stable sorting of two permuted lists agrees whenever the order is
total and transitive and antisymmetric on the elements present. -/
theorem insertionSort_perm_eq {α : Type} (r : α → α → Prop) [DecidableRel r]
    (htot : ∀ a b : α, r a b ∨ r b a) (htrans : ∀ a b c : α, r a b → r b c → r a c)
    {l1 l2 : List α} (hperm : l1.Perm l2)
    (hanti : ∀ a ∈ l1, ∀ b ∈ l1, r a b → r b a → a = b) :
    List.insertionSort r l1 = List.insertionSort r l2 := by
  haveI : IsTotal α r := ⟨htot⟩
  haveI : IsTrans α r := ⟨fun a b c => htrans a b c⟩
  have hp : (List.insertionSort r l1).Perm (List.insertionSort r l2) :=
    ((List.perm_insertionSort r l1).trans hperm).trans (List.perm_insertionSort r l2).symm
  exact eq_of_perm_of_sorted_anti r hp (List.sorted_insertionSort r l1)
    (List.sorted_insertionSort r l2)
    (fun a ha b hb => hanti a ((List.perm_insertionSort r l1).mem_iff.mp ha)
      b ((List.perm_insertionSort r l1).mem_iff.mp hb))

theorem charListLe_total : ∀ (a b : List Char), charListLe a b = true ∨ charListLe b a = true := by
  intro a
  induction a with
  | nil => intro b; left; rfl
  | cons c cs ih =>
    intro b
    rcases b with _ | ⟨d, ds⟩
    · right; rfl
    · unfold charListLe
      rcases Nat.lt_trichotomy c.toNat d.toNat with h | h | h
      · left
        rw [if_pos h]
      · rw [if_neg (by omega), if_neg (by omega), if_neg (by omega), if_neg (by omega)]
        exact ih ds
      · right
        rw [if_pos h]

theorem charListLe_trans : ∀ (a b c : List Char),
    charListLe a b = true → charListLe b c = true → charListLe a c = true := by
  intro a
  induction a with
  | nil => intro b c _ _; rfl
  | cons x xs ih =>
    intro b c hab hbc
    rcases b with _ | ⟨y, ys⟩
    · exact absurd hab (by simp [charListLe])
    · rcases c with _ | ⟨z, zs⟩
      · exact absurd hbc (by simp [charListLe])
      · unfold charListLe at hab hbc ⊢
        rcases Nat.lt_trichotomy x.toNat y.toNat with h1 | h1 | h1
        · rcases Nat.lt_trichotomy y.toNat z.toNat with h2 | h2 | h2
          · rw [if_pos (by omega)]
          · rw [if_pos (by omega)]
          · rw [if_neg (by omega), if_pos h2] at hbc
            exact Bool.noConfusion hbc
        · rcases Nat.lt_trichotomy y.toNat z.toNat with h2 | h2 | h2
          · rw [if_pos (by omega)]
          · rw [if_neg (by omega), if_neg (by omega)]
            rw [if_neg (by omega), if_neg (by omega)] at hab
            rw [if_neg (by omega), if_neg (by omega)] at hbc
            exact ih ys zs hab hbc
          · rw [if_neg (by omega), if_pos h2] at hbc
            exact Bool.noConfusion hbc
        · rw [if_neg (by omega), if_pos h1] at hab
          exact Bool.noConfusion hab

theorem charListLe_antisymm : ∀ (a b : List Char),
    charListLe a b = true → charListLe b a = true → a = b := by
  intro a
  induction a with
  | nil =>
    intro b _ hba
    rcases b with _ | ⟨d, ds⟩
    · rfl
    · exact absurd hba (by simp [charListLe])
  | cons c cs ih =>
    intro b hab hba
    rcases b with _ | ⟨d, ds⟩
    · exact absurd hab (by simp [charListLe])
    · unfold charListLe at hab hba
      rcases Nat.lt_trichotomy c.toNat d.toNat with h | h | h
      · rw [if_neg (by omega), if_pos h] at hba
        exact Bool.noConfusion hba
      · rw [if_neg (show ¬c.toNat < d.toNat by omega),
          if_neg (show ¬d.toNat < c.toNat by omega)] at hab
        rw [if_neg (show ¬d.toNat < c.toNat by omega),
          if_neg (show ¬c.toNat < d.toNat by omega)] at hba
        have hcd : c = d := by
          apply Char.ext
          have h2 : c.val.toBitVec.toNat = d.val.toBitVec.toNat := h
          exact congrArg UInt32.mk (BitVec.toNat_injective h2)
        rw [hcd, ih ds hab hba]
      · rw [if_neg (by omega), if_pos h] at hab
        exact Bool.noConfusion hab

theorem strLe_total (a b : String) : strLe a b = true ∨ strLe b a = true :=
  charListLe_total a.toList b.toList

theorem strLe_trans (a b c : String) :
    strLe a b = true → strLe b c = true → strLe a c = true :=
  charListLe_trans a.toList b.toList c.toList

theorem strLe_antisymm (a b : String) :
    strLe a b = true → strLe b a = true → a = b := by
  intro h1 h2
  have := charListLe_antisymm a.toList b.toList h1 h2
  exact String.ext (by simpa [String.toList] using this)

/-- The `find_scriptcommands` fold appends exactly the decoded commands of
the processed entries, in order. -/
theorem find_scriptcommands_fold (listing : List FSEntry) (searchdir tabname : String) :
    ∀ (l : List FSEntry) (st : SessionState),
      l.foldl (find_scriptcommands_step listing searchdir tabname) st
        = { st with pyRevitScriptCommands := st.pyRevitScriptCommands
            ++ l.filterMap (cmdEntryDecode listing searchdir tabname) } := by
  intro l
  induction l with
  | nil => intro st; simp
  | cons e rest ih =>
    intro st
    rw [List.foldl_cons, List.filterMap_cons]
    rcases hcond : (!e.isDir && (".py" == pyLower (pySplitext e.name).2)) with _ | _
    · have hstep : find_scriptcommands_step listing searchdir tabname st e = st := by
        unfold find_scriptcommands_step
        rw [if_neg (by rw [hcond]; simp)]
      have hdec : cmdEntryDecode listing searchdir tabname e = none := by
        unfold cmdEntryDecode
        rw [if_neg (by rw [hcond]; simp)]
      rw [hstep, hdec, ih]
    · rcases hinit : ScriptCommand.init listing searchdir e.name tabname with err | c
      · have hstep : find_scriptcommands_step listing searchdir tabname st e = st := by
          unfold find_scriptcommands_step
          rw [if_pos hcond, hinit]
        have hdec : cmdEntryDecode listing searchdir tabname e = none := by
          unfold cmdEntryDecode
          rw [if_pos hcond, hinit]
          rfl
        rw [hstep, hdec, ih]
      · have hstep : find_scriptcommands_step listing searchdir tabname st e
            = { st with pyRevitScriptCommands := st.pyRevitScriptCommands ++ [c] } := by
          unfold find_scriptcommands_step
          rw [if_pos hcond, hinit]
        have hdec : cmdEntryDecode listing searchdir tabname e = some c := by
          unfold cmdEntryDecode
          rw [if_pos hcond, hinit]
          rfl
        rw [hstep, hdec, ih]
        simp [List.append_assoc]

/-- `find_scriptcommands` appends `commandsOf` the listing. -/
theorem find_scriptcommands_spec (listing : List FSEntry) (searchdir tabname : String)
    (st : SessionState) :
    find_scriptcommands listing searchdir tabname st
      = { st with pyRevitScriptCommands := st.pyRevitScriptCommands
          ++ commandsOf listing searchdir tabname } := by
  unfold find_scriptcommands commandsOf
  exact find_scriptcommands_fold listing searchdir tabname _ st

theorem except_toOption_ok {ε α : Type} {x : Except ε α} {v : α}
    (h : x.toOption = some v) : x = .ok v := by
  rcases x with e | a
  · cases h
  · rw [show a = v from by simpa [Except.toOption] using h]

/-- Every decoded flat panel belongs to the tab being walked. -/
theorem panelsOf_tabName (tabdir tabname : String) (l : List FSEntry) :
    ∀ sp ∈ panelsOf tabdir tabname l, sp.tabName = tabname := by
  intro sp hsp
  obtain ⟨e, _, hdec⟩ := List.mem_filterMap.mp hsp
  by_cases hrel : panelEntryRelevant e = true
  · rw [if_pos hrel] at hdec
    have hok := except_toOption_ok hdec
    unfold ScriptPanel.init at hok
    split at hok
    · injection hok with h2
      rw [← h2]
    · dsimp only at hok
      split at hok
      · split at hok
        · split at hok
          · cases hok
          · injection hok with h2
            rw [← h2]
        · cases hok
      · cases hok
  · rw [if_neg hrel] at hdec
    cases hdec

/-- Every decoded flat panel starts with no groups. -/
theorem panelsOf_scriptGroups (tabdir tabname : String) (l : List FSEntry) :
    ∀ sp ∈ panelsOf tabdir tabname l, sp.scriptGroups = [] := by
  intro sp hsp
  obtain ⟨e, _, hdec⟩ := List.mem_filterMap.mp hsp
  by_cases hrel : panelEntryRelevant e = true
  · rw [if_pos hrel] at hdec
    have hok := except_toOption_ok hdec
    unfold ScriptPanel.init at hok
    split at hok
    · injection hok with h2
      rw [← h2]
    · dsimp only at hok
      split at hok
      · split at hok
        · split at hok
          · cases hok
          · injection hok with h2
            rw [← h2]
        · cases hok
      · cases hok
  · rw [if_neg hrel] at hdec
    cases hdec

/-- The `find_scriptpanels` loop over a flat listing (no bundled panel
directories): every relevant well-formed entry appends a panel that adopts
the session groups, and the commands and groups are untouched. -/
theorem find_scriptpanels_loop_flat (loaded : List Assembly) (tabdir tabname : String) :
    ∀ (l : List FSEntry) (st : SessionState),
      (∀ e ∈ l, panelEntryBundled e = false) →
      (∀ e ∈ l, panelEntryHardError tabdir tabname e = false) →
      ((panelsOf tabdir tabname l).map (fun sp => sp.panelName)).Nodup →
      (∀ sp ∈ panelsOf tabdir tabname l,
        ∀ q ∈ st.pyRevitScriptPanels, ¬(q.panelName = sp.panelName ∧ q.tabName = sp.tabName)) →
      find_scriptpanels_loop loaded tabdir tabname l st =
        .ok { st with pyRevitScriptPanels := (st.pyRevitScriptPanels
            ++ (panelsOf tabdir tabname l).map
                (fun sp => sp.adoptgroups st.pyRevitScriptGroups)) } := by
  intro l
  induction l with
  | nil =>
    intro st _ _ _ _
    simp [find_scriptpanels_loop, panelsOf]
  | cons e rest ih =>
    intro st hflat hpok hnd hdisj
    have hfe : panelEntryBundled e = false := hflat e (List.mem_cons_self e rest)
    have hpe : panelEntryHardError tabdir tabname e = false := hpok e (List.mem_cons_self e rest)
    rw [find_scriptpanels_loop]
    by_cases hrel : panelEntryRelevant e = true
    · rw [if_pos hrel]
      rw [hfe]
      rcases hinit : ScriptPanel.init tabdir e.name tabname false with err | sp
      · have hskip : ∀ er2, err = er2 →
            panelsOf tabdir tabname (e :: rest) = panelsOf tabdir tabname rest := by
          intro er2 _
          unfold panelsOf
          rw [List.filterMap_cons,
            show (if panelEntryRelevant e = true
                then (ScriptPanel.init tabdir e.name tabname false).toOption else none) = none
              from by rw [if_pos hrel, hinit]; rfl]
        rcases err with _ | _ | _ | _ | _
        · rw [hskip .unknownFileNameFormat rfl] at hnd hdisj ⊢
          exact ih st (fun x hx => hflat x (List.mem_cons_of_mem e hx))
            (fun x hx => hpok x (List.mem_cons_of_mem e hx)) hnd hdisj
        · exfalso
          unfold panelEntryHardError at hpe
          rw [if_pos (by rw [hrel, hfe]; rfl), hinit] at hpe
          simp at hpe
        · exfalso
          unfold panelEntryHardError at hpe
          rw [if_pos (by rw [hrel, hfe]; rfl), hinit] at hpe
          simp at hpe
        · exfalso
          unfold panelEntryHardError at hpe
          rw [if_pos (by rw [hrel, hfe]; rfl), hinit] at hpe
          simp at hpe
        · exfalso
          unfold panelEntryHardError at hpe
          rw [if_pos (by rw [hrel, hfe]; rfl), hinit] at hpe
          simp at hpe
      · have hps : panelsOf tabdir tabname (e :: rest)
            = sp :: panelsOf tabdir tabname rest := by
          unfold panelsOf
          rw [List.filterMap_cons,
            show (if panelEntryRelevant e = true
                then (ScriptPanel.init tabdir e.name tabname false).toOption else none)
              = some sp from by rw [if_pos hrel, hinit]; rfl]
        rw [hps] at hnd hdisj ⊢
        simp only [List.map_cons, List.nodup_cons] at hnd
        have hspmem : sp ∈ sp :: panelsOf tabdir tabname rest := List.mem_cons_self _ _
        have hcont : (st.pyRevitScriptPanels.map
            (fun x => (x.panelName, x.tabName))).contains (sp.panelName, sp.tabName)
              = false := by
          rcases hcb : (st.pyRevitScriptPanels.map
              (fun x => (x.panelName, x.tabName))).contains (sp.panelName, sp.tabName)
              with _ | _
          · exact hcb
          · exfalso
            have hmem := List.mem_of_elem_eq_true hcb
            obtain ⟨q, hq, hqe⟩ := List.mem_map.mp hmem
            apply hdisj sp hspmem q hq
            exact ⟨congrArg Prod.fst hqe, congrArg Prod.snd hqe⟩
        simp only [Bool.false_eq_true, if_false]
        rw [hcont]
        simp only [Bool.not_false, if_true]
        rw [ih _ (fun x hx => hflat x (List.mem_cons_of_mem e hx))
          (fun x hx => hpok x (List.mem_cons_of_mem e hx)) hnd.2
          (fun sp2 hsp2 q hq hkey => by
            rcases List.mem_append.mp hq with hq1 | hq1
            · exact hdisj sp2 (List.mem_cons_of_mem sp hsp2) q hq1 hkey
            · simp only [List.mem_singleton] at hq1
              subst hq1
              have hname := hkey.1
              exact hnd.1 (hname ▸ List.mem_map_of_mem (fun x => x.panelName) hsp2))]
        simp [List.append_assoc]
    · rw [if_neg hrel]
      have hps : panelsOf tabdir tabname (e :: rest) = panelsOf tabdir tabname rest := by
        unfold panelsOf
        rw [List.filterMap_cons,
          show (if panelEntryRelevant e = true
              then (ScriptPanel.init tabdir e.name tabname false).toOption else none) = none
            from by rw [if_neg hrel]]
      rw [hps] at hnd hdisj ⊢
      exact ih st (fun x hx => hflat x (List.mem_cons_of_mem e hx))
        (fun x hx => hpok x (List.mem_cons_of_mem e hx)) hnd hdisj

/-- A flat tab walk: commands from the sorted listing, groups in listing
order (each adopting matching commands), then one adopted panel per
distinct well-formed panel descriptor. -/
theorem find_scriptpanels_flat (loaded : List Assembly) (l : List FSEntry)
    (tabdir tabname : String)
    (hflat : ∀ e ∈ l, panelEntryBundled e = false)
    (hgok : ∀ e ∈ l, groupEntryHardError loaded tabdir tabname "" e = false)
    (hpok : ∀ e ∈ l, panelEntryHardError tabdir tabname e = false)
    (hpkeys : ((panelsOf tabdir tabname l).map (fun sp => sp.panelName)).Nodup) :
    find_scriptpanels loaded l tabdir tabname {}
      = .ok ⟨commandsOf l tabdir tabname, groupsOf loaded l tabdir tabname,
          discoveredPanels loaded l tabdir tabname⟩ := by
  unfold find_scriptpanels find_scriptgroups
  rw [find_scriptcommands_spec]
  rw [find_scriptgroups_loop_ok loaded tabdir tabname "" l _ hgok]
  dsimp only
  simp only [List.nil_append]
  rw [find_scriptpanels_loop_flat loaded tabdir tabname l _ hflat hpok hpkeys
    (fun sp _ q hq => absurd hq (List.not_mem_nil q))]
  simp [commandsOf, groupsOf, discoveredPanels]

/-- Decoding one command file reads the listing only through existence and
metadata lookups, which are order-independent for distinct names. -/
theorem ScriptCommand_init_perm {l1 l2 : List FSEntry} (hperm : l1.Perm l2)
    (hnames : (l1.map (fun e => e.name)).Nodup) (d f tn : String) :
    ScriptCommand.init l1 d f tn = ScriptCommand.init l2 d f tn := by
  have hfe : ∀ fn, fileExists l1 fn = fileExists l2 fn := fun fn => any_perm_eq _ hperm
  have hlp : ∀ fn, lookupFileParams l1 fn = lookupFileParams l2 fn := by
    intro fn
    unfold lookupFileParams
    rw [find?_perm_unique _ hperm (fun a ha b hb hpa hpb => by
      simp only [Bool.and_eq_true, beq_iff_eq] at hpa hpb
      exact nodup_map_inj _ hnames a ha b hb (hpa.2.trans hpb.2.symm))]
  unfold ScriptCommand.init
  simp only [hfe, hlp]

theorem cmdEntryDecode_perm {l1 l2 : List FSEntry} (hperm : l1.Perm l2)
    (hnames : (l1.map (fun e => e.name)).Nodup) (d tn : String) (e : FSEntry) :
    cmdEntryDecode l1 d tn e = cmdEntryDecode l2 d tn e := by
  unfold cmdEntryDecode
  rw [ScriptCommand_init_perm hperm hnames]

/-- The command list is independent of the enumeration order of a listing
with distinct entry names: the loop sorts the listing itself. -/
theorem commandsOf_perm {l1 l2 : List FSEntry} (hperm : l1.Perm l2)
    (hnames : (l1.map (fun e => e.name)).Nodup) (d tn : String) :
    commandsOf l1 d tn = commandsOf l2 d tn := by
  unfold commandsOf
  rw [insertionSort_perm_eq (fun a b : FSEntry => strLe a.name b.name = true)
    (fun a b => strLe_total a.name b.name)
    (fun a b c h1 h2 => strLe_trans a.name b.name c.name h1 h2) hperm
    (fun a ha b hb h1 h2 => nodup_map_inj _ hnames a ha b hb (strLe_antisymm _ _ h1 h2))]
  rw [show cmdEntryDecode l1 d tn = cmdEntryDecode l2 d tn from
    funext (fun e => cmdEntryDecode_perm hperm hnames d tn e)]

/-- Sorting a panel's adopted groups erases the listing-order dependence
when sibling group orders are distinct. -/
theorem adopt_sorted_eq (sp : ScriptPanel) (G1 G2 : List ScriptGroup)
    (hperm : G1.Perm G2) (hord : (G1.map (fun g => g.groupOrder)).Nodup)
    (hsp : sp.scriptGroups = []) :
    (sp.adoptgroups G1).get_sorted_scriptgroups
      = (sp.adoptgroups G2).get_sorted_scriptgroups := by
  unfold ScriptPanel.adoptgroups ScriptPanel.get_sorted_scriptgroups
  dsimp only
  rw [hsp]
  simp only [List.map_nil, List.nil_append]
  apply insertionSort_perm_eq (fun a b : ScriptGroup => a.groupOrder ≤ b.groupOrder)
    (fun a b => Nat.le_total a.groupOrder b.groupOrder)
    (fun a b c h1 h2 => Nat.le_trans h1 h2)
    (hperm.filter _)
  intro a ha b hb h1 h2
  exact nodup_map_inj _ hord a (List.mem_of_mem_filter ha) b (List.mem_of_mem_filter hb)
    (Nat.le_antisymm h1 h2)

/-- The `(identity, sortOrder, children)` summary of an adopted panel is
independent of the candidate groups' order. -/
theorem panelSummary_adopt_eq (sp : ScriptPanel) (G1 G2 : List ScriptGroup)
    (hperm : G1.Perm G2) (hord : (G1.map (fun g => g.groupOrder)).Nodup)
    (hsp : sp.scriptGroups = []) :
    panelSummary (sp.adoptgroups G1) = panelSummary (sp.adoptgroups G2) := by
  unfold panelSummary
  rw [adopt_sorted_eq sp G1 G2 hperm hord hsp]
  rfl

/-- C8 (amended): discovery is deterministic with respect to OS listing
order for a flat tab directory (no bundled panel sub-directories) whose
entries have distinct names, decode without uncaught exceptions, and whose
panel descriptors carry distinct names and sort orders and whose group
descriptors carry distinct sort orders.  Both walks succeed and their
`(identity, sortOrder, children-identity-sequence)` trees coincide; the
unrestricted claim is refuted separately by the listing-order
counterexample. -/
theorem discovery_order_independent_amended (loaded : List Assembly)
    (l1 l2 : List FSEntry) (tabdir tabname : String)
    (hperm : l1.Perm l2)
    (hnames : (l1.map (fun e => e.name)).Nodup)
    (hflat : ∀ e ∈ l1, panelEntryBundled e = false)
    (hgok : ∀ e ∈ l1, groupEntryHardError loaded tabdir tabname "" e = false)
    (hpok : ∀ e ∈ l1, panelEntryHardError tabdir tabname e = false)
    (hpkeys : ((panelsOf tabdir tabname l1).map (fun sp => sp.panelName)).Nodup)
    (hporders : ((panelsOf tabdir tabname l1).map (fun sp => sp.panelOrder)).Nodup)
    (hgorders : ((groupsOf loaded l1 tabdir tabname).map (fun g => g.groupOrder)).Nodup) :
    ∃ st1 st2 : SessionState,
      find_scriptpanels loaded l1 tabdir tabname {} = .ok st1
      ∧ find_scriptpanels loaded l2 tabdir tabname {} = .ok st2
      ∧ stateTreeSummary st1 = stateTreeSummary st2 := by
  have hflat2 : ∀ e ∈ l2, panelEntryBundled e = false :=
    fun e he => hflat e (hperm.mem_iff.mpr he)
  have hgok2 : ∀ e ∈ l2, groupEntryHardError loaded tabdir tabname "" e = false :=
    fun e he => hgok e (hperm.mem_iff.mpr he)
  have hpok2 : ∀ e ∈ l2, panelEntryHardError tabdir tabname e = false :=
    fun e he => hpok e (hperm.mem_iff.mpr he)
  have hpanelsperm : (panelsOf tabdir tabname l1).Perm (panelsOf tabdir tabname l2) :=
    hperm.filterMap _
  have hpkeys2 : ((panelsOf tabdir tabname l2).map (fun sp => sp.panelName)).Nodup :=
    ((hpanelsperm.map _).nodup_iff).mp hpkeys
  refine ⟨_, _, find_scriptpanels_flat loaded l1 tabdir tabname hflat hgok hpok hpkeys,
    find_scriptpanels_flat loaded l2 tabdir tabname hflat2 hgok2 hpok2 hpkeys2, ?_⟩
  have hcmd : commandsOf l1 tabdir tabname = commandsOf l2 tabdir tabname :=
    commandsOf_perm hperm hnames tabdir tabname
  have hgperm : (groupsOf loaded l1 tabdir tabname).Perm (groupsOf loaded l2 tabdir tabname) := by
    unfold groupsOf
    rw [← hcmd]
    exact hperm.filterMap _
  unfold stateTreeSummary
  dsimp only
  unfold discoveredPanels
  rw [List.map_map, List.map_map]
  simp only [Function.comp_def]
  rw [List.map_congr_left (fun sp hsp =>
    panelSummary_adopt_eq sp (groupsOf loaded l1 tabdir tabname)
      (groupsOf loaded l2 tabdir tabname) hgperm hgorders
      (panelsOf_scriptGroups tabdir tabname l1 sp hsp))]
  apply insertionSort_perm_eq
    (fun x y : String × Nat × List (String × Nat × List String) => x.2.1 ≤ y.2.1)
    (fun a b => Nat.le_total a.2.1 b.2.1)
    (fun a b c h1 h2 => Nat.le_trans h1 h2)
    (hpanelsperm.map _)
  intro a ha b hb h1 h2
  have hnd2 : ((panelsOf tabdir tabname l1).map
      (fun sp => panelSummary (sp.adoptgroups (groupsOf loaded l2 tabdir tabname)))).map
        (fun x => x.2.1) = (panelsOf tabdir tabname l1).map (fun sp => sp.panelOrder) := by
    rw [List.map_map]
    rfl
  exact nodup_map_inj _ (by rw [hnd2]; exact hporders) a ha b hb (Nat.le_antisymm h1 h2)

/-- Witness for C8 (amended) at a concrete two-panel flat snapshot. -/
theorem discovery_order_independent_amended_witness :
    detScenListing1.Perm detScenListing2
    ∧ (∃ st1 st2 : SessionState,
        find_scriptpanels [] detScenListing1 "d" "T" {} = .ok st1
        ∧ find_scriptpanels [] detScenListing2 "d" "T" {} = .ok st2
        ∧ stateTreeSummary st1 = stateTreeSummary st2) :=
  ⟨List.Perm.swap (FSEntry.file "0202_P2_PullDown_B.png" "" "")
      (FSEntry.file "0101_P1_PullDown_A.png" "" "") [],
   discovery_order_independent_amended [] detScenListing1 detScenListing2 "d" "T"
     (List.Perm.swap (FSEntry.file "0202_P2_PullDown_B.png" "" "")
       (FSEntry.file "0101_P1_PullDown_A.png" "" "") [])
     (by decide) (by decide) (by decide) (by decide) (by decide) (by decide) (by decide)⟩
